import Mathlib

/-!
# OctaForge scripting bridge (src/octaforge/of_lua.cpp)

A shallow embedding of the Lua bridge of the engine: the external value
broker (`external_set`, `external_unset`, `external_get`), the native
function registry (`reg_fun`, `setup_binds`) and the string pin table
(`pin_string`, `unpin_string`).

Every C function is translated statement by statement.  The Lua state is an
explicit value that is passed through the calls of the Lua C API; each API
function used by the source has a definition of the same name below.  A call
that the C API leaves undefined (an invalid stack index, a table operation on
something that is not a table) yields `Fault.undefined`.

The stack of a Lua state is written with its top first.
-/

namespace OF

/-! ## Values, tables and the Lua state -/

/-- Lua values.  Numbers are the integer-valued ones, which are the only
numbers the bridge stores; tables and userdata are references into the heap
of the state; `cfun` is a C function (with `up`, the heap cell of its
upvalues, when it is a closure). -/
inductive LVal where
  | nil
  | bool (b : Bool)
  | num (n : Int)
  | str (s : String)
  | tbl (a : Nat)
  | udata (a : Nat)
  | cfun (f : Nat)
  | cclosure (f : Nat) (up : Nat)
  deriving DecidableEq, Repr

/-- The content of a Lua table: key/value pairs, a key occurs at most once
after any `rawset`. -/
abbrev LTable := List (LVal × LVal)

/-- Raw read of a table: an absent key reads as nil. -/
def LTable.rawget : LTable → LVal → LVal
  | [], _ => .nil
  | (k1, v) :: t, k => if k1 = k then v else LTable.rawget t k

/-- Raw write of a table: storing nil removes the key. -/
def LTable.rawset (t : LTable) (k v : LVal) : LTable :=
  if v = .nil then t.filter (fun e => e.1 ≠ k)
  else (k, v) :: t.filter (fun e => e.1 ≠ k)

/-- Search of the first border of a table from `n` on, at most `fuel` steps. -/
def LTable.objlenFrom (t : LTable) : Nat → Nat → Nat
  | 0, n => n
  | fuel + 1, n =>
    if LTable.rawget t (.num (n + 1)) = .nil then n else LTable.objlenFrom t fuel (n + 1)

/-- Length of a table (`lua_objlen`): a border, that is an `n` with `t[n+1]`
nil and `t[n]` not nil unless `n` is 0.  The first border is taken; a table
with `m` entries has one among `0..m`. -/
def LTable.objlen (t : LTable) : Nat := LTable.objlenFrom t t.length 0

/-- A heap cell: the fields of a table (or the upvalues of a closure, the
empty list for a userdata) and its metatable. -/
structure HObj where
  fields : LTable
  meta : LVal
  deriving DecidableEq, Repr

/-- One `lua_State`: the registry, the table of globals, the heap of tables
and userdata, and the stack of the running C frame, top first. -/
structure LuaState where
  registry : LTable
  globals : LTable
  heap : List HObj
  stack : List LVal
  deriving DecidableEq, Repr

/-- Ways in which a call does not return normally. -/
inductive Fault where
  /-- A failed `assert`: the process aborts. -/
  | assertion
  /-- The engine's `fatal`: the message is logged and the process exits. -/
  | fatal (msg : String)
  /-- A Lua error raised inside a C function (`luaL_error`, a failed argument check). -/
  | luaError (msg : String)
  /-- Behaviour the Lua C API leaves undefined. -/
  | undefined
  deriving DecidableEq, Repr

/-- Conversion of an integer to the C type `int` (32 bits, two's complement). -/
def toInt32 (x : Int) : Int := (x + 2147483648) % 4294967296 - 2147483648

def LUA_REGISTRYINDEX : Int := -10000
def LUA_GLOBALSINDEX : Int := -10002
def LUA_REFNIL : Int := -1
def FREELIST_REF : Int := 0

/-- The stack slot an index names: `1` is the bottom of the frame, `-1` its top. -/
def index2adr (L : LuaState) : Int → Option LVal
  | Int.ofNat 0 => none
  | Int.ofNat (n + 1) =>
    if n + 1 ≤ L.stack.length then L.stack[L.stack.length - (n + 1)]? else none
  | Int.negSucc n => L.stack[n]?

/-- What a table operand of the API refers to. -/
inductive TRef where
  | registry
  | globals
  | obj (a : Nat)
  deriving DecidableEq, Repr

/-- Resolution of an index to a table: the two pseudo-indices, or a stack slot
that holds a table of the heap. -/
def tableAt (L : LuaState) (idx : Int) : Except Fault TRef :=
  if idx = LUA_REGISTRYINDEX then .ok .registry
  else if idx = LUA_GLOBALSINDEX then .ok .globals
  else match index2adr L idx with
    | some (.tbl a) => if a < L.heap.length then .ok (.obj a) else .error .undefined
    | _ => .error .undefined

def getFields (L : LuaState) : TRef → LTable
  | .registry => L.registry
  | .globals => L.globals
  | .obj a => match L.heap[a]? with
    | some o => o.fields
    | none => []

def setFields (L : LuaState) (r : TRef) (t : LTable) : LuaState :=
  match r with
  | .registry => { L with registry := t }
  | .globals => { L with globals := t }
  | .obj a => match L.heap[a]? with
    | some o => { L with heap := L.heap.set a { o with fields := t } }
    | none => L

/-! ## The Lua C API, as far as the bridge uses it -/

def lua_pushnil (L : LuaState) : LuaState := { L with stack := .nil :: L.stack }

def lua_pushboolean (L : LuaState) (b : Bool) : LuaState :=
  { L with stack := .bool b :: L.stack }

def lua_pushinteger (L : LuaState) (n : Int) : LuaState :=
  { L with stack := .num n :: L.stack }

def lua_pushstring (L : LuaState) (s : String) : LuaState :=
  { L with stack := .str s :: L.stack }

def lua_pushliteral (L : LuaState) (s : String) : LuaState := lua_pushstring L s

def lua_pushcfunction (L : LuaState) (f : Nat) : LuaState :=
  { L with stack := .cfun f :: L.stack }

def lua_pushvalue (L : LuaState) (idx : Int) : Except Fault LuaState :=
  match index2adr L idx with
  | some v => .ok { L with stack := v :: L.stack }
  | none => .error .undefined

def lua_pop (L : LuaState) (n : Nat) : Except Fault LuaState :=
  if n ≤ L.stack.length then .ok { L with stack := L.stack.drop n } else .error .undefined

/-- The call `lua_rawget(L, idx)`: the key on top is replaced by `t[key]`. -/
def lua_rawget (L : LuaState) (idx : Int) : Except Fault LuaState := do
  let r ← tableAt L idx
  match L.stack with
  | k :: rest => pure { L with stack := (getFields L r).rawget k :: rest }
  | [] => throw .undefined

/-- The call `lua_rawset(L, idx)`: `t[k] = v` for the value `v` on top and the
key `k` below it; both are popped.  A nil key is a Lua error. -/
def lua_rawset (L : LuaState) (idx : Int) : Except Fault LuaState := do
  let r ← tableAt L idx
  match L.stack with
  | v :: k :: rest =>
    if k = .nil then throw (.luaError "table index is nil")
    else pure (setFields { L with stack := rest } r ((getFields L r).rawset k v))
  | _ => throw .undefined

def lua_rawgeti (L : LuaState) (idx : Int) (n : Int) : Except Fault LuaState := do
  let r ← tableAt L idx
  pure { L with stack := (getFields L r).rawget (.num n) :: L.stack }

def lua_rawseti (L : LuaState) (idx : Int) (n : Int) : Except Fault LuaState := do
  let r ← tableAt L idx
  match L.stack with
  | v :: rest => pure (setFields { L with stack := rest } r ((getFields L r).rawset (.num n) v))
  | [] => throw .undefined

/-- The call `lua_getfield(L, idx, k)`.  The tables the bridge reads this way
(the registry, the globals, the fresh tables of `setup_binds`) have no
metatable, so the read is the raw one. -/
def lua_getfield (L : LuaState) (idx : Int) (k : String) : Except Fault LuaState := do
  let r ← tableAt L idx
  pure { L with stack := (getFields L r).rawget (.str k) :: L.stack }

/-- The call `lua_setfield(L, idx, k)`: `t[k] = v` for the value on top, which
is popped.  As for `lua_getfield` the write is the raw one. -/
def lua_setfield (L : LuaState) (idx : Int) (k : String) : Except Fault LuaState := do
  let r ← tableAt L idx
  match L.stack with
  | v :: rest => pure (setFields { L with stack := rest } r ((getFields L r).rawset (.str k) v))
  | [] => throw .undefined

def lua_getglobal (L : LuaState) (k : String) : Except Fault LuaState :=
  lua_getfield L LUA_GLOBALSINDEX k

def lua_setglobal (L : LuaState) (k : String) : Except Fault LuaState :=
  lua_setfield L LUA_GLOBALSINDEX k

/-- Conversion of a value to a number (`lua_tonumber`): numbers, and strings
that are numerals (decimal integer numerals here). -/
def LVal.tonumber : LVal → Option Int
  | .num n => some n
  | .str s => s.toInt?
  | _ => none

/-- The call `lua_tointeger(L, idx)`: 0 when the value is not convertible. -/
def lua_tointeger (L : LuaState) (idx : Int) : Except Fault Int :=
  match index2adr L idx with
  | some v => .ok (v.tonumber.getD 0)
  | none => .error .undefined

def lua_isnumber (L : LuaState) (idx : Int) : Except Fault Bool :=
  match index2adr L idx with
  | some v => .ok v.tonumber.isSome
  | none => .error .undefined

def lua_isnil (L : LuaState) (idx : Int) : Except Fault Bool :=
  match index2adr L idx with
  | some v => .ok (decide (v = .nil))
  | none => .error .undefined

/-- The call `lua_objlen(L, idx)` on a table operand. -/
def lua_objlen (L : LuaState) (idx : Int) : Except Fault Nat := do
  let r ← tableAt L idx
  pure (getFields L r).objlen

/-- The call `lua_createtable(L, narr, nrec)` (and `lua_newtable`): a new
empty table on the heap, pushed. -/
def lua_createtable (L : LuaState) (_narr _nrec : Nat) : LuaState :=
  { L with heap := L.heap ++ [{ fields := [], meta := .nil }],
           stack := .tbl L.heap.length :: L.stack }

def lua_newtable (L : LuaState) : LuaState := lua_createtable L 0 0

/-- The call `lua_newuserdata(L, size)`: a new userdata on the heap, pushed. -/
def lua_newuserdata (L : LuaState) (_size : Nat) : LuaState :=
  { L with heap := L.heap ++ [{ fields := [], meta := .nil }],
           stack := .udata L.heap.length :: L.stack }

/-- The call `lua_pushcclosure(L, f, 1)`: the upvalue on top is popped into a
new heap cell and the closure is pushed. -/
def lua_pushcclosure1 (L : LuaState) (f : Nat) : Except Fault LuaState :=
  match L.stack with
  | u :: rest =>
    .ok { L with heap := L.heap ++ [{ fields := [(.num 1, u)], meta := .nil }],
                 stack := .cclosure f L.heap.length :: rest }
  | [] => .error .undefined

/-- The call `lua_setmetatable(L, idx)`: the table (or nil) on top is popped
and becomes the metatable of the table or userdata at `idx`. -/
def lua_setmetatable (L : LuaState) (idx : Int) : Except Fault LuaState :=
  match L.stack with
  | m :: rest =>
    match index2adr L idx with
    | some (.tbl a) | some (.udata a) =>
      match L.heap[a]? with
      | some o => .ok { L with heap := L.heap.set a { o with meta := m }, stack := rest }
      | none => .error .undefined
    | _ => .error .undefined
  | [] => .error .undefined

/-- Text of a number that is converted to a string in place
(`lua_tolstring`): plain decimal digits for the integers of moderate size. -/
def lua_number2str (n : Int) : String := toString n

/-- The call `luaL_checkstring(L, 1)`..`(L, n)`: the string at `idx`; a number
there is first converted to a string in its stack slot; any other value is an
argument error. -/
def luaL_checkstring (L : LuaState) (idx : Int) : Except Fault (LuaState × String) :=
  match index2adr L idx with
  | some (.str s) => .ok (L, s)
  | some (.num n) =>
    match idx with
    | Int.ofNat (i + 1) =>
      .ok ({ L with stack := L.stack.set (L.stack.length - (i + 1)) (.str (lua_number2str n)) },
           lua_number2str n)
    | Int.negSucc i =>
      .ok ({ L with stack := L.stack.set i (.str (lua_number2str n)) }, lua_number2str n)
    | _ => .error .undefined
  | _ => .error (.luaError "bad argument (string expected)")

/-- The auxiliary library's `luaL_ref(L, t)` (lauxlib.c): the value on top is
popped; nil gets the fixed reference `LUA_REFNIL`; otherwise the head of the
free list kept in `t[0]` is reused, or the slot after the length of `t`. -/
def luaL_ref (L : LuaState) (t : Int) : Except Fault (LuaState × Int) := do
  if (← lua_isnil L (-1)) then
    let L ← lua_pop L 1
    return (L, LUA_REFNIL)
  let L ← lua_rawgeti L t FREELIST_REF
  let ref := toInt32 (← lua_tointeger L (-1))
  let L ← lua_pop L 1
  if ref ≠ 0 then
    let L ← lua_rawgeti L t ref
    let L ← lua_rawseti L t FREELIST_REF
    let L ← lua_rawseti L t ref
    return (L, ref)
  else
    let ref := toInt32 (toInt32 (← lua_objlen L t) + 1)
    let L ← lua_rawseti L t ref
    return (L, ref)

/-- The auxiliary library's `luaL_unref(L, t, ref)`: a reference that is not
negative is put at the head of the free list. -/
def luaL_unref (L : LuaState) (t : Int) (ref : Int) : Except Fault LuaState := do
  if ref ≥ 0 then
    let L ← lua_rawgeti L t FREELIST_REF
    let L ← lua_rawseti L t ref
    let L := lua_pushinteger L ref
    lua_rawseti L t FREELIST_REF
  else
    pure L

/-! ## The engine's hashtable -/

/-- The map `static hashtable<const char*, int> externals`.  Keys are compared
by content (`strcmp`), so the table is a finite map from strings to `int`. -/
abbrev hashtable := String → Option Int

/-- The lookup `access(key)`: a pointer to the element, or NULL. -/
def hashtable.access (t : hashtable) (key : String) : Option Int := t key

/-- The call `access(key, elem)`.  The template is declared in the engine's
shared/tools.h, outside the files at hand: it returns the element of a key
that is present *without storing* `elem` (find, else insert), which is
`keep = true`.  The flag `keep = false` is the reading in which `elem`
replaces the element of a present key; what holds for both values of the flag
does not depend on that header. -/
def hashtable.accessElem (keep : Bool) (t : hashtable) (key : String) (elem : Int) :
    hashtable :=
  match t key with
  | some _ => if keep then t else Function.update t key (some elem)
  | none => Function.update t key (some elem)

/-- The call `remove(key)`: the entry is dropped; true when there was one. -/
def hashtable.remove (t : hashtable) (key : String) : hashtable × Bool :=
  match t key with
  | some _ => (Function.update t key none, true)
  | none => (t, false)

/-! ## External value broker (of_lua.cpp, lines 46-96) -/

/-- The function `push_external(L, name)`. -/
def push_external (externals : hashtable) (L : LuaState) (name : String) :
    Except Fault (LuaState × Bool) :=
  match externals.access name with
  | some ref => do
    let L ← lua_rawgeti L LUA_REGISTRYINDEX ref
    pure (L, true)
  | none => pure (L, false)

/-- The command `external_set`: the Lua state after the body and the number of
results it returns (taken from the top of the stack). -/
def external_set (keep : Bool) (externals : hashtable) (L : LuaState) :
    Except Fault (hashtable × LuaState × Nat) := do
  let (L, name) ← luaL_checkstring L 1
  let ref := externals.access name
  let L ← match ref with
    | some r => do
      let L ← lua_rawgeti L LUA_REGISTRYINDEX r
      luaL_unref L LUA_REGISTRYINDEX r
    | none => pure (lua_pushnil L)
  /- pin the name so the garbage collector does not free it -/
  let L ← lua_pushvalue L 1
  let L ← lua_setfield L LUA_REGISTRYINDEX name
  /- and now we can ref -/
  let L ← lua_pushvalue L 2
  let (L, r) ← luaL_ref L LUA_REGISTRYINDEX
  let externals := externals.accessElem keep name r
  pure (externals, L, 1)

/-- The command `external_unset`. -/
def external_unset (externals : hashtable) (L : LuaState) :
    Except Fault (hashtable × LuaState × Nat) := do
  let (L, name) ← luaL_checkstring L 1
  let ref := externals.access name
  match ref with
  | none =>
    let L := lua_pushboolean L false
    pure (externals, L, 1)
  | some r =>
    /- unpin the name -/
    let L := lua_pushnil L
    let L ← lua_setfield L LUA_REGISTRYINDEX name
    /- and unref -/
    let L ← luaL_unref L LUA_REGISTRYINDEX r
    let (externals, removed) := externals.remove name
    let L := lua_pushboolean L removed
    pure (externals, L, 1)

/-- The command `external_get`.  The body calls `push_external(name)` with one
argument, which pushes on the state `lua::L`: the command is taken on that
state, the only one `init` creates, so the state of the call and `lua::L` are
the same (see `LuaStatics.call`). -/
def external_get (externals : hashtable) (L : LuaState) :
    Except Fault (hashtable × LuaState × Nat) := do
  let (L, name) ← luaL_checkstring L 1
  let (L, found) ← push_external externals L name
  let L := if !found then lua_pushnil L else L
  pure (externals, L, 1)

/-- A call of a C function from Lua: the function runs on a frame that holds
the arguments, first argument at index 1. -/
def LuaState.frame (L : LuaState) (args : List LVal) : LuaState :=
  { L with stack := args.reverse }

/-- The first result of a command that returned: the top of its stack when it
returns one value. -/
def result1 (r : Except Fault (hashtable × LuaState × Nat)) : Option LVal :=
  match r with
  | .ok (_, L, 1) => L.stack.head?
  | _ => none

/-- The broker and Lua state a command leaves behind. -/
def after (r : Except Fault (hashtable × LuaState × Nat)) : Option (hashtable × LuaState) :=
  match r with
  | .ok (e, L, _) => some (e, L)
  | .error _ => none

/-! ## Native function registry (of_lua.cpp, lines 98-111 and 153-201) -/

/-- One registration, `struct Reg`: the name and the C function. -/
structure Reg where
  name : String
  fn : Nat
  deriving DecidableEq, Repr

/-- The type `cfuns`, a vector of registrations in the order they were added. -/
abbrev cfuns := List Reg

/-- The function `reg_fun(name, fun)` on the static `funs` (NULL is `none`):
the new `funs` and the returned boolean. -/
def reg_fun (funs : Option cfuns) (name : String) (fn : Nat) : Option cfuns × Bool :=
  let funs : cfuns := match funs with
    | none => []
    | some v => v
  (some (funs ++ [{ name := name, fn := fn }]), true)

/-- The server's `fatal(s, ...)` (server_system.cpp, line 331): it prints
`"FATAL: %s\r\n"` with its first argument `s` and exits; the variadic
arguments are not read. -/
def fatal (s : String) (_args : List String) : Fault :=
  .fatal ("FATAL: " ++ s ++ "\r\n")

/-- Capacity of the engine's fixed `string` buffers. -/
def MAXSTRLEN : Nat := 260

/-- The engine's `copystring` into a `string` buffer: the text is cut to the
capacity of the buffer (counted in characters here). -/
def copystring (s : String) : String := s.take (MAXSTRLEN - 1)

def PATHDIV (win32 : Bool) : String := if win32 then "\\" else "/"

/-- What loading and running a Lua file does: for the path of a file, the
broker and Lua state it leaves and, when `luaL_loadfile` or `lua_pcall`
fails, the error text that is then on top of the stack. -/
abbrev Loader := String → hashtable → LuaState → hashtable × LuaState × Option String

/-- The function `load_module(name)`. -/
def load_module (win32 : Bool) (ld : Loader) (mod_dir : String) (externals : hashtable)
    (L : LuaState) (name : String) : Except Fault (hashtable × LuaState) :=
  let p := copystring (mod_dir ++ PATHDIV win32 ++ name ++ ".lua")
  match ld p externals L with
  | (externals, L, none) => .ok (externals, L)
  | (_, _, some e) => .error (fatal "%s" [e])

/-- Identity of the C function `capi_tostring`. -/
def capi_tostring : Nat := 0

/-- The loop of `setup_binds` over `funs`: each function is stored in the table
on top of the stack under its name. -/
def setup_binds_loop : cfuns → LuaState → Except Fault LuaState
  | [], L => .ok L
  | reg :: regs, L => do
    let L := lua_pushcfunction L reg.fn
    let L ← lua_setfield L (-2) reg.name
    setup_binds_loop regs L

/-- The function `setup_binds()`: the new `externals`, `funs` and Lua state. -/
def setup_binds (server win32 : Bool) (ld : Loader) (mod_dir : String)
    (externals : hashtable) (funs : Option cfuns) (L : LuaState) :
    Except Fault (hashtable × Option cfuns × LuaState) := do
  let L := lua_pushboolean L server
  let L ← lua_setglobal L "SERVER"
  match funs with
  | none => throw .assertion
  | some fs =>
    let L := lua_newuserdata L 0                 /- _C -/
    let L := lua_createtable L 0 2               /- _C, C_mt -/
    let numfields := fs.length
    let L := lua_createtable L numfields 0       /- _C, C_mt, C_tbl -/
    let L ← setup_binds_loop fs L
    let funs : Option cfuns := none
    let L ← lua_setfield L (-2) "__index"        /- _C, C_mt -/
    let L := lua_pushinteger L numfields         /- _C, C_mt, C_num -/
    let L ← lua_pushcclosure1 L capi_tostring    /- _C, C_mt, C_tostring -/
    let L ← lua_setfield L (-2) "__tostring"     /- _C, C_mt -/
    let L := lua_pushboolean L false             /- _C, C_mt, C_metatable -/
    let L ← lua_setfield L (-2) "__metatable"    /- _C, C_mt -/
    let L ← lua_setmetatable L (-2)              /- _C -/
    let L ← lua_getfield L LUA_REGISTRYINDEX "_LOADED"
    let L ← lua_pushvalue L (-2)
    let L ← lua_setfield L (-2) "_C"
    let L ← lua_pop L 1
    let L ← lua_setglobal L "_C"
    let (externals, L) ← load_module win32 ld mod_dir externals L "init"
    pure (externals, funs, L)

/-! ## Creation of the runtime (of_lua.cpp, lines 29-30 and 113-151) -/

/-- The statics of namespace `lua`: the state pointer `L` (NULL is `none`),
`mod_dir`, `externals` and `funs`. -/
structure LuaStatics where
  L : Option LuaState
  mod_dir : String
  externals : hashtable
  funs : Option cfuns

/-- The statics when the process starts. -/
def LuaStatics.start : LuaStatics :=
  { L := none, mod_dir := "", externals := fun _ => none, funs := none }

/-- The state `luaL_newstate` returns: registry, globals, heap and stack are
empty. -/
def luaL_newstate : LuaState := { registry := [], globals := [], heap := [], stack := [] }

/-- The call `luaL_openlibs(L)`, as far as the bridge reads its effect: the
registry gets the table `_LOADED`, and the globals get the library tables
`package` (with its default `path`) and `string`, which are also entered in
`_LOADED`. -/
def luaL_openlibs (defaultPath : String) (L : LuaState) : LuaState :=
  let loaded := L.heap.length
  let package := L.heap.length + 1
  let string := L.heap.length + 2
  { L with
    registry := L.registry.rawset (.str "_LOADED") (.tbl loaded),
    globals := (L.globals.rawset (.str "package") (.tbl package)).rawset
      (.str "string") (.tbl string),
    heap := L.heap ++
      [{ fields := [(.str "package", .tbl package), (.str "string", .tbl string)], meta := .nil },
       { fields := [(.str "path", .str defaultPath), (.str "loaded", .tbl loaded)], meta := .nil },
       { fields := [], meta := .nil }] }

/-- Concatenation of strings popped from the stack, the deepest one first. -/
def concatStrings : List LVal → Option String
  | [] => some ""
  | .str s :: vs => (concatStrings vs).map (fun r => r ++ s)
  | _ :: _ => none

/-- The call `lua_concat(L, n)` on strings: the `n` values on top are replaced
by their concatenation. -/
def lua_concat (L : LuaState) (n : Nat) : Except Fault LuaState :=
  if n ≤ L.stack.length then
    match concatStrings (L.stack.take n) with
    | some s => .ok { L with stack := .str s :: L.stack.drop n }
    | none => .error (.luaError "attempt to concatenate a value that is not a string")
  else .error .undefined

/-- The call `lua_pushfstring(L, fmt, ...)`, given the formatted text. -/
def lua_pushfstring (L : LuaState) (formatted : String) : LuaState := lua_pushstring L formatted

/-- The string pinning part of `init` (lines 146-148): a new table is stored
in the registry under `"__pinstrs"`. -/
def init_pinstrs (L : LuaState) : Except Fault LuaState := do
  let L := lua_newtable L
  lua_setfield L LUA_REGISTRYINDEX "__pinstrs"

/-- The function `init(dir)`.  The handler set by `lua_atpanic` only matters
for errors outside a protected call and has no effect on the state. -/
def init (server win32 : Bool) (homedir defaultPath : String) (ld : Loader) (g : LuaStatics)
    (dir : String) : Except Fault LuaStatics :=
  match g.L with
  | some _ => .ok g
  | none => do
    let mod_dir := copystring dir
    let L := luaL_newstate
    let L := luaL_openlibs defaultPath L
    let L ← lua_getglobal L "package"
    /- home directory paths -/
    let L := if win32 then
        lua_pushfstring (lua_pushfstring (lua_pushfstring (lua_pushfstring L
          (";" ++ homedir ++ "media\\?\\init.lua"))
          (";" ++ homedir ++ "media\\?.lua"))
          (";" ++ homedir ++ "media\\lua\\?\\init.lua"))
          (";" ++ homedir ++ "media\\lua\\?.lua")
      else
        lua_pushfstring (lua_pushfstring (lua_pushfstring (lua_pushfstring L
          (";" ++ homedir ++ "media/?/init.lua"))
          (";" ++ homedir ++ "media/?.lua"))
          (";" ++ homedir ++ "media/lua/?/init.lua"))
          (";" ++ homedir ++ "media/lua/?.lua")
    /- root paths -/
    let L := lua_pushliteral L ";./media/?/init.lua"
    let L := lua_pushliteral L ";./media/?.lua"
    let L := lua_pushliteral L ";./media/lua/?/init.lua"
    let L := lua_pushliteral L ";./media/lua/?.lua"
    let L ← lua_concat L 8
    let L ← lua_setfield L (-2) "path"
    let L ← lua_pop L 1
    /- string pinning -/
    let L ← init_pinstrs L
    let (externals, funs, L) ← setup_binds server win32 ld mod_dir g.externals g.funs L
    pure { L := some L, mod_dir := mod_dir, externals := externals, funs := funs }

/-! ## String pin table (of_lua.cpp, lines 205-238) -/

/-- The engine's `ASSERT(c)` (shared/tools.h, outside the files at hand):
`assert(c)` in a build with `_DEBUG`, and an empty `if(c)` statement, which
checks nothing, in any other build. -/
def ASSERT (debug : Bool) (c : Bool) : Except Fault Unit :=
  if debug && !c then .error .assertion else .ok ()

/-- The header `PINHDR` shared by both functions; the stack grows by the pin
table, the string and the count stored for the string. -/
def PINHDR (L : LuaState) (str : String) : Except Fault LuaState := do
  let L := lua_pushliteral L "__pinstrs"       /- k1 -/
  let L ← lua_rawget L LUA_REGISTRYINDEX       /- v1 -/
  let L := lua_pushstring L str                /- v1, str -/
  let L ← lua_pushvalue L (-1)                 /- v1, str, str -/
  lua_rawget L (-3)                            /- v1, str, cnt -/

/-- The function `pin_string(L, str)`; `cnt` is a C `int`. -/
def pin_string (L : LuaState) (str : String) : Except Fault LuaState := do
  let L ← PINHDR L str
  let cnt := toInt32 (← lua_tointeger L (-1))
  let L ← lua_pop L 1                          /- v1, str -/
  let L := lua_pushinteger L (toInt32 (cnt + 1))  /- v1, str, cnt + 1 -/
  let L ← lua_rawset L (-3)                    /- v1 -/
  lua_pop L 1

/-- The function `unpin_string(L, str)`. -/
def unpin_string (debug : Bool) (L : LuaState) (str : String) : Except Fault LuaState := do
  let L ← PINHDR L str
  ASSERT debug (← lua_isnumber L (-1))
  let cnt := toInt32 (← lua_tointeger L (-1))
  let L ← lua_pop L 1                          /- v1, str -/
  let L := if cnt = 1 then lua_pushnil L       /- v1, str, nil -/
    else lua_pushinteger L (toInt32 (cnt - 1)) /- v1, str, cnt - 1 -/
  let L ← lua_rawset L (-3)                    /- v1 -/
  lua_pop L 1

/-- The record the pin table of a state holds for a string: `none` when the
registry has no table under `"__pinstrs"`. -/
def pinRecord (L : LuaState) (str : String) : Option LVal :=
  match L.registry.rawget (.str "__pinstrs") with
  | .tbl a => match L.heap[a]? with
    | some o => some (o.fields.rawget (.str str))
    | none => none
  | _ => none

/-- The count the two functions read for a string whose record is a number or
is missing: the value `lua_tointeger` returns, assigned to the C variable
`int cnt` (0 for no record). -/
def pinCount (L : LuaState) (str : String) : Option Int :=
  match pinRecord L str with
  | some (.num n) => some (toInt32 n)
  | some .nil => some 0
  | _ => none

/-- One call on the pin table. -/
inductive PinOp where
  | pin (str : String)
  | unpin (str : String)
  deriving DecidableEq, Repr

/-- A sequence of `pin_string` and `unpin_string` calls, run in order. -/
def runPinOps (debug : Bool) : List PinOp → LuaState → Except Fault LuaState
  | [], L => .ok L
  | .pin s :: ops, L => do
    let L ← pin_string L s
    runPinOps debug ops L
  | .unpin s :: ops, L => do
    let L ← unpin_string debug L s
    runPinOps debug ops L

/-- The state after `n` calls of `pin_string(L, str)`. -/
def pinTimes (str : String) : Nat → LuaState → Except Fault LuaState
  | 0, L => .ok L
  | n + 1, L => do
    let L ← pin_string L str
    pinTimes str n L

/-- The state after `m` calls of `unpin_string(L, str)`. -/
def unpinTimes (debug : Bool) (str : String) : Nat → LuaState → Except Fault LuaState
  | 0, L => .ok L
  | m + 1, L => do
    let L ← unpin_string debug L str
    unpinTimes debug str m L

/-! ## Notions used to state the properties of the broker -/

/-- The value the broker holds under a key: the content of the registry slot
that the reference of the key names, nil for a key without a slot. -/
def slotValue (externals : hashtable) (L : LuaState) (k : String) : LVal :=
  match externals.access k with
  | some r => L.registry.rawget (.num r)
  | none => .nil

/-- One call of a broker command from a script. -/
inductive BrokerCall where
  | set (k : String) (v : LVal)
  | unset (k : String)
  | get (k : String)
  deriving DecidableEq, Repr

/-- Calls of the broker commands in order, each on a frame of its own with its
arguments; the first result of every call is collected. -/
def runBroker (keep : Bool) :
    List BrokerCall → hashtable → LuaState → Except Fault (hashtable × LuaState × List LVal)
  | [], e, L => .ok (e, L, [])
  | c :: cs, e, L => do
    let (e, L, _) ← match c with
      | .set k v => external_set keep e (L.frame [.str k, v])
      | .unset k => external_unset e (L.frame [.str k])
      | .get k => external_get e (L.frame [.str k])
    let (e1, L1, rs) ← runBroker keep cs e L
    pure (e1, L1, L.stack.headD .nil :: rs)

/-- The results of a run of broker calls. -/
def brokerResults (r : Except Fault (hashtable × LuaState × List LVal)) : Option (List LVal) :=
  match r with
  | .ok (_, _, rs) => some rs
  | .error _ => none

/-- The registry just before `external_set` takes its new reference: the old
reference, when there is one, is on the free list, and the name is pinned. -/
def regBeforeRef (externals : hashtable) (L : LuaState) (k : String) : LTable :=
  match externals.access k with
  | some r =>
    (if r ≥ 0 then
      (L.registry.rawset (.num r) (L.registry.rawget (.num FREELIST_REF))).rawset
        (.num FREELIST_REF) (.num r)
     else L.registry).rawset (.str k) (.str k)
  | none => L.registry.rawset (.str k) (.str k)


/-! ## Notions used to state the properties of the pin table -/

/-- The pin table of the state is the heap table at address `a`, and `o` is
that heap cell. -/
def PinTableAt (L : LuaState) (a : Nat) (o : HObj) : Prop :=
  L.registry.rawget (.str "__pinstrs") = .tbl a ∧ L.heap[a]? = some o

/-- The state in which the field `k` of the heap table `a`, whose cell is `o`,
is set to `v`. -/
def setHeapField (L : LuaState) (a : Nat) (o : HObj) (k v : LVal) : LuaState :=
  { L with heap := L.heap.set a { o with fields := o.fields.rawset k v } }

/-- The record of a string in the state a call returned, `none` when the call
did not return. -/
def recordAfter (r : Except Fault LuaState) (str : String) : Option LVal :=
  match r with
  | .ok L => pinRecord L str
  | .error _ => none

/-- The states reached from `L0` by a number of `pin_string` and
`unpin_string` calls that returned.  In a build whose `ASSERT` checks nothing,
only the calls of `unpin_string` on a string that has a record are counted;
with `ASSERT` active the others do not return. -/
inductive PinReach (debug : Bool) (L0 : LuaState) : Nat → LuaState → Prop where
  | start : PinReach debug L0 0 L0
  | pin {n : Nat} {L L1 : LuaState} (s : String) :
      PinReach debug L0 n L → pin_string L s = .ok L1 → PinReach debug L0 (n + 1) L1
  | unpin {n : Nat} {L L1 : LuaState} (s : String) :
      PinReach debug L0 n L → (debug = true ∨ pinRecord L s ≠ some .nil) →
      unpin_string debug L s = .ok L1 → PinReach debug L0 (n + 1) L1

/-- The record that stands for a count: no record for the count 0. -/
def countRecord (c : Int) : LVal := if c = 0 then .nil else .num c

/-- A pin table, registered under `"__pinstrs"`, without any record. -/
def pinnedNone : LuaState :=
  { registry := [(.str "__pinstrs", .tbl 0)], globals := [],
    heap := [{ fields := [], meta := .nil }], stack := [] }

/-- A pin table in which `"x"` has the count `c` and nothing else a record. -/
def pinnedCount (c : Int) : LuaState :=
  { registry := [(.str "__pinstrs", .tbl 0)], globals := [],
    heap := [{ fields := [(.str "x", .num c)], meta := .nil }], stack := [] }

/-- A pin table in which `"x"` has the largest count a C `int` holds. -/
def pinnedMax : LuaState := pinnedCount 2147483647

/-- The static `funs` that a call of `setup_binds` leaves, `none` when the call
did not return. -/
def funsAfter (r : Except Fault (hashtable × Option cfuns × LuaState)) : Option (Option cfuns) :=
  match r with
  | .ok (_, funs, _) => some funs
  | .error _ => none

/-- A new Lua state after `luaL_openlibs`. -/
def openedState : LuaState := luaL_openlibs "./?.lua" luaL_newstate

/-- A loader whose files all load and run without an effect. -/
def quietLoader : Loader := fun _ externals L => (externals, L, none)

/-! ## What a script can do to the namespace object (Lua 5.1: lvm.c, lbaselib.c, ldblib.c) -/

/-- The metatable of a value (`lua_getmetatable`): tables and userdata carry
their own; the metatables shared by the values of another type are not
modelled and read as nil. -/
def metatableOf (L : LuaState) : LVal → LVal
  | .tbl a | .udata a => match L.heap[a]? with
    | some o => o.meta
    | none => .nil
  | _ => .nil

/-- The handler a value has for an event (`luaT_gettmbyobj`): the field of its
metatable, nil without one. -/
def metafield (L : LuaState) (v : LVal) (event : String) : LVal :=
  match metatableOf L v with
  | .tbl m => match L.heap[m]? with
    | some o => o.fields.rawget (.str event)
    | none => .nil
  | _ => .nil

def MAXTAGLOOP : Nat := 100

/-- The read `t[key]` of the virtual machine (`luaV_gettable`), `loop` counting
down the handlers followed.  A handler that is a function would be called;
calls are outside this model and yield `Fault.undefined`. -/
def luaV_gettable (L : LuaState) : Nat → LVal → LVal → Except Fault LVal
  | 0, _, _ => .error (.luaError "loop in gettable")
  | loop + 1, t, key =>
    match t with
    | .tbl a =>
      match L.heap[a]? with
      | none => .error .undefined
      | some o =>
        if o.fields.rawget key ≠ .nil then .ok (o.fields.rawget key)
        else match metafield L t "__index" with
          | .nil => .ok .nil
          | .cfun _ => .error .undefined
          | .cclosure _ _ => .error .undefined
          | h => luaV_gettable L loop h key
    | _ =>
      match metafield L t "__index" with
      | .nil => .error (.luaError "attempt to index a value that is not a table")
      | .cfun _ => .error .undefined
      | .cclosure _ _ => .error .undefined
      | h => luaV_gettable L loop h key

/-- The write `t[key] = val` of the virtual machine (`luaV_settable`). -/
def luaV_settable (L : LuaState) : Nat → LVal → LVal → LVal → Except Fault LuaState
  | 0, _, _, _ => .error (.luaError "loop in settable")
  | loop + 1, t, key, val =>
    match t with
    | .tbl a =>
      match L.heap[a]? with
      | none => .error .undefined
      | some o =>
        if o.fields.rawget key ≠ .nil ∨ metafield L t "__newindex" = .nil then
          if key = .nil then .error (.luaError "table index is nil")
          else .ok { L with heap := L.heap.set a { o with fields := o.fields.rawset key val } }
        else match metafield L t "__newindex" with
          | .cfun _ => .error .undefined
          | .cclosure _ _ => .error .undefined
          | h => luaV_settable L loop h key val
    | _ =>
      match metafield L t "__newindex" with
      | .nil => .error (.luaError "attempt to index a value that is not a table")
      | .cfun _ => .error .undefined
      | .cclosure _ _ => .error .undefined
      | h => luaV_settable L loop h key val

/-- The base library's `getmetatable(obj)`: the field `__metatable` of the
metatable when it has one, else the metatable. -/
def luaB_getmetatable (L : LuaState) (obj : LVal) : Except Fault (LuaState × LVal) :=
  match metatableOf L obj with
  | .nil => .ok (L, .nil)
  | m => match metafield L obj "__metatable" with
    | .nil => .ok (L, m)
    | f => .ok (L, f)

/-- The base library's `setmetatable(obj, m)`: only for a table whose
metatable has no field `__metatable`. -/
def luaB_setmetatable (L : LuaState) (obj m : LVal) : Except Fault (LuaState × LVal) :=
  match obj with
  | .tbl a =>
    match m with
    | .nil | .tbl _ =>
      if metafield L obj "__metatable" ≠ .nil then
        .error (.luaError "cannot change a protected metatable")
      else match L.heap[a]? with
        | some o => .ok ({ L with heap := L.heap.set a { o with meta := m } }, obj)
        | none => .error .undefined
    | _ => .error (.luaError "bad argument #2 to setmetatable (nil or table expected)")
  | _ => .error (.luaError "bad argument #1 to setmetatable (table expected)")

/-- The debug library's `debug.getmetatable(obj)`: the metatable itself. -/
def db_getmetatable (L : LuaState) (obj : LVal) : Except Fault (LuaState × LVal) :=
  .ok (L, metatableOf L obj)

/-- The debug library's `debug.setmetatable(obj, m)`: the metatable of a table
or userdata is replaced without any check of `__metatable`. -/
def db_setmetatable (L : LuaState) (obj m : LVal) : Except Fault (LuaState × LVal) :=
  match m with
  | .nil | .tbl _ =>
    match obj with
    | .tbl a | .udata a =>
      match L.heap[a]? with
      | some o => .ok ({ L with heap := L.heap.set a { o with meta := m } }, .bool true)
      | none => .error .undefined
    | _ => .ok (L, .bool true)
  | _ => .error (.luaError "bad argument #2 to setmetatable (nil or table expected)")

/-- The namespace object a script sees: the value of the global `_C`. -/
def namespaceObject (L : LuaState) : LVal := L.globals.rawget (.str "_C")

/-- What the expression `_C.name` evaluates to in a script. -/
def resolve (L : LuaState) (name : String) : Except Fault LVal :=
  luaV_gettable L MAXTAGLOOP (namespaceObject L) (.str name)

/-- The state a script goes on with after an attempt: the new state when the
call returned, the old one when it raised an error. -/
def afterAttempt (L : LuaState) (r : Except Fault (LuaState × LVal)) : LuaState :=
  match r with
  | .ok (L1, _) => L1
  | .error _ => L

/-- The part of `setup_binds` up to the publication of `_C` (lines 170-199):
all of it but the final `load_module("init")`. -/
def publish (server : Bool) (funs : Option cfuns) (L : LuaState) : Except Fault LuaState := do
  let L := lua_pushboolean L server
  let L ← lua_setglobal L "SERVER"
  match funs with
  | none => throw .assertion
  | some fs =>
    let L := lua_newuserdata L 0
    let L := lua_createtable L 0 2
    let numfields := fs.length
    let L := lua_createtable L numfields 0
    let L ← setup_binds_loop fs L
    let L ← lua_setfield L (-2) "__index"
    let L := lua_pushinteger L numfields
    let L ← lua_pushcclosure1 L capi_tostring
    let L ← lua_setfield L (-2) "__tostring"
    let L := lua_pushboolean L false
    let L ← lua_setfield L (-2) "__metatable"
    let L ← lua_setmetatable L (-2)
    let L ← lua_getfield L LUA_REGISTRYINDEX "_LOADED"
    let L ← lua_pushvalue L (-2)
    let L ← lua_setfield L (-2) "_C"
    let L ← lua_pop L 1
    lua_setglobal L "_C"

/-- The state in which the heap cell `a` is `c`. -/
def setHeapCell (L : LuaState) (a : Nat) (c : HObj) : LuaState :=
  { L with heap := L.heap.set a c }

/-- The shape in which `setup_binds` publishes the namespace object: the
global `_C` is the userdata `u`; its metatable is the table `m`, which has
`__index = t`, `__metatable = false` and no `__newindex`; the table `t` has
no metatable. -/
def Sealed (L : LuaState) (u m t : Nat) : Prop :=
  namespaceObject L = .udata u
  ∧ metatableOf L (.udata u) = .tbl m
  ∧ (∃ om, L.heap[m]? = some om ∧ om.fields.rawget (.str "__index") = .tbl t
      ∧ om.fields.rawget (.str "__metatable") = .bool false
      ∧ om.fields.rawget (.str "__newindex") = .nil)
  ∧ (∃ ot, L.heap[t]? = some ot ∧ ot.meta = .nil)

/-- The table `C_tbl` that the loop of `setup_binds` fills from `funs`: a later
registration of a name replaces an earlier one. -/
def dispatchTable (fs : cfuns) (t : LTable) : LTable :=
  fs.foldl (fun t r => t.rawset (.str r.name) (.cfun r.fn)) t

/-- A script-side attempt on the namespace object `_C` with the language and
the base library: an assignment `_C[k] = v`, `getmetatable(_C)`, or
`setmetatable(_C, m)`. -/
inductive Attempt where
  | assign (k v : LVal)
  | getmetatable
  | setmetatable (m : LVal)
  deriving DecidableEq, Repr

/-- The outcome of an attempt: the new state and the value it yields, or the
Lua error it raises. -/
def attempt (L : LuaState) : Attempt → Except Fault (LuaState × LVal)
  | .assign k v =>
    (luaV_settable L MAXTAGLOOP (namespaceObject L) k v).map (fun L1 => (L1, LVal.nil))
  | .getmetatable => luaB_getmetatable L (namespaceObject L)
  | .setmetatable m => luaB_setmetatable L (namespaceObject L) m

/-- The state after a sequence of attempts, each one made in the state the
previous one left. -/
def runAttempts : List Attempt → LuaState → LuaState
  | [], L => L
  | a :: as, L => runAttempts as (afterAttempt L (attempt L a))

/-- The statics after a call `reg_fun(name, fn)`: only `funs` is written. -/
def LuaStatics.reg_fun (g : LuaStatics) (name : String) (fn : Nat) : LuaStatics :=
  { g with funs := (OF.reg_fun g.funs name fn).1 }

/-- The value of an expression that was evaluated, `none` when it raised an error. -/
def valueOf (r : Except Fault LVal) : Option LVal :=
  match r with
  | .ok v => some v
  | .error _ => none

/-- A script that uses the debug library on the namespace object:
`debug.getmetatable(_C).__index[name] = v`. -/
def debugRebind (L : LuaState) (name : String) (v : LVal) : Except Fault LuaState := do
  let (L, mt) ← db_getmetatable L (namespaceObject L)
  let idx ← luaV_gettable L MAXTAGLOOP mt (.str "__index")
  luaV_settable L MAXTAGLOOP idx (.str name) v

/-- The state in which `setup_binds` publishes `_C` when `init` has opened the
libraries of a new state and the function 1 is registered as `"a"`. -/
def publishedExample : Except Fault LuaState :=
  publish false (some [{ name := "a", fn := 1 }]) openedState

/-! ## The bridge of of_lapi.cpp -/

/-- The statics of namespace `lapi`: the state pointer `L` (NULL is `none`),
`mod_dir` and the flag `initialized`. -/
structure LapiStatics where
  L : Option LuaState
  mod_dir : String
  initialized : Bool
  deriving DecidableEq, Repr

/-- The statics when the process starts. -/
def LapiStatics.start : LapiStatics := { L := none, mod_dir := "", initialized := false }

/-- Identity of the library function `string.find`. -/
def str_find : Nat := 1

/-- Identity of the C function `create_table`. -/
def create_table : Nat := 2

/-- The fields of a library table that the bridge reads: `string.find`, and
`package.path` with `package.loaded`. -/
def libFields (defaultPath : String) (loaded : LVal) (name : String) : LTable :=
  if name = "string" then [(.str "find", .cfun str_find)]
  else if name = "package" then [(.str "path", .str defaultPath), (.str "loaded", loaded)]
  else []

/-- The macro `MODOPEN(name)`, which calls `luaopen_name`: the table `_LOADED`
is created in the registry when it is missing, and, for a library other than
the base library, a new library table is entered in `_LOADED` and in the
globals under the name of the library. -/
def MODOPEN (defaultPath : String) (name : String) (L : LuaState) : LuaState :=
  let L : LuaState := match L.registry.rawget (.str "_LOADED") with
    | .tbl _ => L
    | _ => { L with registry := L.registry.rawset (.str "_LOADED") (.tbl L.heap.length),
                    heap := L.heap ++ [{ fields := [], meta := .nil }] }
  if name = "base" then L
  else
    let loaded := L.registry.rawget (.str "_LOADED")
    let L := setFields L
      (match loaded with
        | .tbl l => .obj l
        | _ => .registry)
      ((match loaded with
        | .tbl l => getFields L (.obj l)
        | _ => L.registry).rawset (.str name) (.tbl L.heap.length))
    { L with globals := L.globals.rawset (.str name) (.tbl L.heap.length),
             heap := L.heap ++ [{ fields := libFields defaultPath loaded name, meta := .nil }] }

/-- The function `string.find(s, pattern)` of the Lua string library, as far
as `load_library` reads its result: the start of the first match, nothing
when there is none, or the text of the error a malformed pattern raises. -/
abbrev StrFind := String → String → Except String (Option Int)

/-- The handler `lapi::panic` that `lua_atpanic` installs: an error outside a
protected call ends in `fatal`. -/
def lapi.panic (e : String) : Fault := fatal "error in call to the Lua API (%s)" [e]

/-- The call `lua_call(L, 2, 1)` of the function below its two arguments.  The
function `string.find` is modelled; an error it raises is not protected and
reaches the panic handler.  Calls of other functions are outside the model. -/
def lua_call_2_1 (find : StrFind) (L : LuaState) : Except Fault LuaState :=
  match L.stack with
  | a2 :: a1 :: .cfun f :: rest =>
    if f = str_find then
      match a1, a2 with
      | .str s, .str pattern =>
        match find s pattern with
        | .ok (some i) => .ok { L with stack := .num i :: rest }
        | .ok none => .ok { L with stack := .nil :: rest }
        | .error e => .error (lapi.panic e)
      | _, _ => .error (lapi.panic "bad argument to find (string expected)")
    else .error .undefined
  | _ => .error .undefined

def lua_pushlstring (L : LuaState) (s : String) : LuaState := lua_pushstring L s

/-- Whether `needle` occurs in a list of characters. -/
def occursIn (needle : List Char) : List Char → Bool
  | [] => needle.isEmpty
  | c :: cs => needle.isPrefixOf (c :: cs) || occursIn needle cs

/-- The test `strstr(s, needle) != NULL`. -/
def strstr (s needle : String) : Bool := occursIn needle.data s.data

/-- The separator `filesystem::separator()` of the engine's file system layer. -/
def filesystem_separator (win32 : Bool) : String := PATHDIV win32

/-- The function `lapi::load_module(name)`. -/
def lapi.load_module (win32 : Bool) (ld : Loader) (mod_dir : String) (externals : hashtable)
    (L : LuaState) (name : String) : Except Fault (hashtable × LuaState) :=
  let p := mod_dir ++ filesystem_separator win32 ++ name ++ ".lua"
  match ld p externals L with
  | (externals, L, none) => .ok (externals, L)
  | (_, _, some e) => .error (fatal "%s" [e])

/-- The function `lapi::setup_binds()`.  The functions that
`lapi_binds::reg_base` enters in the table on top of the stack, each with
`LAPI_REG`, are the list `base`. -/
def lapi.setup_binds (client win32 : Bool) (cfgVersion : Int) (base : cfuns) (ld : Loader)
    (mod_dir : String) (externals : hashtable) (L : LuaState) :
    Except Fault (hashtable × LuaState) := do
  let L := lua_pushboolean L client
  let L ← lua_setglobal L "CLIENT"
  let L := lua_pushboolean L (!client)
  let L ← lua_setglobal L "SERVER"
  let L := lua_pushinteger L cfgVersion
  let L ← lua_setglobal L "OF_CFG_VERSION"
  let L := lua_createtable L 0 0
  let L ← setup_binds_loop base L
  let L ← lua_getfield L LUA_REGISTRYINDEX "_LOADED"
  let L ← lua_pushvalue L (-2)
  let L ← lua_setfield L (-2) "CAPI"
  let L ← lua_pop L 1
  let L ← lua_setglobal L "CAPI"
  lapi.load_module win32 ld mod_dir externals L "init"

/-- The search path that `lapi::init` builds from its eight pieces. -/
def lapi.init_path (win32 : Bool) (homedir : String) (L : LuaState) : Except Fault LuaState := do
  let L ← lua_getglobal L "package"
  /- home directory paths -/
  let L := lua_pushfstring L
    (";" ++ homedir ++ "data" ++ PATHDIV win32 ++ "?" ++ PATHDIV win32 ++ "init.lua")
  let L := lua_pushfstring L (";" ++ homedir ++ "data" ++ PATHDIV win32 ++ "?.lua")
  let L := lua_pushfstring L
    (";" ++ homedir ++ "data" ++ PATHDIV win32 ++ "library" ++ PATHDIV win32 ++ "?"
      ++ PATHDIV win32 ++ "init.lua")
  /- root paths -/
  let L := lua_pushliteral L ";./data/library/core/?.lua"
  let L := lua_pushliteral L ";./data/library/core/?/init.lua"
  let L := lua_pushliteral L ";./data/?/init.lua"
  let L := lua_pushliteral L ";./data/?.lua"
  let L := lua_pushliteral L ";./data/library/?/init.lua"
  let L ← lua_concat L 8
  let L ← lua_setfield L (-2) "path"
  lua_pop L 1

/-- The function `lapi::init(dir)`. -/
def lapi.init (client win32 : Bool) (cfgVersion : Int) (base : cfuns) (homedir : String)
    (defaultPath : String) (ld : Loader) (externals : hashtable) (g : LapiStatics)
    (dir : String) : Except Fault (hashtable × LapiStatics) :=
  if g.initialized then .ok (externals, g)
  else do
    let mod_dir := dir
    let L := luaL_newstate
    let L := MODOPEN defaultPath "base" L
    let L := MODOPEN defaultPath "table" L
    let L := MODOPEN defaultPath "string" L
    let L := MODOPEN defaultPath "math" L
    let L := MODOPEN defaultPath "package" L
    let L := MODOPEN defaultPath "debug" L
    let L := MODOPEN defaultPath "os" L
    let L := MODOPEN defaultPath "io" L
    let L := MODOPEN defaultPath "ffi" L
    let L := MODOPEN defaultPath "bit" L
    let L ← lapi.init_path win32 homedir L
    let L := lua_pushcfunction L create_table
    let L ← lua_setglobal L "createtable"
    let (externals, L) ← lapi.setup_binds client win32 cfgVersion base ld mod_dir externals L
    pure (externals, { L := some L, mod_dir := mod_dir, initialized := true })

/-- The function `lapi::load_library(name)` on the state `lapi::L`; a null
`name` is `none`. -/
def lapi.load_library (win32 : Bool) (homedir : String) (find : StrFind) (L : LuaState)
    (name : Option String) : Except Fault (LuaState × Bool) :=
  match name with
  | none => .ok (L, false)
  | some name =>
    if strstr name ".." then .ok (L, false)
    else do
      let L ← lua_getglobal L "package"
      let pattern := ";./data/library/" ++ name ++ "/?.lua"
      let L ← lua_getglobal L "string"
      let L ← lua_getfield L (-1) "find"
      let L ← lua_getfield L (-3) "path"
      let L := lua_pushlstring L pattern
      let L ← lua_call_2_1 find L
      if !(← lua_isnil L (-1)) then
        let L ← lua_pop L 3
        return (L, true)
      let L ← lua_pop L 2
      /- original path -/
      let L ← lua_getfield L (-1) "path"
      /- home directory path -/
      let L := lua_pushfstring L
        (";" ++ homedir ++ "data" ++ PATHDIV win32 ++ "library" ++ PATHDIV win32 ++ name
          ++ PATHDIV win32 ++ "?.lua")
      /- root path -/
      let L := lua_pushfstring L (";./data/library/" ++ name ++ "/?.lua")
      let L ← lua_concat L 3
      let L ← lua_setfield L (-2) "path"
      return (L, true)

/-- The value of `package.path` in a state, when `package` is a table of the
globals and the field is a string. -/
def packagePath (L : LuaState) : Option String :=
  match L.globals.rawget (.str "package") with
  | .tbl a => match L.heap[a]? with
    | some o => match o.fields.rawget (.str "path") with
      | .str p => some p
      | _ => none
    | none => none
  | _ => none

/-! ## The module search path (of_lua.cpp, lines 122-144; of_lapi.cpp, lines 91-115) -/

/-- The part of `lua::init` that builds the search path (lines 122-144): the
eight pieces are pushed above the table `package`, concatenated and stored as
`package.path`. -/
def init_path (win32 : Bool) (homedir : String) (L : LuaState) : Except Fault LuaState := do
  let L ← lua_getglobal L "package"
  /- home directory paths -/
  let L := if win32 then
      lua_pushfstring (lua_pushfstring (lua_pushfstring (lua_pushfstring L
        (";" ++ homedir ++ "media\\?\\init.lua"))
        (";" ++ homedir ++ "media\\?.lua"))
        (";" ++ homedir ++ "media\\lua\\?\\init.lua"))
        (";" ++ homedir ++ "media\\lua\\?.lua")
    else
      lua_pushfstring (lua_pushfstring (lua_pushfstring (lua_pushfstring L
        (";" ++ homedir ++ "media/?/init.lua"))
        (";" ++ homedir ++ "media/?.lua"))
        (";" ++ homedir ++ "media/lua/?/init.lua"))
        (";" ++ homedir ++ "media/lua/?.lua")
  /- root paths -/
  let L := lua_pushliteral L ";./media/?/init.lua"
  let L := lua_pushliteral L ";./media/?.lua"
  let L := lua_pushliteral L ";./media/lua/?/init.lua"
  let L := lua_pushliteral L ";./media/lua/?.lua"
  let L ← lua_concat L 8
  let L ← lua_setfield L (-2) "path"
  lua_pop L 1

/-- The text of the home directory pieces of `lua::init`, in the order in
which they are pushed. -/
def homePart (win32 : Bool) (homedir : String) : String :=
  if win32 then
    ";" ++ homedir ++ "media\\?\\init.lua" ++ (";" ++ homedir ++ "media\\?.lua")
      ++ (";" ++ homedir ++ "media\\lua\\?\\init.lua") ++ (";" ++ homedir ++ "media\\lua\\?.lua")
  else
    ";" ++ homedir ++ "media/?/init.lua" ++ (";" ++ homedir ++ "media/?.lua")
      ++ (";" ++ homedir ++ "media/lua/?/init.lua") ++ (";" ++ homedir ++ "media/lua/?.lua")

/-- The text of the root pieces of `lua::init`, in the order in which they are
pushed. -/
def rootPart : String :=
  ";./media/?/init.lua" ++ ";./media/?.lua" ++ ";./media/lua/?/init.lua" ++ ";./media/lua/?.lua"

/-- The text of the home directory pieces of `lapi::init`. -/
def lapi.homePart (win32 : Bool) (homedir : String) : String :=
  ";" ++ homedir ++ "data" ++ PATHDIV win32 ++ "?" ++ PATHDIV win32 ++ "init.lua"
    ++ (";" ++ homedir ++ "data" ++ PATHDIV win32 ++ "?.lua")
    ++ (";" ++ homedir ++ "data" ++ PATHDIV win32 ++ "library" ++ PATHDIV win32 ++ "?"
      ++ PATHDIV win32 ++ "init.lua")

/-- The text of the root pieces of `lapi::init`. -/
def lapi.rootPart : String :=
  ";./data/library/core/?.lua" ++ ";./data/library/core/?/init.lua" ++ ";./data/?/init.lua"
    ++ ";./data/?.lua" ++ ";./data/library/?/init.lua"

/-- The state on which `lapi::init` builds its search path: the ten libraries
are open. -/
def lapi.opened (defaultPath : String) : LuaState :=
  MODOPEN defaultPath "bit" (MODOPEN defaultPath "ffi" (MODOPEN defaultPath "io"
    (MODOPEN defaultPath "os" (MODOPEN defaultPath "debug" (MODOPEN defaultPath "package"
      (MODOPEN defaultPath "math" (MODOPEN defaultPath "string" (MODOPEN defaultPath "table"
        (MODOPEN defaultPath "base" luaL_newstate)))))))))

def LUA_PATHSEP : Char := ';'
def LUA_PATH_MARK : Char := '?'
def LUA_DIRSEP (win32 : Bool) : String := if win32 then "\\" else "/"

/-- The templates of a search path, as the loop over `pushnexttemplate` of the
package library (loadlib.c) yields them: the texts between separators, in
order, the empty ones skipped.  `cur` is the text read since the last
separator, in reverse. -/
def templatesFrom (cur : List Char) : List Char → List String
  | [] => if cur = [] then [] else [String.mk cur.reverse]
  | c :: cs =>
    if c = LUA_PATHSEP then
      if cur = [] then templatesFrom [] cs else String.mk cur.reverse :: templatesFrom [] cs
    else templatesFrom (c :: cur) cs

def pathTemplates (path : String) : List String := templatesFrom [] path.data

/-- The auxiliary library's `luaL_gsub(s, p, r)` for a pattern `p` of one
character: every occurrence is replaced by `r`. -/
def luaL_gsub (s : String) (p : Char) (r : String) : String :=
  String.mk (s.data.flatMap (fun c => if c = p then r.data else [c]))

/-- The package library's `findfile(name, "path")` (loadlib.c): the dots of the
name become directory separators, each template of the path in turn has its
marks replaced by the name, and the first file that is readable is returned. -/
def findfile (win32 : Bool) (readable : String → Bool) (path name : String) : Option String :=
  let name := luaL_gsub name '.' (LUA_DIRSEP win32)
  ((pathTemplates path).map (fun t => luaL_gsub t LUA_PATH_MARK name)).find? readable

/-! ## Failing loads (of_lua.cpp, lines 153-160; of_lapi.cpp, lines 122-137; of_tools.cpp, lines 137-160) -/

/-- A loader whose files all fail, with the error text `e`, and have no other
effect. -/
def failingLoader (e : String) : Loader := fun _ externals L => (externals, L, some e)

/-- The message a call has logged through `fatal`, when it ended there. -/
def fatalMessage {α : Type} (r : Except Fault α) : Option String :=
  match r with
  | .error (.fatal m) => some m
  | _ => none

/-- The engine's `loadfile(path(s), NULL)`: the content of the file, nothing
when it cannot be read. -/
abbrev FileReader := String → Option String

/-- What `lua::load_string(buf, chunk) || lua_pcall(lua::L, 0, 0, 0)` does: for
the text and the chunk name, the Lua state it leaves and, when one of the two
fails, the error text, which is then on top of the stack of that state. -/
abbrev ChunkRunner := String → String → LuaState → LuaState × Option String

/-- The function `tools::execfile(cfgfile, msg)`: the Lua state, the lines
logged at level ERROR, and the returned boolean. -/
def tools.execfile (loadfile : FileReader) (run : ChunkRunner) (L : LuaState)
    (cfgfile : String) (msg : Bool) : Except Fault (LuaState × List String × Bool) :=
  let s := copystring cfgfile
  match loadfile s with
  | none => .ok (L, if msg then ["could not read \"" ++ cfgfile ++ "\""] else [], false)
  | some buf =>
    let chunk := copystring ("@" ++ cfgfile)
    match run buf chunk L with
    | (L, some e) => do
      let log := if msg then [e] else []
      let L ← lua_pop L 1
      pure (L, log, false)
    | (L, none) => .ok (L, [], true)

/-! ## Relative paths (of_tools.cpp, lines 55-74) -/

/-- The tokens that the calls `strtok(p, delim)`, `strtok(NULL, delim)`, ...
return for a text: the maximal runs of characters that are not delimiters, in
order.  `cur` is the token read so far, in reverse. -/
def strtokFrom (delim : List Char) (cur : List Char) : List Char → List String
  | [] => if cur = [] then [] else [String.mk cur.reverse]
  | c :: cs =>
    if c ∈ delim then
      if cur = [] then strtokFrom delim [] cs else String.mk cur.reverse :: strtokFrom delim [] cs
    else strtokFrom delim (c :: cur) cs

def strtok (p delim : String) : List String := strtokFrom delim.data [] p.data

/-- The loop of `valrpath` over the tokens, from the value `level` has before
a token: the value of `level` after the last token, or nothing when the loop
returns false.  `level` is a C `int`. -/
def valrpath_loop : List String → Int → Option Int
  | [], level => some level
  | t :: ts, level =>
    let level :=
      if t = ".." then toInt32 (level - 1)
      else if t ≠ "." ∧ t ≠ "" then toInt32 (level + 1)
      else level
    if level < 0 then none else valrpath_loop ts level

/-- The function `tools::valrpath(path)`. -/
def tools.valrpath (path : String) : Bool :=
  match valrpath_loop (strtok path "/\\") (-1) with
  | none => false
  | some level => decide (toInt32 (level - 1) ≥ 0)

/-- The tokens of a path as the claim describes them: the path is split on `/`
and `\`, and the pieces that are not empty are kept. -/
def pathTokens (path : String) : List String :=
  ((path.data.splitOnP (fun c => c = '/' || c = Char.ofNat 92)).filter
    (fun t => t ≠ [])).map String.mk

/-- The change of depth a token stands for: -1 for `..`, 0 for `.`, and +1 for
any other token. -/
def depthChange (t : String) : Int := if t = ".." then -1 else if t = "." then 0 else 1

/-- The depth after a list of tokens. -/
def depthAfter (ts : List String) : Int := (ts.map depthChange).sum

/-- A path stays below its starting directory, in the sense of the claim:
there is at least one token, the depth after every prefix of the tokens that
is not empty is at least 1, and the final depth is at least 2. -/
def staysBelow (path : String) : Prop :=
  pathTokens path ≠ []
  ∧ (∀ n, n < (pathTokens path).length → 1 ≤ depthAfter ((pathTokens path).take (n + 1)))
  ∧ 2 ≤ depthAfter (pathTokens path)

instance (path : String) : Decidable (staysBelow path) := by
  unfold staysBelow
  infer_instance

/-- The path `a/a/.../a/` of `n` directories. -/
def deepPath (n : Nat) : String := String.mk (List.replicate n "a/".data).flatten

/-! ## The function string.find (Lua 5.1, lstrlib.c)

Texts are lists of characters, and a pointer into a text is an index.  A
character stands for a byte, which is exact for 7-bit text. -/

/-- The zero that ends a C string. -/
def NUL : Char := Char.ofNat 0

/-- The character a pointer reads: the terminating zero at the end of the text. -/
def charAt (text : List Char) (i : Nat) : Char := text.getD i NUL

def L_ESC : Char := '%'
def SPECIALS : List Char := "^$*+?.([%-".data
def CAP_UNFINISHED : Int := -1
def CAP_POSITION : Int := -2
def LUA_MAXCAPTURES : Nat := 32

def isdigit (c : Char) : Bool := 48 ≤ c.toNat && c.toNat ≤ 57
def isupper (c : Char) : Bool := 65 ≤ c.toNat && c.toNat ≤ 90
def islower (c : Char) : Bool := 97 ≤ c.toNat && c.toNat ≤ 122
def isalpha (c : Char) : Bool := isupper c || islower c
def isalnum (c : Char) : Bool := isalpha c || isdigit c
def iscntrl (c : Char) : Bool := c.toNat ≤ 31 || c.toNat = 127
def isspace (c : Char) : Bool := c.toNat = 32 || (9 ≤ c.toNat && c.toNat ≤ 13)
def ispunct (c : Char) : Bool := 33 ≤ c.toNat && c.toNat ≤ 126 && !isalnum c
def isxdigit (c : Char) : Bool :=
  isdigit c || (65 ≤ c.toNat && c.toNat ≤ 70) || (97 ≤ c.toNat && c.toNat ≤ 102)
def tolower (c : Char) : Char := if isupper c then Char.ofNat (c.toNat + 32) else c

/-- The captures of a match below `level`: start and length of each, the
length being `CAP_UNFINISHED` or `CAP_POSITION` for the special ones. -/
abbrev Captures := List (Nat × Int)

/-- What `match` returns: the end of the match with the captures, nothing for
NULL, or the text of the error it raises. -/
abbrev MatchResult := Except String (Option (Nat × Captures))

def check_capture (caps : Captures) (l : Char) : Except String Nat :=
  let l : Int := (l.toNat : Int) - 49
  if l < 0 ∨ l ≥ caps.length ∨ (caps.getD l.toNat (0, 0)).2 = CAP_UNFINISHED then
    .error "invalid capture index"
  else .ok l.toNat

/-- The search of `capture_to_close` from the capture below `level` down. -/
def capture_to_close_from (caps : Captures) : Nat → Except String Nat
  | 0 => .error "invalid pattern capture"
  | level + 1 =>
    if (caps.getD level (0, 0)).2 = CAP_UNFINISHED then .ok level
    else capture_to_close_from caps level

def capture_to_close (caps : Captures) : Except String Nat :=
  capture_to_close_from caps caps.length

/-- The loop of `classEnd` that looks for the `]` of a set, from the pointer
`p`; the pointer moves forward in every round, so the length of the pattern
bounds the rounds. -/
def classEnd_set (pat : List Char) : Nat → Nat → Except String Nat
  | 0, _ => .error "malformed pattern (missing ']')"
  | fuel + 1, p =>
    if charAt pat p = NUL then .error "malformed pattern (missing ']')"
    else
      let c := charAt pat p
      let p := p + 1
      let p := if c = L_ESC ∧ charAt pat p ≠ NUL then p + 1 else p
      if charAt pat p ≠ ']' then classEnd_set pat fuel p else .ok (p + 1)

def classEnd (pat : List Char) (p : Nat) : Except String Nat :=
  let c := charAt pat p
  let p := p + 1
  if c = L_ESC then
    if charAt pat p = NUL then .error "malformed pattern (ends with '%')" else .ok (p + 1)
  else if c = '[' then
    let p := if charAt pat p = '^' then p + 1 else p
    classEnd_set pat (pat.length + 1) p
  else .ok p

def match_class (c cl : Char) : Bool :=
  let res (b : Bool) : Bool := if islower cl then b else !b
  let k := tolower cl
  if k = 'a' then res (isalpha c)
  else if k = 'c' then res (iscntrl c)
  else if k = 'd' then res (isdigit c)
  else if k = 'l' then res (islower c)
  else if k = 'p' then res (ispunct c)
  else if k = 's' then res (isspace c)
  else if k = 'u' then res (isupper c)
  else if k = 'w' then res (isalnum c)
  else if k = 'x' then res (isxdigit c)
  else if k = 'z' then res (c = NUL)
  else cl = c

/-- The loop `while (++p < ec)` of `matchbracketclass`. -/
def matchbracketclass_loop (pat : List Char) (c : Char) (sig : Bool) (ec : Nat) :
    Nat → Nat → Bool
  | 0, _ => !sig
  | fuel + 1, p =>
    let p := p + 1
    if p < ec then
      if charAt pat p = L_ESC then
        let p := p + 1
        if match_class c (charAt pat p) then sig
        else matchbracketclass_loop pat c sig ec fuel p
      else if charAt pat (p + 1) = '-' ∧ p + 2 < ec then
        let p := p + 2
        if charAt pat (p - 2) ≤ c ∧ c ≤ charAt pat p then sig
        else matchbracketclass_loop pat c sig ec fuel p
      else if charAt pat p = c then sig
      else matchbracketclass_loop pat c sig ec fuel p
    else !sig

def matchbracketclass (pat : List Char) (c : Char) (p ec : Nat) : Bool :=
  if charAt pat (p + 1) = '^' then matchbracketclass_loop pat c false ec (pat.length + 1) (p + 1)
  else matchbracketclass_loop pat c true ec (pat.length + 1) p

def singlematch (pat : List Char) (c : Char) (p ep : Nat) : Bool :=
  let pc := charAt pat p
  if pc = '.' then true
  else if pc = L_ESC then match_class c (charAt pat (p + 1))
  else if pc = '[' then matchbracketclass pat c p (ep - 1)
  else pc = c

/-- The loop `while (++s < ms->src_end)` of `matchbalance`. -/
def matchbalance_loop (src : List Char) (b e : Char) : Nat → Nat → Nat → Option Nat
  | 0, _, _ => none
  | fuel + 1, s, cont =>
    let s := s + 1
    if s < src.length then
      if charAt src s = e then
        if cont - 1 = 0 then some (s + 1) else matchbalance_loop src b e fuel s (cont - 1)
      else if charAt src s = b then matchbalance_loop src b e fuel s (cont + 1)
      else matchbalance_loop src b e fuel s cont
    else none

def matchbalance (src pat : List Char) (s p : Nat) : Except String (Option Nat) :=
  if charAt pat p = NUL ∨ charAt pat (p + 1) = NUL then .error "unbalanced pattern"
  else if charAt src s ≠ charAt pat p then .ok none
  else .ok (matchbalance_loop src (charAt pat p) (charAt pat (p + 1)) (src.length + 1) s 1)

/-- The first loop of `max_expand`: the number of characters from `s` on that
match the item. -/
def max_expand_count (src pat : List Char) (p ep : Nat) : Nat → Nat → Nat
  | 0, _ => 0
  | fuel + 1, s =>
    if s < src.length ∧ singlematch pat (charAt src s) p ep then
      max_expand_count src pat p ep fuel (s + 1) + 1
    else 0

/-- The second loop of `max_expand`: the rest of the pattern, `rest`, is tried
after `i` repetitions, then after fewer. -/
def max_expand_try (rest : Nat → MatchResult) (s : Nat) : Nat → MatchResult
  | 0 => rest s
  | i + 1 => do
    match ← rest (s + (i + 1)) with
    | some r => pure (some r)
    | none => max_expand_try rest s i

def max_expand (src pat : List Char) (rest : Nat → MatchResult) (s p ep : Nat) : MatchResult :=
  max_expand_try rest s (max_expand_count src pat p ep (src.length + 1) s)

/-- The loop of `min_expand`: the rest of the pattern is tried first, then one
more repetition of the item. -/
def min_expand (src pat : List Char) (rest : Nat → MatchResult) (p ep : Nat) :
    Nat → Nat → MatchResult
  | 0, s => rest s
  | fuel + 1, s => do
    match ← rest s with
    | some r => pure (some r)
    | none =>
      if s < src.length ∧ singlematch pat (charAt src s) p ep then
        min_expand src pat rest p ep fuel (s + 1)
      else pure none

/-- The function `match(ms, s, p)`, called `luaMatch` as `match` is a word of
Lean.  Every call made from a call at `p` is at a later place of the pattern,
so the calls nest at most as deep as the pattern is long; `fuel` bounds the
depth, and with the length of the pattern plus one it never runs out. -/
def luaMatch (src pat : List Char) : Nat → Nat → Nat → Captures → MatchResult
  | 0, _, _, _ => .error "pattern too complex"
  | fuel + 1, s, p, caps =>
    let dflt : Unit → MatchResult := fun _ => do
      let ep ← classEnd pat p
      let m : Bool := decide (s < src.length) && singlematch pat (charAt src s) p ep
      let epc := charAt pat ep
      if epc = '?' then
        if m then
          match ← luaMatch src pat fuel (s + 1) (ep + 1) caps with
          | some r => pure (some r)
          | none => luaMatch src pat fuel s (ep + 1) caps
        else luaMatch src pat fuel s (ep + 1) caps
      else if epc = '*' then
        max_expand src pat (fun s1 => luaMatch src pat fuel s1 (ep + 1) caps) s p ep
      else if epc = '+' then
        if m then max_expand src pat (fun s1 => luaMatch src pat fuel s1 (ep + 1) caps) (s + 1) p ep
        else pure none
      else if epc = '-' then
        min_expand src pat (fun s1 => luaMatch src pat fuel s1 (ep + 1) caps) p ep
          (src.length + 1) s
      else if !m then pure none
      else luaMatch src pat fuel (s + 1) ep caps
    let start_capture : Nat → Int → MatchResult := fun p1 what =>
      if caps.length ≥ LUA_MAXCAPTURES then .error "too many captures"
      else luaMatch src pat fuel s p1 (caps ++ [(s, what)])
    let pc := charAt pat p
    if pc = '(' then
      if charAt pat (p + 1) = ')' then start_capture (p + 2) CAP_POSITION
      else start_capture (p + 1) CAP_UNFINISHED
    else if pc = ')' then do
      let l ← capture_to_close caps
      luaMatch src pat fuel s (p + 1) (caps.set l ((caps.getD l (0, 0)).1, s - (caps.getD l (0, 0)).1))
    else if pc = L_ESC then
      if charAt pat (p + 1) = 'b' then do
        match ← matchbalance src pat s (p + 2) with
        | none => pure none
        | some s1 => luaMatch src pat fuel s1 (p + 4) caps
      else if charAt pat (p + 1) = 'f' then do
        let p1 := p + 2
        if charAt pat p1 ≠ '[' then throw "missing '[' after '%f' in pattern"
        let ep ← classEnd pat p1
        let previous := if s = 0 then NUL else charAt src (s - 1)
        if matchbracketclass pat previous p1 (ep - 1)
            || !matchbracketclass pat (charAt src s) p1 (ep - 1) then pure none
        else luaMatch src pat fuel s ep caps
      else if isdigit (charAt pat (p + 1)) then do
        let l ← check_capture caps (charAt pat (p + 1))
        let len := (caps.getD l (0, 0)).2
        if 0 ≤ len ∧ len ≤ ((src.length - s : Nat) : Int)
            ∧ (src.drop (caps.getD l (0, 0)).1).take len.toNat = (src.drop s).take len.toNat then
          luaMatch src pat fuel (s + len.toNat) (p + 2) caps
        else pure none
      else dflt ()
    else if pc = NUL then pure (some (s, caps))
    else if pc = '$' then
      if charAt pat (p + 1) = NUL then pure (if s = src.length then some (s, caps) else none)
      else dflt ()
    else dflt ()

/-- The plain search `lmemfind`: the first place from `s` on at which `pat`
occurs in `src`. -/
def lmemfind (pat : List Char) : List Char → Nat → Option Nat
  | [], s => if pat = [] then some s else none
  | c :: cs, s => if pat.isPrefixOf (c :: cs) then some s else lmemfind pat cs (s + 1)

/-- The loop of `str_find_aux` over the places `s1` at which a match may
start; the start of the first match is returned, counted from 1.  The
captures are pushed after it, which raises an error for one that is not
closed. -/
def str_find_loop (src pat : List Char) (anchor : Bool) (p : Nat) :
    Nat → Nat → Except String (Option Int)
  | 0, _ => .ok none
  | fuel + 1, s1 =>
    match luaMatch src pat (pat.length + 1) s1 p [] with
    | .error e => .error e
    | .ok (some (_, caps)) =>
      if caps.any (fun c => c.2 = CAP_UNFINISHED) then .error "unfinished capture"
      else .ok (some ((s1 : Int) + 1))
    | .ok none =>
      if s1 < src.length ∧ !anchor then str_find_loop src pat anchor p fuel (s1 + 1)
      else .ok none

/-- The function `str_find_aux(L, 1)`, which is `string.find`, called with a
subject and a pattern only (the search starts at 1, and is plain only when the
pattern has no special character): its first result. -/
def str_find_aux : StrFind := fun s p =>
  if p.data.all (fun c => c ∉ SPECIALS) then
    .ok ((lmemfind p.data s.data 0).map (fun i => (i : Int) + 1))
  else
    let anchor : Bool := charAt p.data 0 = '^'
    str_find_loop s.data p.data anchor (if anchor then 1 else 0) (s.data.length + 1) 0

/-! ## Runtime instances (of_lua.cpp, lines 29 and 46-96) -/

/-- The function `push_external(name)` with one argument, which is
`push_external(L, name)` on the state `lua::L` of the process.  Without a
state (`L` is NULL) the call is defined only for a name without a slot. -/
def LuaStatics.push_external (g : LuaStatics) (name : String) :
    Except Fault (LuaStatics × Bool) :=
  match g.L with
  | none =>
    match g.externals.access name with
    | none => .ok (g, false)
    | some _ => .error .undefined
  | some L => do
    let (L, found) ← OF.push_external g.externals L name
    pure ({ g with L := some L }, found)

theorem LTable.rawget_filter (t : LTable) (k k1 : LVal) :
    LTable.rawget (t.filter (fun e => e.1 ≠ k)) k1
      = if k1 = k then .nil else LTable.rawget t k1 := by
  induction t with
  | nil => simp [LTable.rawget]
  | cons e t ih =>
    obtain ⟨a, b⟩ := e
    by_cases h : a = k
    · subst h
      simp only [List.filter, ne_eq, not_true_eq_false, decide_False, ih, LTable.rawget]
      by_cases h1 : k1 = a
      · simp [h1]
      · have : ¬ a = k1 := fun h2 => h1 h2.symm
        simp [h1, this]
    · simp only [List.filter, ne_eq, h, not_false_eq_true, decide_True, LTable.rawget, ih]
      by_cases h1 : a = k1
      · subst h1; simp [h]
      · simp [h1]

theorem LTable.rawget_rawset (t : LTable) (k v k1 : LVal) :
    LTable.rawget (LTable.rawset t k v) k1 = if k1 = k then v else LTable.rawget t k1 := by
  unfold LTable.rawset
  by_cases hv : v = .nil
  · simp only [hv, if_true, LTable.rawget_filter]
  · simp only [hv, if_false, LTable.rawget, LTable.rawget_filter]
    by_cases h1 : k1 = k
    · subst h1; simp
    · have : ¬ k = k1 := fun h2 => h1 h2.symm
      simp [h1, this]

theorem LTable.rawget_rawset_self (t : LTable) (k v : LVal) :
    LTable.rawget (LTable.rawset t k v) k = v := by
  simp [LTable.rawget_rawset]

theorem LTable.rawget_rawset_of_ne (t : LTable) (k v k1 : LVal) (h : k1 ≠ k) :
    LTable.rawget (LTable.rawset t k v) k1 = LTable.rawget t k1 := by
  simp [LTable.rawget_rawset, h]

/-! ## Stack indices and the registry operand -/

theorem index2adr_neg1 (L : LuaState) : index2adr L (-1) = L.stack[0]? := rfl
theorem index2adr_neg2 (L : LuaState) : index2adr L (-2) = L.stack[1]? := rfl
theorem index2adr_neg3 (L : LuaState) : index2adr L (-3) = L.stack[2]? := rfl
theorem index2adr_pos1 (L : LuaState) :
    index2adr L 1 = if 1 ≤ L.stack.length then L.stack[L.stack.length - 1]? else none := rfl
theorem index2adr_pos2 (L : LuaState) :
    index2adr L 2 = if 2 ≤ L.stack.length then L.stack[L.stack.length - 2]? else none := rfl

theorem tableAt_registry (L : LuaState) : tableAt L LUA_REGISTRYINDEX = .ok .registry := rfl

theorem lua_rawgeti_registry (L : LuaState) (n : Int) :
    lua_rawgeti L LUA_REGISTRYINDEX n
      = .ok { L with stack := L.registry.rawget (.num n) :: L.stack } := rfl

theorem lua_rawseti_registry (R G : LTable) (H : List HObj) (v : LVal) (rest : List LVal)
    (n : Int) :
    lua_rawseti { registry := R, globals := G, heap := H, stack := v :: rest }
        LUA_REGISTRYINDEX n
      = .ok { registry := R.rawset (.num n) v, globals := G, heap := H, stack := rest } := rfl

theorem lua_setfield_registry (R G : LTable) (H : List HObj) (v : LVal) (rest : List LVal)
    (k : String) :
    lua_setfield { registry := R, globals := G, heap := H, stack := v :: rest }
        LUA_REGISTRYINDEX k
      = .ok { registry := R.rawset (.str k) v, globals := G, heap := H, stack := rest } := rfl

/-- The call `luaL_unref` on the registry: the stack is as before, and a
reference that is not negative becomes the head of the free list. -/
theorem luaL_unref_registry (L : LuaState) (r : Int) :
    luaL_unref L LUA_REGISTRYINDEX r
      = .ok (if r ≥ 0 then
          { L with registry :=
              ((L.registry.rawset (.num r) (L.registry.rawget (.num FREELIST_REF))).rawset
                (.num FREELIST_REF) (.num r)) }
        else L) := by
  unfold luaL_unref
  by_cases h : r ≥ 0
  · simp [h, lua_rawgeti_registry, bind, Except.bind, lua_pushinteger,
      lua_rawseti_registry]
  · simp [h, pure, Except.pure]

/-- The call `luaL_ref` on the registry pops the value `v` on top and returns a
reference `r`; the registry then holds `v` at `r` when `v` is not nil, and is
untouched with `r = LUA_REFNIL` when it is; string keys are never written. -/
theorem luaL_ref_registry (L : LuaState) (v : LVal) (rest : List LVal)
    (h : L.stack = v :: rest) :
    ∃ R r, luaL_ref L LUA_REGISTRYINDEX = .ok ({ L with registry := R, stack := rest }, r)
      ∧ (v = .nil → r = LUA_REFNIL ∧ R = L.registry)
      ∧ (v ≠ .nil → R.rawget (.num r) = v)
      ∧ (∀ s, R.rawget (.str s) = L.registry.rawget (.str s)) := by
  unfold luaL_ref
  by_cases hv : v = .nil
  · subst hv
    refine ⟨L.registry, LUA_REFNIL, ?_, fun _ => ⟨rfl, rfl⟩, fun h1 => absurd rfl h1, fun _ => rfl⟩
    simp [lua_isnil, index2adr_neg1, h, bind, Except.bind, lua_pop, pure, Except.pure]
  · simp only [lua_isnil, index2adr_neg1, h, List.getElem?_cons_zero, hv, decide_False,
      bind, Except.bind, lua_rawgeti_registry, lua_tointeger, lua_pop, List.length_cons,
      Bool.false_eq_true, if_false]
    generalize toInt32 ((L.registry.rawget (LVal.num FREELIST_REF)).tonumber.getD 0) = f
    by_cases hf : f = 0
    · refine ⟨L.registry.rawset (.num (toInt32 (toInt32 L.registry.objlen + 1))) v,
        toInt32 (toInt32 L.registry.objlen + 1), ?_, fun h1 => h1.elim,
        fun _ => LTable.rawget_rawset_self _ _ _, fun s => ?_⟩
      · simp [hf, pure, Except.pure, lua_objlen, tableAt_registry, getFields, bind, Except.bind,
          lua_rawseti_registry]
      · exact LTable.rawget_rawset_of_ne _ _ _ _ (by simp)
    · refine ⟨(L.registry.rawset (.num FREELIST_REF) (L.registry.rawget (.num f))).rawset
          (.num f) v, f, ?_, fun h1 => h1.elim,
        fun _ => LTable.rawget_rawset_self _ _ _, fun s => ?_⟩
      · simp [hf, pure, Except.pure, lua_rawseti_registry]
      · rw [LTable.rawget_rawset_of_ne _ _ _ _ (by simp),
          LTable.rawget_rawset_of_ne _ _ _ _ (by simp)]



theorem luaL_checkstring_frame1 (L : LuaState) (k : String) (args : List LVal) :
    luaL_checkstring (L.frame (.str k :: args)) 1 = .ok (L.frame (.str k :: args), k) := by
  simp [luaL_checkstring, index2adr_pos1, LuaState.frame]

theorem external_set_eq (keep : Bool) (externals : hashtable) (L : LuaState) (k : String)
    (v : LVal) :
    external_set keep externals (L.frame [.str k, v])
      = (luaL_ref { registry := regBeforeRef externals L k, globals := L.globals,
                    heap := L.heap, stack := [v, slotValue externals L k, v, .str k] }
            LUA_REGISTRYINDEX).map
          (fun p => (externals.accessElem keep k p.2, p.1, 1)) := by
  unfold external_set
  rw [luaL_checkstring_frame1]
  cases hk : externals.access k with
  | none =>
    simp [hk, bind, Except.bind, pure, Except.pure, lua_pushnil, lua_pushvalue, index2adr_pos1,
      index2adr_pos2, LuaState.frame, lua_setfield_registry, regBeforeRef, slotValue, Except.map]
  | some r =>
    simp [hk, bind, Except.bind, pure, Except.pure, lua_pushvalue, index2adr_pos1,
      index2adr_pos2, LuaState.frame, lua_setfield_registry, regBeforeRef, slotValue, Except.map,
      lua_rawgeti_registry, luaL_unref_registry]
    by_cases hr : 0 ≤ r <;> simp [hr, lua_setfield_registry]

/-! ## External value broker -/

theorem external_set_result (keep : Bool) (externals : hashtable) (L : LuaState) (k : String)
    (v : LVal) :
    result1 (external_set keep externals (L.frame [.str k, v]))
      = some (slotValue externals L k) := by
  rw [external_set_eq]
  obtain ⟨R, r, h, -⟩ := luaL_ref_registry
    { registry := regBeforeRef externals L k, globals := L.globals, heap := L.heap,
      stack := [v, slotValue externals L k, v, .str k] } v _ rfl
  rw [h]
  rfl

/-- What `external_set` leaves when the key has no slot yet and the registry
holds nothing at `LUA_REFNIL`: the key refers to a slot that holds the value. -/
theorem external_set_new_key (keep : Bool) (externals : hashtable) (L : LuaState) (k : String)
    (v : LVal) (hk : externals.access k = none)
    (hnil : L.registry.rawget (.num LUA_REFNIL) = .nil) :
    ∃ E1 L1, after (external_set keep externals (L.frame [.str k, v])) = some (E1, L1)
      ∧ slotValue E1 L1 k = v := by
  rw [external_set_eq]
  obtain ⟨R, r, h, h1, h2, -⟩ := luaL_ref_registry
    { registry := regBeforeRef externals L k, globals := L.globals, heap := L.heap,
      stack := [v, slotValue externals L k, v, .str k] } v _ rfl
  rw [h]
  refine ⟨_, _, rfl, ?_⟩
  have hk1 : externals k = none := hk
  simp only [slotValue, hashtable.access, hashtable.accessElem, hk1, Function.update_same]
  by_cases hv : v = .nil
  · obtain ⟨hr, hR⟩ := h1 hv
    subst hr hR
    simp only [regBeforeRef, hk]
    rw [LTable.rawget_rawset_of_ne _ _ _ _ (by simp), hnil, hv]
  · exact h2 hv

theorem external_get_result (externals : hashtable) (L : LuaState) (k : String) :
    external_get externals (L.frame [.str k])
      = .ok (externals, { L with stack := [slotValue externals L k, .str k] }, 1) := by
  unfold external_get
  rw [luaL_checkstring_frame1]
  cases hk : externals.access k <;>
    simp [hk, bind, Except.bind, pure, Except.pure, push_external, slotValue, lua_pushnil,
      lua_rawgeti_registry, LuaState.frame]

/-- The result of `external_set(k, v)` is the content of the slot of `k`,
which is what `external_get(k)` reads, and nil when `k` has no slot.  When `k`
has no slot (as on a fresh broker), `set(k, v1)` returns nil and a following
`set(k, v2)` returns `v1`.  This holds for both readings of the hashtable's
`access(key, elem)`. -/
theorem external_set_returns_slot_content (keep : Bool) (externals : hashtable) (L : LuaState)
    (k : String) (v1 v2 : LVal) :
    result1 (external_set keep externals (L.frame [.str k, v1]))
        = result1 (external_get externals (L.frame [.str k]))
    ∧ result1 (external_set keep externals (L.frame [.str k, v1]))
        = some (match externals.access k with
                | some r => L.registry.rawget (.num r)
                | none => .nil)
    ∧ (externals.access k = none → L.registry.rawget (.num LUA_REFNIL) = .nil →
        result1 (external_set keep externals (L.frame [.str k, v1])) = some .nil
        ∧ ∃ E1 L1, after (external_set keep externals (L.frame [.str k, v1])) = some (E1, L1)
            ∧ result1 (external_set keep E1 (L1.frame [.str k, v2])) = some v1) := by
  refine ⟨?_, external_set_result keep externals L k v1, fun hk hnil => ⟨?_, ?_⟩⟩
  · rw [external_set_result, external_get_result]; rfl
  · rw [external_set_result]; simp [slotValue, hk]
  · obtain ⟨E1, L1, h1, h2⟩ := external_set_new_key keep externals L k v1 hk hnil
    exact ⟨E1, L1, h1, by rw [external_set_result, h2]⟩

/-- On the fresh broker no key has a slot: `set("k", 1)` returns nil and a
following `set("k", 2)` returns 1. -/
theorem external_set_twice_on_fresh_broker :
    (hashtable.access (fun _ => none) "k" = none
      ∧ luaL_newstate.registry.rawget (.num LUA_REFNIL) = .nil)
    ∧ result1 (external_set true (fun _ => none) (luaL_newstate.frame [.str "k", .num 1]))
        = some .nil
    ∧ ∃ E1 L1, after (external_set true (fun _ => none)
          (luaL_newstate.frame [.str "k", .num 1])) = some (E1, L1)
        ∧ result1 (external_set true E1 (L1.frame [.str "k", .num 2])) = some (.num 1) :=
  ⟨⟨rfl, rfl⟩,
   (external_set_returns_slot_content true (fun _ => none) luaL_newstate "k" (.num 1) (.num 2)).2.2
     rfl rfl⟩

/-- C1 (defect): on a fresh broker and a new Lua state, the three calls
`external_set("k", nil)`, `external_set("k", 5)`, `external_set("k", 6)` return
nil, nil and nil: the third call does not return 5, the value stored under the
key by the call before it.  The first call records `LUA_REFNIL` for the key;
the second call takes a new reference for 5, but
`externals.access(name, luaL_ref(...))` finds the key present and keeps
`LUA_REFNIL`, so 5 is dropped without being returned to any caller.  With an
`access(key, elem)` that replaces the element the third call returns 5. -/
theorem external_set_after_nil_drops_value :
    brokerResults (runBroker true
        [BrokerCall.set "k" .nil, BrokerCall.set "k" (.num 5), BrokerCall.set "k" (.num 6)]
        (fun _ => none) luaL_newstate) = some [.nil, .nil, .nil]
    ∧ (∃ E1 L1 E2 L2,
        after (external_set true (fun _ => none) (luaL_newstate.frame [.str "k", .nil]))
          = some (E1, L1)
        ∧ E1.access "k" = some LUA_REFNIL
        ∧ after (external_set true E1 (L1.frame [.str "k", .num 5])) = some (E2, L2)
        ∧ E2.access "k" = some LUA_REFNIL
        ∧ result1 (external_set true E2 (L2.frame [.str "k", .num 6])) = some .nil)
    ∧ brokerResults (runBroker false
        [BrokerCall.set "k" .nil, BrokerCall.set "k" (.num 5), BrokerCall.set "k" (.num 6)]
        (fun _ => none) luaL_newstate) = some [.nil, .nil, .num 5] := by
  refine ⟨by decide, ⟨_, _, _, _, rfl, rfl, rfl, rfl, rfl⟩, by decide⟩

/-- With the reading of `access(key, elem)` that replaces the element of a
present key, a value that was set is the value that is read back. -/
theorem external_get_after_set_of_replace (externals : hashtable) (L : LuaState) (k : String)
    (v : LVal) (hnil : L.registry.rawget (.num LUA_REFNIL) = .nil) :
    ∃ E1 L1, after (external_set false externals (L.frame [.str k, v])) = some (E1, L1)
      ∧ result1 (external_get E1 (L1.frame [.str k])) = some v := by
  rw [external_set_eq]
  obtain ⟨R, r, h, h1, h2, -⟩ := luaL_ref_registry
    { registry := regBeforeRef externals L k, globals := L.globals, heap := L.heap,
      stack := [v, slotValue externals L k, v, .str k] } v _ rfl
  rw [h]
  refine ⟨_, _, rfl, ?_⟩
  rw [external_get_result]
  have hE : hashtable.accessElem false externals k r k = some r := by
    unfold hashtable.accessElem
    cases externals k <;> simp
  simp only [result1, List.head?_cons, slotValue, hashtable.access, hE]
  by_cases hv : v = .nil
  · obtain ⟨hr, hR⟩ := h1 hv
    subst hr hR
    rw [hv]
    congr 1
    unfold regBeforeRef
    cases externals.access k with
    | none => rw [LTable.rawget_rawset_of_ne _ _ _ _ (by simp), hnil]
    | some r0 =>
      rw [LTable.rawget_rawset_of_ne _ _ _ _ (by simp)]
      by_cases hr0 : r0 ≥ 0
      · have h3 : (LVal.num LUA_REFNIL) ≠ LVal.num FREELIST_REF := by decide
        have h4 : (LVal.num LUA_REFNIL) ≠ LVal.num r0 := by
          intro h5
          have h6 : LUA_REFNIL = r0 := by injection h5
          rw [← h6] at hr0
          exact absurd hr0 (by decide)
        rw [if_pos hr0, LTable.rawget_rawset_of_ne _ _ _ _ h3,
          LTable.rawget_rawset_of_ne _ _ _ _ h4, hnil]
      · rw [if_neg hr0, hnil]
  · rw [h2 hv]

/-- C2 (defect): on a fresh broker and a new Lua state, `external_set("k", nil)`
followed by `external_set("k", 5)` leaves `external_get("k")` returning nil and
not 5.  The first call stores `LUA_REFNIL` for the key; in the second call
`externals.access(name, luaL_ref(...))` finds the key present and keeps that
reference, so the new reference is never recorded. -/
theorem external_get_after_nil_then_value :
    brokerResults (runBroker true
        [BrokerCall.set "k" .nil, BrokerCall.set "k" (.num 5), BrokerCall.get "k"]
        (fun _ => none) luaL_newstate) = some [.nil, .nil, .nil] := by
  decide

/-- C3: `external_unset(k)` returns true exactly when `k` had a slot before the
call and false otherwise; afterwards `external_get(k)` returns nil in both
cases; and when it returns false the broker and the Lua state are as before
(the state differs only by the pushed result). -/
theorem external_unset_reports_slot (externals : hashtable) (L : LuaState) (k : String) :
    ∃ E1 L1, external_unset externals (L.frame [.str k]) = .ok (E1, L1, 1)
      ∧ L1.stack.head? = some (.bool (externals.access k).isSome)
      ∧ result1 (external_get E1 (L1.frame [.str k])) = some .nil
      ∧ ((externals.access k).isSome = true
          ∨ (E1 = externals ∧ L1 = lua_pushboolean (L.frame [.str k]) false)) := by
  unfold external_unset
  rw [luaL_checkstring_frame1]
  cases hk : externals.access k with
  | none =>
    refine ⟨externals, lua_pushboolean (L.frame [.str k]) false, ?_, rfl, ?_, Or.inr ⟨rfl, rfl⟩⟩
    · simp [bind, Except.bind, pure, Except.pure, hk]
    · rw [external_get_result]
      simp [result1, slotValue, hk]
  | some r =>
    have hk1 : externals k = some r := hk
    have key : ∃ R, (do
        let (L, name) ← (Except.ok (L.frame [.str k], k) : Except Fault (LuaState × String))
        let ref := externals.access name
        match ref with
        | none =>
          let L := lua_pushboolean L false
          pure (externals, L, 1)
        | some r =>
          let L := lua_pushnil L
          let L ← lua_setfield L LUA_REGISTRYINDEX name
          let L ← luaL_unref L LUA_REGISTRYINDEX r
          let (externals, removed) := externals.remove name
          let L := lua_pushboolean L removed
          pure (externals, L, 1))
        = .ok (Function.update externals k none,
            { registry := R, globals := L.globals, heap := L.heap,
              stack := [.bool true, .str k] }, 1) := by
      by_cases hr : r ≥ 0
      · exact ⟨_, by
          simp only [bind, Except.bind, pure, Except.pure, lua_pushnil, LuaState.frame,
            List.reverse_cons, List.reverse_nil, List.nil_append, lua_setfield_registry,
            luaL_unref_registry, hashtable.remove, hk1, hk, hr, if_true, lua_pushboolean]
          rfl⟩
      · exact ⟨_, by
          simp only [bind, Except.bind, pure, Except.pure, lua_pushnil, LuaState.frame,
            List.reverse_cons, List.reverse_nil, List.nil_append, lua_setfield_registry,
            luaL_unref_registry, hashtable.remove, hk1, hk, hr, if_false, lua_pushboolean]
          rfl⟩
    obtain ⟨R, hR⟩ := key
    refine ⟨Function.update externals k none, _, hR, rfl, ?_, Or.inl rfl⟩
    rw [external_get_result]
    simp [result1, slotValue, hashtable.access]
/-! ## String pin table -/

theorem PinTableAt.lt {L : LuaState} {a : Nat} {o : HObj} (h : PinTableAt L a o) :
    a < L.heap.length := by
  by_contra hlt
  have := h.2
  rw [List.getElem?_eq_none (Nat.le_of_not_lt hlt)] at this
  exact absurd this (by simp)

theorem pinRecord_eq {L : LuaState} {a : Nat} {o : HObj} (h : PinTableAt L a o) (s : String) :
    pinRecord L s = some (o.fields.rawget (.str s)) := by
  obtain ⟨h1, h2⟩ := h
  unfold pinRecord
  rw [h1]
  simp only [h2]

/-- A count is the value the functions read from the record. -/
theorem pinCount_eq {L : LuaState} {a : Nat} {o : HObj} (h : PinTableAt L a o) {s : String}
    {c : Int} (hc : pinCount L s = some c) :
    toInt32 ((o.fields.rawget (.str s)).tonumber.getD 0) = c := by
  unfold pinCount at hc
  rw [pinRecord_eq h] at hc
  cases hr : o.fields.rawget (.str s) with
  | nil => rw [hr] at hc; simp only [Option.some.injEq] at hc; rw [← hc]; rfl
  | num n => rw [hr] at hc; simp only [Option.some.injEq] at hc; rw [← hc]; rfl
  | bool b => rw [hr] at hc; exact absurd hc (by simp)
  | str x => rw [hr] at hc; exact absurd hc (by simp)
  | tbl x => rw [hr] at hc; exact absurd hc (by simp)
  | udata x => rw [hr] at hc; exact absurd hc (by simp)
  | cfun x => rw [hr] at hc; exact absurd hc (by simp)
  | cclosure x y => rw [hr] at hc; exact absurd hc (by simp)

theorem PinTableAt_setHeapField {L : LuaState} {a : Nat} {o : HObj} (h : PinTableAt L a o)
    (k v : LVal) :
    PinTableAt (setHeapField L a o k v) a { o with fields := o.fields.rawset k v } := by
  refine ⟨h.1, ?_⟩
  simp [setHeapField, List.getElem?_set, h.lt]

theorem PINHDR_eq {L : LuaState} {a : Nat} {o : HObj} (h : PinTableAt L a o) (s : String) :
    PINHDR L s
      = .ok { L with stack := o.fields.rawget (.str s) :: .str s :: .tbl a :: L.stack } := by
  have h2 := h.lt
  obtain ⟨h1, h3⟩ := h
  simp [PINHDR, lua_pushliteral, lua_pushstring, lua_rawget, tableAt_registry, bind, Except.bind,
    pure, Except.pure, getFields, h1, lua_pushvalue, index2adr_neg1, index2adr_neg3, tableAt,
    LUA_REGISTRYINDEX, LUA_GLOBALSINDEX, h2, h3]

theorem pin_string_eq {L : LuaState} {a : Nat} {o : HObj} (h : PinTableAt L a o) (s : String) :
    pin_string L s = .ok (setHeapField L a o (.str s)
      (.num (toInt32 (toInt32 ((o.fields.rawget (.str s)).tonumber.getD 0) + 1)))) := by
  unfold pin_string
  rw [PINHDR_eq h s]
  have h2 := h.lt
  obtain ⟨h1, h3⟩ := h
  simp [bind, Except.bind, pure, Except.pure, lua_tointeger, index2adr_neg1, lua_pop,
    lua_pushinteger, lua_rawset, tableAt, index2adr_neg3, LUA_REGISTRYINDEX, LUA_GLOBALSINDEX, h2,
    setHeapField, setFields, getFields, h3]

theorem unpin_string_eq {L : LuaState} {a : Nat} {o : HObj} (h : PinTableAt L a o) (s : String)
    (debug : Bool) :
    unpin_string debug L s =
      if debug = true ∧ (o.fields.rawget (.str s)).tonumber.isSome = false then
        .error .assertion
      else .ok (setHeapField L a o (.str s)
        (if toInt32 ((o.fields.rawget (.str s)).tonumber.getD 0) = 1 then .nil
         else .num (toInt32 (toInt32 ((o.fields.rawget (.str s)).tonumber.getD 0) - 1)))) := by
  unfold unpin_string
  rw [PINHDR_eq h s]
  have h2 := h.lt
  obtain ⟨h1, h3⟩ := h
  by_cases hd : debug = true ∧ (o.fields.rawget (.str s)).tonumber.isSome = false
  · obtain ⟨hd1, hd2⟩ := hd
    simp [bind, Except.bind, lua_isnumber, index2adr_neg1, ASSERT, hd1, hd2]
  · rw [if_neg hd]
    have hA : ASSERT debug (o.fields.rawget (.str s)).tonumber.isSome = .ok () := by
      unfold ASSERT
      cases debug <;> simp_all
    by_cases hc : toInt32 ((o.fields.rawget (.str s)).tonumber.getD 0) = 1 <;>
    simp [bind, Except.bind, pure, Except.pure, lua_tointeger, index2adr_neg1, lua_pop,
      lua_pushinteger, lua_pushnil, lua_rawset, tableAt, index2adr_neg3, LUA_REGISTRYINDEX,
      LUA_GLOBALSINDEX, h2, setHeapField, setFields, getFields, h3, lua_isnumber, hA, hc]
theorem toInt32_of_range (x : Int) (h1 : -2147483648 ≤ x) (h2 : x ≤ 2147483647) :
    toInt32 x = x := by
  unfold toInt32
  omega

theorem toInt32_range (x : Int) : -2147483648 ≤ toInt32 x ∧ toInt32 x ≤ 2147483647 := by
  unfold toInt32
  omega

theorem toInt32_add (x y : Int) : toInt32 (toInt32 x + y) = toInt32 (x + y) := by
  unfold toInt32
  omega

/-- One `pin_string` on a state with a pin table: the call returns, the record
of the string becomes the incremented `int`, and nothing else changes. -/
theorem pin_string_step {L : LuaState} {a : Nat} {o : HObj} (h : PinTableAt L a o) (s : String) :
    ∃ L1 o1, pin_string L s = .ok L1 ∧ PinTableAt L1 a o1
      ∧ L1.stack = L.stack ∧ L1.registry = L.registry
      ∧ o1.fields.rawget (.str s)
          = .num (toInt32 (toInt32 ((o.fields.rawget (.str s)).tonumber.getD 0) + 1))
      ∧ ∀ s1, s1 ≠ s → o1.fields.rawget (.str s1) = o.fields.rawget (.str s1) := by
  refine ⟨_, _, pin_string_eq h s, PinTableAt_setHeapField h _ _, rfl, rfl, ?_, fun s1 hs => ?_⟩
  · simp only [LTable.rawget_rawset_self]
  · have hne : LVal.str s1 ≠ LVal.str s := by simpa using hs
    simp only [LTable.rawget_rawset_of_ne _ _ _ _ hne]

/-- One `unpin_string` that passes its `ASSERT`. -/
theorem unpin_string_step {L : LuaState} {a : Nat} {o : HObj} (h : PinTableAt L a o) (s : String)
    (debug : Bool)
    (hA : ¬ (debug = true ∧ (o.fields.rawget (.str s)).tonumber.isSome = false)) :
    ∃ L1 o1, unpin_string debug L s = .ok L1 ∧ PinTableAt L1 a o1
      ∧ L1.stack = L.stack ∧ L1.registry = L.registry
      ∧ o1.fields.rawget (.str s)
          = (if toInt32 ((o.fields.rawget (.str s)).tonumber.getD 0) = 1 then .nil
             else .num (toInt32 (toInt32 ((o.fields.rawget (.str s)).tonumber.getD 0) - 1)))
      ∧ ∀ s1, s1 ≠ s → o1.fields.rawget (.str s1) = o.fields.rawget (.str s1) := by
  refine ⟨_, _, (unpin_string_eq h s debug).trans (if_neg hA), PinTableAt_setHeapField h _ _,
    rfl, rfl, ?_, fun s1 hs => ?_⟩
  · simp only [LTable.rawget_rawset_self]
  · have hne : LVal.str s1 ≠ LVal.str s := by simpa using hs
    simp only [LTable.rawget_rawset_of_ne _ _ _ _ hne]

/-- C4 (as amended): in a state with a pin table, `pin_string(s)` returns and
sets the count of `s` to 1 when `s` had no record and to `c+1` when its count
was `c`, for every count `c` below the largest value of a C `int`,
`c < 2147483647`; the record of every other string is unchanged. -/
theorem pin_string_increments (L : LuaState) (a : Nat) (o : HObj) (s : String)
    (h : PinTableAt L a o) :
    ∃ L1, pin_string L s = .ok L1
      ∧ (pinRecord L s = some .nil → pinRecord L1 s = some (.num 1))
      ∧ (∀ c : Int, pinCount L s = some c → c < 2147483647 →
          pinRecord L1 s = some (.num (c + 1)) ∧ pinCount L1 s = some (c + 1))
      ∧ (∀ s1, s1 ≠ s → pinRecord L1 s1 = pinRecord L s1) := by
  obtain ⟨L1, o1, h1, h2, -, -, h3, h4⟩ := pin_string_step h s
  refine ⟨L1, h1, fun h0 => ?_, fun c hc hu => ?_, fun s1 hs => ?_⟩
  · rw [pinRecord_eq h] at h0
    rw [pinRecord_eq h2, h3, Option.some.inj h0]
    rfl
  · have hcnt := pinCount_eq h hc
    have hr := toInt32_range ((o.fields.rawget (.str s)).tonumber.getD 0)
    rw [hcnt] at h3 hr
    rw [toInt32_of_range (c + 1) (by omega) (by omega)] at h3
    refine ⟨by rw [pinRecord_eq h2, h3], ?_⟩
    simp only [pinCount, pinRecord_eq h2, h3]
    rw [toInt32_of_range (c + 1) (by omega) (by omega)]
  · rw [pinRecord_eq h, pinRecord_eq h2, h4 s1 hs]

/-- C4, witness: a pin table in which `"x"` has count 5. -/
theorem pin_string_increments_witness :
    ∃ L1, pin_string (pinnedCount 5) "x" = .ok L1 ∧ pinRecord L1 "x" = some (.num 6) := by
  obtain ⟨L1, h1, -, h2, -⟩ := pin_string_increments (pinnedCount 5)
    0 { fields := [(.str "x", .num 5)], meta := .nil } "x" ⟨rfl, rfl⟩
  exact ⟨L1, h1, (h2 5 (by decide) (by decide)).1⟩

/-- C4 as stated fails at the largest count: with count 2147483647 the
increment is done in a C `int` and the stored count is -2147483648, not
2147483648. -/
theorem pin_string_at_int_max :
    pinCount pinnedMax "x" = some 2147483647
    ∧ recordAfter (pin_string pinnedMax "x") "x" = some (.num (-2147483648)) := by
  decide

/-- C5: in a state with a pin table in which `s` has count `c >= 1`,
`unpin_string(s)` returns (in a build with or without `ASSERT`), deletes the
record of `s` when `c = 1` and otherwise sets its count to `c-1`; the record
of every other string is unchanged. -/
theorem unpin_string_decrements (debug : Bool) (L : LuaState) (a : Nat) (o : HObj) (s : String)
    (c : Int) (h : PinTableAt L a o) (hc : pinCount L s = some c) (h1 : 1 ≤ c) :
    ∃ L1, unpin_string debug L s = .ok L1
      ∧ (c = 1 → pinRecord L1 s = some .nil)
      ∧ (c ≠ 1 → pinRecord L1 s = some (.num (c - 1)) ∧ pinCount L1 s = some (c - 1))
      ∧ (∀ s1, s1 ≠ s → pinRecord L1 s1 = pinRecord L s1) := by
  have hcnt := pinCount_eq h hc
  have hr := toInt32_range ((o.fields.rawget (.str s)).tonumber.getD 0)
  have hsome : (o.fields.rawget (.str s)).tonumber.isSome = true := by
    cases hn : (o.fields.rawget (.str s)).tonumber with
    | some x => rfl
    | none =>
      rw [hn] at hcnt
      have : toInt32 0 = 0 := by decide
      simp only [Option.getD_none, this] at hcnt
      omega
  obtain ⟨L1, o1, e1, e2, -, -, e3, e4⟩ := unpin_string_step h s debug (by simp [hsome])
  rw [hcnt] at e3 hr
  refine ⟨L1, e1, fun h0 => ?_, fun h0 => ?_, fun s1 hs => ?_⟩
  · rw [pinRecord_eq e2, e3, if_pos h0]
  · rw [if_neg h0, toInt32_of_range (c - 1) (by omega) (by omega)] at e3
    refine ⟨by rw [pinRecord_eq e2, e3], ?_⟩
    simp only [pinCount, pinRecord_eq e2, e3]
    rw [toInt32_of_range (c - 1) (by omega) (by omega)]
  · rw [pinRecord_eq h, pinRecord_eq e2, e4 s1 hs]

/-- C5, witness: the count 2 of `"x"` becomes 1. -/
theorem unpin_string_decrements_witness :
    ∃ L1, unpin_string true (pinnedCount 2) "x" = .ok L1
      ∧ pinRecord L1 "x" = some (.num 1) := by
  obtain ⟨L1, e1, -, e2, -⟩ := unpin_string_decrements true (pinnedCount 2)
    0 { fields := [(.str "x", .num 2)], meta := .nil } "x" 2 ⟨rfl, rfl⟩ (by decide) (by decide)
  exact ⟨L1, e1, (e2 (by decide)).1⟩

theorem countRecord_tonumber (c : Int) : (countRecord c).tonumber.getD 0 = c := by
  unfold countRecord
  by_cases h : c = 0
  · simp [h, LVal.tonumber]
  · simp [h, LVal.tonumber]

theorem pinTimes_count (s : String) (a : Nat) :
    ∀ (n : Nat) (L : LuaState) (o : HObj) (c : Int), PinTableAt L a o →
      o.fields.rawget (.str s) = countRecord c → 0 ≤ c → c + n ≤ 2147483647 →
      ∃ L1 o1, pinTimes s n L = .ok L1 ∧ PinTableAt L1 a o1
        ∧ o1.fields.rawget (.str s) = countRecord (c + n) := by
  intro n
  induction n with
  | zero =>
    intro L o c h hc _ _
    exact ⟨L, o, rfl, h, by simpa using hc⟩
  | succ n ih =>
    intro L o c h hc h0 hn
    obtain ⟨L1, o1, e1, e2, -, -, e3, -⟩ := pin_string_step h s
    rw [hc, countRecord_tonumber, toInt32_of_range c (by omega) (by omega),
      toInt32_of_range (c + 1) (by omega) (by omega)] at e3
    have e3' : o1.fields.rawget (.str s) = countRecord (c + 1) := by
      rw [e3]; unfold countRecord; rw [if_neg (by omega)]
    obtain ⟨L2, o2, f1, f2, f3⟩ := ih L1 o1 (c + 1) e2 e3' (by omega) (by push_cast at hn; omega)
    refine ⟨L2, o2, ?_, f2, ?_⟩
    · simp only [pinTimes, e1, bind, Except.bind, f1]
    · rw [f3]; congr 1; push_cast; ring

theorem unpinTimes_count (debug : Bool) (s : String) (a : Nat) :
    ∀ (m : Nat) (L : LuaState) (o : HObj) (c : Int), PinTableAt L a o →
      o.fields.rawget (.str s) = countRecord c → (m : Int) ≤ c → c ≤ 2147483647 →
      ∃ L1 o1, unpinTimes debug s m L = .ok L1 ∧ PinTableAt L1 a o1
        ∧ o1.fields.rawget (.str s) = countRecord (c - m) := by
  intro m
  induction m with
  | zero =>
    intro L o c h hc _ _
    exact ⟨L, o, rfl, h, by simpa using hc⟩
  | succ m ih =>
    intro L o c h hc hm hu
    have hpos : 1 ≤ c := by push_cast at hm; omega
    have hrec : o.fields.rawget (.str s) = .num c := by
      rw [hc]; unfold countRecord; rw [if_neg (by omega)]
    obtain ⟨L1, o1, e1, e2, -, -, e3, -⟩ :=
      unpin_string_step h s debug (by simp [hrec, LVal.tonumber])
    rw [hrec] at e3
    simp only [LVal.tonumber, Option.getD_some] at e3
    rw [toInt32_of_range c (by omega) hu] at e3
    have e3' : o1.fields.rawget (.str s) = countRecord (c - 1) := by
      rw [e3]; unfold countRecord
      by_cases h1 : c = 1
      · simp [h1]
      · rw [if_neg h1, if_neg (by omega), toInt32_of_range (c - 1) (by omega) (by omega)]
    obtain ⟨L2, o2, f1, f2, f3⟩ :=
      ih L1 o1 (c - 1) e2 e3' (by push_cast at hm; omega) (by omega)
    refine ⟨L2, o2, ?_, f2, ?_⟩
    · simp only [unpinTimes, e1, bind, Except.bind, f1]
    · rw [f3]; congr 1; push_cast; ring

/-- Any number of pins, in C `int` arithmetic: after `n >= 1` calls the record
is the number `toInt32 (c + n)` for the count `c` read at the start. -/
theorem pinTimes_wraps (s : String) (a : Nat) :
    ∀ (n : Nat) (L : LuaState) (o : HObj), PinTableAt L a o →
      ∃ L1 o1, pinTimes s (n + 1) L = .ok L1 ∧ PinTableAt L1 a o1
        ∧ o1.fields.rawget (.str s)
            = .num (toInt32 ((o.fields.rawget (.str s)).tonumber.getD 0 + (n + 1 : Nat))) := by
  intro n
  induction n with
  | zero =>
    intro L o h
    obtain ⟨L1, o1, e1, e2, -, -, e3, -⟩ := pin_string_step h s
    refine ⟨L1, o1, ?_, e2, ?_⟩
    · simp only [pinTimes, e1, bind, Except.bind]
    · rw [e3, toInt32_add]; simp
  | succ n ih =>
    intro L o h
    obtain ⟨L1, o1, e1, e2, -, -, e3, -⟩ := pin_string_step h s
    obtain ⟨L2, o2, f1, f2, f3⟩ := ih L1 o1 e2
    refine ⟨L2, o2, ?_, f2, ?_⟩
    · rw [pinTimes]
      simp only [e1, bind, Except.bind, f1]
    · rw [f3, e3]
      generalize (o.fields.rawget (.str s)).tonumber.getD 0 = c0
      simp only [LVal.tonumber, Option.getD_some]
      congr 1
      unfold toInt32
      push_cast
      omega

/-- C6 (as amended): from a pin table in which `s` is untracked, for every
`n >= 1` below 2^31 and every `m <= n`, `n` calls of `pin_string(s)` followed
by `m` calls of `unpin_string(s)` all return and leave `s` with count `n-m`
when `m < n` and without a record when `m = n`. -/
theorem pin_unpin_round_trip (debug : Bool) (L : LuaState) (a : Nat) (o : HObj) (s : String)
    (n m : Nat) (h : PinTableAt L a o) (h0 : pinRecord L s = some .nil) (hn : 1 ≤ n)
    (hmax : n ≤ 2147483647) (hm : m ≤ n) :
    ∃ L1 L2, pinTimes s n L = .ok L1 ∧ unpinTimes debug s m L1 = .ok L2
      ∧ (m < n → pinRecord L2 s = some (.num ((n : Int) - m)))
      ∧ (m = n → pinRecord L2 s = some .nil) := by
  rw [pinRecord_eq h] at h0
  obtain ⟨L1, o1, e1, e2, e3⟩ := pinTimes_count s a n L o 0 h
    (by rw [Option.some.inj h0]; rfl) (le_refl 0) (by omega)
  obtain ⟨L2, o2, f1, f2, f3⟩ := unpinTimes_count debug s a m L1 o1 (0 + n) e2 e3
    (by omega) (by omega)
  refine ⟨L1, L2, e1, f1, fun hlt => ?_, fun heq => ?_⟩
  · rw [pinRecord_eq f2, f3]; unfold countRecord
    rw [if_neg (by omega)]; congr 2; ring
  · rw [pinRecord_eq f2, f3]; unfold countRecord
    rw [if_pos (by omega)]

/-- C6, witness: pin, pin, unpin leaves count 1, and one more unpin removes the record. -/
theorem pin_unpin_round_trip_witness :
    (∃ L1 L2, pinTimes "x" 2 pinnedNone = .ok L1 ∧ unpinTimes true "x" 1 L1 = .ok L2
      ∧ pinRecord L2 "x" = some (.num 1))
    ∧ (∃ L1 L2, pinTimes "x" 2 pinnedNone = .ok L1 ∧ unpinTimes true "x" 2 L1 = .ok L2
      ∧ pinRecord L2 "x" = some .nil) := by
  constructor
  · obtain ⟨L1, L2, e1, e2, e3, -⟩ := pin_unpin_round_trip true pinnedNone 0
      { fields := [], meta := .nil } "x" 2 1 ⟨rfl, rfl⟩ rfl (by decide) (by decide) (by decide)
    exact ⟨L1, L2, e1, e2, e3 (by decide)⟩
  · obtain ⟨L1, L2, e1, e2, -, e3⟩ := pin_unpin_round_trip true pinnedNone 0
      { fields := [], meta := .nil } "x" 2 2 ⟨rfl, rfl⟩ rfl (by decide) (by decide) (by decide)
    exact ⟨L1, L2, e1, e2, e3 rfl⟩

/-- C6 as stated fails for `n = 2^31` (and `m = 0`): the count is kept in a C
`int`, and after 2147483648 calls of `pin_string("x")` the stored count is
-2147483648, not 2147483648. -/
theorem pin_two_pow_31_times :
    recordAfter (pinTimes "x" 2147483648 pinnedNone) "x" = some (.num (-2147483648)) := by
  obtain ⟨L1, o1, e1, e2, e3⟩ := pinTimes_wraps "x" 0 2147483647 pinnedNone
    { fields := [], meta := .nil } ⟨rfl, rfl⟩
  have e1' : pinTimes "x" 2147483648 pinnedNone = .ok L1 := e1
  rw [e1']
  simp only [recordAfter]
  rw [pinRecord_eq e2, e3]
  decide
/-- C7 (as amended): for a string `s` without a record in the pin table, a
build with `ASSERT` active stops `unpin_string(s)` at the assertion, so the
call does not return and stores nothing; a build whose `ASSERT` checks
nothing lets the call return with the count -1 stored for `s`. -/
theorem unpin_string_untracked (L : LuaState) (a : Nat) (o : HObj) (s : String)
    (h : PinTableAt L a o) (h0 : pinRecord L s = some .nil) :
    unpin_string true L s = .error .assertion
    ∧ ∃ L1, unpin_string false L s = .ok L1 ∧ pinRecord L1 s = some (.num (-1)) := by
  rw [pinRecord_eq h] at h0
  have hrec := Option.some.inj h0
  constructor
  · rw [unpin_string_eq h s true, hrec]
    rfl
  · obtain ⟨L1, o1, e1, e2, -, -, e3, -⟩ := unpin_string_step h s false (by simp)
    refine ⟨L1, e1, ?_⟩
    rw [pinRecord_eq e2, e3, hrec]
    rfl

/-- C7, witness: the pin table without records. -/
theorem unpin_string_untracked_witness :
    pinRecord pinnedNone "x" = some .nil
    ∧ unpin_string true pinnedNone "x" = .error .assertion :=
  ⟨rfl, (unpin_string_untracked pinnedNone 0 { fields := [], meta := .nil } "x" ⟨rfl, rfl⟩ rfl).1⟩

/-- C7 as stated fails in a build whose `ASSERT` checks nothing: on the pin
table without records `unpin_string("x")` returns and has stored -1 for
`"x"`. -/
theorem unpin_string_untracked_release :
    pinRecord pinnedNone "x" = some .nil
    ∧ (unpin_string false pinnedNone "x").toOption.isSome = true
    ∧ recordAfter (unpin_string false pinnedNone "x") "x" = some (.num (-1)) := by
  decide

/-- The pin table after the string pinning part of `init`: a table without records. -/
theorem init_pinstrs_eq (L : LuaState) :
    ∃ L0, init_pinstrs L = .ok L0
      ∧ PinTableAt L0 L.heap.length { fields := [], meta := .nil } := by
  refine ⟨{ registry := L.registry.rawset (.str "__pinstrs") (.tbl L.heap.length),
             globals := L.globals, heap := L.heap ++ [{ fields := [], meta := .nil }],
             stack := L.stack }, rfl, ?_, ?_⟩
  · simp only [LTable.rawget_rawset_self]
  · simp

/-- What holds in every state counted by `PinReach` after `n < 2^31` calls:
there is a pin table and every record in it is a count between 1 and `n`. -/
theorem PinReach.counts (debug : Bool) (L0 : LuaState) (a : Nat) (o0 : HObj)
    (h0 : PinTableAt L0 a o0) (hempty : ∀ s, o0.fields.rawget (.str s) = .nil) :
    ∀ (n : Nat) (L : LuaState), PinReach debug L0 n L → n ≤ 2147483647 →
      ∃ o, PinTableAt L a o ∧ ∀ s, o.fields.rawget (.str s) = .nil
        ∨ ∃ c : Int, o.fields.rawget (.str s) = .num c ∧ 1 ≤ c ∧ c ≤ n := by
  intro n L hr
  induction hr with
  | start => exact fun _ => ⟨o0, h0, fun s => Or.inl (hempty s)⟩
  | @pin n L L1 s _ hp ih =>
    intro hn
    obtain ⟨o, ho, hall⟩ := ih (by omega)
    obtain ⟨L2, o1, e1, e2, -, -, e3, e4⟩ := pin_string_step ho s
    rw [hp] at e1
    obtain rfl : L1 = L2 := by injection e1
    refine ⟨o1, e2, fun s1 => ?_⟩
    by_cases hs : s1 = s
    · subst hs
      right
      rcases hall s1 with hnil | ⟨c, hc, hc1, hc2⟩
      · refine ⟨1, ?_, le_refl 1, by push_cast; omega⟩
        rw [e3, hnil]; rfl
      · refine ⟨c + 1, ?_, by omega, by push_cast; omega⟩
        rw [e3, hc]
        simp only [LVal.tonumber, Option.getD_some]
        rw [toInt32_of_range c (by omega) (by omega),
          toInt32_of_range (c + 1) (by omega) (by omega)]
    · rw [e4 s1 hs]
      rcases hall s1 with hnil | ⟨c, hc, hc1, hc2⟩
      · exact Or.inl hnil
      · exact Or.inr ⟨c, hc, hc1, by push_cast; omega⟩
  | @unpin n L L1 s _ hcond hu ih =>
    intro hn
    obtain ⟨o, ho, hall⟩ := ih (by omega)
    have hnum : ∃ c : Int, o.fields.rawget (.str s) = .num c ∧ 1 ≤ c ∧ c ≤ n := by
      rcases hall s with hnil | hc
      · exfalso
        rcases hcond with hd | ht
        · subst hd
          rw [unpin_string_eq ho s true, hnil] at hu
          exact absurd hu (by simp [LVal.tonumber])
        · exact ht (by rw [pinRecord_eq ho, hnil])
      · exact hc
    obtain ⟨c, hc, hc1, hc2⟩ := hnum
    obtain ⟨L2, o1, e1, e2, -, -, e3, e4⟩ :=
      unpin_string_step ho s debug (by simp [hc, LVal.tonumber])
    rw [hu] at e1
    obtain rfl : L1 = L2 := by injection e1
    rw [hc] at e3
    simp only [LVal.tonumber, Option.getD_some] at e3
    rw [toInt32_of_range c (by omega) (by omega)] at e3
    refine ⟨o1, e2, fun s1 => ?_⟩
    by_cases hs : s1 = s
    · subst hs
      by_cases h1 : c = 1
      · left; rw [e3, if_pos h1]
      · right
        refine ⟨c - 1, ?_, by omega, by push_cast; omega⟩
        rw [e3, if_neg h1, toInt32_of_range (c - 1) (by omega) (by omega)]
    · rw [e4 s1 hs]
      rcases hall s1 with hnil | ⟨c2, hc2a, hc2b, hc2c⟩
      · exact Or.inl hnil
      · exact Or.inr ⟨c2, hc2a, hc2b, by push_cast; omega⟩

/-- C8 (as amended): start from the empty pin table that `init` creates.  In
every state reached by fewer than 2^31 calls of `pin_string` and
`unpin_string` that returned, every stored count is a positive integer, in a
build with `ASSERT` active for any such calls, and in a build whose `ASSERT`
checks nothing when every `unpin_string` was applied to a string that had a
record (which is what `PinReach` counts). -/
theorem pin_counts_positive (debug : Bool) (L L0 L1 : LuaState) (n : Nat)
    (hinit : init_pinstrs L = .ok L0) (hreach : PinReach debug L0 n L1)
    (hn : n < 2147483648) (s : String) :
    pinRecord L1 s = some .nil ∨ ∃ c : Int, pinRecord L1 s = some (.num c) ∧ 1 ≤ c := by
  obtain ⟨L0', e1, e2⟩ := init_pinstrs_eq L
  rw [hinit] at e1
  obtain rfl : L0 = L0' := by injection e1
  obtain ⟨o, ho, hall⟩ := PinReach.counts debug L0 _ _ e2 (fun _ => rfl) n L1 hreach (by omega)
  rw [pinRecord_eq ho]
  rcases hall s with hnil | ⟨c, hc, hc1, -⟩
  · exact Or.inl (by rw [hnil])
  · exact Or.inr ⟨c, by rw [hc], hc1⟩

/-- C8, witness: after `init` on a new state, `"x"` is pinned twice and
unpinned once. -/
theorem pin_counts_positive_witness :
    pinRecord (pinnedCount 1) "x" = some .nil
    ∨ ∃ c : Int, pinRecord (pinnedCount 1) "x" = some (.num c) ∧ 1 ≤ c :=
  pin_counts_positive true luaL_newstate pinnedNone (pinnedCount 1) 3 rfl
    (@PinReach.unpin true pinnedNone 2 (pinnedCount 2) (pinnedCount 1) "x"
      (@PinReach.pin true pinnedNone 1 (pinnedCount 1) (pinnedCount 2) "x"
        (@PinReach.pin true pinnedNone 0 pinnedNone (pinnedCount 1) "x" PinReach.start rfl)
        rfl)
      (Or.inl rfl) rfl)
    (by decide) "x"

/-- C8 as stated fails.  The table `init` creates on a new state is
`pinnedNone`.  In a build whose `ASSERT` checks nothing, one
`unpin_string("x")` on it stores the count -1; and in any build 2^31 calls of
`pin_string("x")` leave the count -2147483648. -/
theorem pin_count_negative :
    init_pinstrs luaL_newstate = .ok pinnedNone
    ∧ recordAfter (runPinOps false [PinOp.unpin "x"] pinnedNone) "x" = some (.num (-1))
    ∧ recordAfter (pinTimes "x" 2147483648 pinnedNone) "x" = some (.num (-2147483648)) := by
  refine ⟨rfl, by decide, ?_⟩
  obtain ⟨L1, o1, e1, e2, e3⟩ := pinTimes_wraps "x" 0 2147483647 pinnedNone
    { fields := [], meta := .nil } ⟨rfl, rfl⟩
  have e1' : pinTimes "x" 2147483648 pinnedNone = .ok L1 := e1
  rw [e1']
  simp only [recordAfter]
  rw [pinRecord_eq e2, e3]
  decide
/-! ## Native function registry -/

/-- C9 (as amended): before sealing, registering two names with `reg_fun`
succeeds whether they are distinct or equal: `reg_fun` has no check for a name
that is already present, it returns true and appends one more entry. -/
theorem reg_fun_always_registers (funs : Option cfuns) (a b : String) (fa fb : Nat) :
    (reg_fun funs a fa).2 = true
    ∧ (reg_fun (reg_fun funs a fa).1 b fb).2 = true
    ∧ (reg_fun (reg_fun funs a fa).1 b fb).1
        = some (funs.getD [] ++ [{ name := a, fn := fa }, { name := b, fn := fb }]) := by
  cases funs <;> simp [reg_fun]

/-- C9 as stated fails: registering the name `"a"` a second time returns true
and leaves two entries for `"a"`. -/
theorem reg_fun_duplicate_accepted :
    reg_fun (reg_fun none "a" 1).1 "a" 2
      = (some [{ name := "a", fn := 1 }, { name := "a", fn := 2 }], true) := by
  decide

theorem setup_binds_funs (server win32 : Bool) (ld : Loader) (mod_dir : String)
    (externals : hashtable) (funs : Option cfuns) (L : LuaState)
    (r : hashtable × Option cfuns × LuaState)
    (h : setup_binds server win32 ld mod_dir externals funs L = .ok r) : r.2.1 = none := by
  unfold setup_binds at h
  simp only [bind, Except.bind, pure, Except.pure] at h
  repeat' split at h
  all_goals first
    | (injection h with h; subst h; rfl)
    | exact absurd h (by simp)

/-- C10 (as amended): after `setup_binds` has sealed the namespace object the
static `funs` is NULL, and every call of `reg_fun`, for any name, returns
true: it starts a new list that holds just this entry.  There is no check
for a sealed namespace. -/
theorem reg_fun_after_setup_binds (server win32 : Bool) (ld : Loader) (mod_dir : String)
    (externals : hashtable) (funs funs1 : Option cfuns) (L : LuaState)
    (h : funsAfter (setup_binds server win32 ld mod_dir externals funs L) = some funs1)
    (name : String) (fn : Nat) :
    funs1 = none ∧ reg_fun funs1 name fn = (some [{ name := name, fn := fn }], true) := by
  have h1 : funs1 = none := by
    cases hr : setup_binds server win32 ld mod_dir externals funs L with
    | error e => rw [hr] at h; exact absurd h (by simp [funsAfter])
    | ok r =>
      have h2 := setup_binds_funs server win32 ld mod_dir externals funs L r hr
      rw [hr] at h
      obtain ⟨e1, f1, L1⟩ := r
      simp only [funsAfter, Option.some.injEq] at h
      rw [← h]
      exact h2
  subst h1
  exact ⟨rfl, rfl⟩

/-- C10, witness: `setup_binds` on an opened state with one registered function. -/
theorem reg_fun_after_setup_binds_witness :
    funsAfter (setup_binds false false quietLoader "media/lua" (fun _ => none)
        (some [{ name := "a", fn := 1 }]) openedState) = some none
    ∧ reg_fun none "b" 2 = (some [{ name := "b", fn := 2 }], true) :=
  ⟨rfl, (reg_fun_after_setup_binds false false quietLoader "media/lua" (fun _ => none)
      (some [{ name := "a", fn := 1 }]) none openedState rfl "b" 2).2⟩

/-- C10 as stated fails: after `setup_binds` has returned, `reg_fun("b", ...)`
reports success. -/
theorem reg_fun_after_seal_succeeds :
    (funsAfter (setup_binds false false quietLoader "media/lua" (fun _ => none)
        (some [{ name := "a", fn := 1 }]) openedState)).map (fun funs => (reg_fun funs "b" 2).2)
      = some true := by
  decide

/-! ## Namespace object -/

theorem setup_binds_eq_publish (server win32 : Bool) (ld : Loader) (mod_dir : String)
    (externals : hashtable) (funs : Option cfuns) (L : LuaState) :
    setup_binds server win32 ld mod_dir externals funs L
      = (publish server funs L).bind (fun Lp =>
          (load_module win32 ld mod_dir externals Lp "init").map
            (fun p => (p.1, (none : Option cfuns), p.2))) := by
  unfold setup_binds publish
  simp only [bind, Except.bind, pure, Except.pure]
  repeat' split
  all_goals first
    | rfl
    | assumption
    | simp_all [Except.map, Except.bind]
    | (rename_i h; cases h; rfl)
theorem heap_lt_of_getElem? {H : List HObj} {a : Nat} {o : HObj} (h : H[a]? = some o) :
    a < H.length := by
  by_contra hlt
  rw [List.getElem?_eq_none (Nat.le_of_not_lt hlt)] at h
  exact absurd h (by simp)

theorem heap_set_self {H : List HObj} {a : Nat} {o : HObj} (h : H[a]? = some o) :
    H.set a o = H := by
  apply List.ext_getElem?
  intro j
  rw [List.getElem?_set]
  by_cases hj : a = j
  · subst hj; simp [h, heap_lt_of_getElem? h]
  · simp [hj]

/-- The loop of `setup_binds` only writes fields of the table on top of the stack. -/
theorem setup_binds_loop_eq (fs : cfuns) :
    ∀ (L : LuaState) (t : Nat) (o : HObj) (rest : List LVal),
      L.stack = .tbl t :: rest → L.heap[t]? = some o →
      setup_binds_loop fs L
        = .ok (setHeapCell L t (HObj.mk (dispatchTable fs o.fields) o.meta)) := by
  induction fs with
  | nil =>
    intro L t o rest _ ho
    rw [dispatchTable, List.foldl_nil, setHeapCell, heap_set_self ho]
    rfl
  | cons r rs ih =>
    intro L t o rest hs ho
    have hlt := heap_lt_of_getElem? ho
    have step : lua_setfield (lua_pushcfunction L r.fn) (-2) r.name
        = .ok (setHeapCell L t (HObj.mk (o.fields.rawset (.str r.name) (.cfun r.fn)) o.meta)) := by
      simp [lua_setfield, lua_pushcfunction, tableAt, index2adr_neg2, hs, LUA_REGISTRYINDEX,
        LUA_GLOBALSINDEX, hlt, bind, Except.bind, pure, Except.pure, setFields, getFields, ho,
        setHeapCell]
    have hF := ih
      (setHeapCell L t (HObj.mk (o.fields.rawset (.str r.name) (.cfun r.fn)) o.meta)) t
      (HObj.mk (o.fields.rawset (.str r.name) (.cfun r.fn)) o.meta) rest hs
      (by simp [setHeapCell, List.getElem?_set, hlt])
    simp only [setup_binds_loop, bind, Except.bind, step, hF]
    simp [setHeapCell, dispatchTable]
theorem lua_setglobal_mk (R G : LTable) (H : List HObj) (v : LVal) (rest : List LVal)
    (k : String) :
    lua_setglobal (LuaState.mk R G H (v :: rest)) k
      = .ok (LuaState.mk R (G.rawset (.str k) v) H rest) := rfl

theorem lua_setfield_neg2_mk (R G : LTable) (H : List HObj) (v : LVal) (a : Nat)
    (rest : List LVal) (o : HObj) (k : String) (ho : H[a]? = some o) :
    lua_setfield (LuaState.mk R G H (v :: .tbl a :: rest)) (-2) k
      = .ok (LuaState.mk R G (H.set a (HObj.mk (o.fields.rawset (.str k) v) o.meta))
          (.tbl a :: rest)) := by
  simp [lua_setfield, tableAt, index2adr_neg2, LUA_REGISTRYINDEX, LUA_GLOBALSINDEX,
    heap_lt_of_getElem? ho, bind, Except.bind, pure, Except.pure, setFields, getFields, ho]

theorem lua_setmetatable_neg2_mk (R G : LTable) (H : List HObj) (m : LVal) (u : Nat)
    (rest : List LVal) (o : HObj) (ho : H[u]? = some o) :
    lua_setmetatable (LuaState.mk R G H (m :: .udata u :: rest)) (-2)
      = .ok (LuaState.mk R G (H.set u (HObj.mk o.fields m)) (.udata u :: rest)) := by
  simp [lua_setmetatable, index2adr_neg2, ho]

theorem lua_getfield_registry_mk (R G : LTable) (H : List HObj) (S : List LVal) (k : String) :
    lua_getfield (LuaState.mk R G H S) LUA_REGISTRYINDEX k
      = .ok (LuaState.mk R G H (R.rawget (.str k) :: S)) := rfl

theorem heap_append3 (H : List HObj) (c0 c1 c2 : HObj) :
    (H ++ [c0, c1, c2])[H.length]? = some c0
    ∧ (H ++ [c0, c1, c2])[H.length + 1]? = some c1
    ∧ (H ++ [c0, c1, c2])[H.length + 2]? = some c2 := by
  refine ⟨?_, ?_, ?_⟩
  · rw [List.getElem?_append_right (le_refl _)]; simp
  · rw [List.getElem?_append_right (by omega)]; simp
  · rw [List.getElem?_append_right (by omega)]; simp

/-- The state `setup_binds` publishes (before it loads the bootstrap module),
when the registry holds the table `_LOADED` of the heap: the namespace object
is sealed. -/
theorem publish_sealed (server : Bool) (fs : cfuns) (L Lp : LuaState) (l : Nat)
    (hl : L.registry.rawget (.str "_LOADED") = .tbl l) (hlt : l < L.heap.length)
    (h : publish server (some fs) L = .ok Lp) :
    Sealed Lp L.heap.length (L.heap.length + 1) (L.heap.length + 2)
    ∧ Lp.heap[L.heap.length + 2]? = some (HObj.mk (dispatchTable fs []) .nil) := by
  obtain ⟨R, G, H, S⟩ := L
  simp only at hl hlt ⊢
  unfold publish at h
  simp only [bind, Except.bind, lua_pushboolean, lua_setglobal_mk] at h
  have e3 : lua_createtable (lua_createtable (lua_newuserdata
      (LuaState.mk R (G.rawset (.str "SERVER") (.bool server)) H S) 0) 0 2) fs.length 0
      = LuaState.mk R (G.rawset (.str "SERVER") (.bool server))
          (H ++ [HObj.mk [] .nil, HObj.mk [] .nil, HObj.mk [] .nil])
          (.tbl (H.length + 2) :: .tbl (H.length + 1) :: .udata H.length :: S) := by
    simp [lua_createtable, lua_newuserdata]
  rw [e3] at h
  obtain ⟨c0, c1, c2⟩ := heap_append3 H (HObj.mk [] .nil) (HObj.mk [] .nil) (HObj.mk [] .nil)
  generalize hH3 : H ++ [HObj.mk [] .nil, HObj.mk [] .nil, HObj.mk [] .nil] = H3 at h c0 c1 c2
  have len3 : H3.length = H.length + 3 := by rw [← hH3]; simp
  have hl3 : ∃ ol, H3[l]? = some ol := by
    rw [← hH3, List.getElem?_append_left hlt]
    exact ⟨H[l], List.getElem?_eq_getElem hlt⟩
  obtain ⟨ol, hol⟩ := hl3
  have hF := setup_binds_loop_eq fs
    (LuaState.mk R (G.rawset (.str "SERVER") (.bool server)) H3
      (.tbl (H.length + 2) :: .tbl (H.length + 1) :: .udata H.length :: S))
    (H.length + 2) (HObj.mk [] .nil) _ rfl c2
  rw [hF] at h
  generalize dispatchTable fs (HObj.mk [] .nil).fields = F at h
  simp only [setHeapCell] at h
  -- __index
  have g1 : (H3.set (H.length + 2) (HObj.mk F .nil))[H.length + 1]? = some (HObj.mk [] .nil) := by
    rw [List.getElem?_set_ne (by omega)]; exact c1
  rw [lua_setfield_neg2_mk _ _ _ _ _ _ _ _ g1] at h
  simp only [lua_pushinteger, lua_pushcclosure1] at h
  -- __tostring
  generalize hH5 : (H3.set (H.length + 2) (HObj.mk F .nil)).set (H.length + 1)
    (HObj.mk ((HObj.mk [] .nil).fields.rawset (.str "__index") (.tbl (H.length + 2)))
      (HObj.mk [] .nil).meta) = H5 at h
  have len5 : H5.length = H.length + 3 := by rw [← hH5]; simp [len3]
  have g2 : (H5 ++ [HObj.mk [(.num 1, .num fs.length)] .nil])[H.length + 1]?
      = some (HObj.mk (LTable.rawset [] (.str "__index") (.tbl (H.length + 2))) .nil) := by
    rw [List.getElem?_append_left (by omega), ← hH5, List.getElem?_set_self (by simp [len3])]
  rw [lua_setfield_neg2_mk _ _ _ _ _ _ _ _ g2] at h
  simp only at h
  -- __metatable
  generalize hH7 : (H5 ++ [HObj.mk [(.num 1, .num fs.length)] .nil]).set (H.length + 1)
    (HObj.mk ((LTable.rawset [] (.str "__index") (.tbl (H.length + 2))).rawset
      (.str "__tostring") (.cclosure capi_tostring H5.length)) .nil) = H7 at h
  have len7 : H7.length = H.length + 4 := by rw [← hH7]; simp [len5]
  have g3 : H7[H.length + 1]?
      = some (HObj.mk ((LTable.rawset [] (.str "__index") (.tbl (H.length + 2))).rawset
          (.str "__tostring") (.cclosure capi_tostring H5.length)) .nil) := by
    rw [← hH7, List.getElem?_set_self (by simp [len5])]
  rw [lua_setfield_neg2_mk _ _ _ _ _ _ _ _ g3] at h
  simp only at h
  -- the metatable of the userdata
  generalize hM : ((LTable.rawset [] (.str "__index") (.tbl (H.length + 2))).rawset
      (.str "__tostring") (.cclosure capi_tostring H5.length)).rawset
      (.str "__metatable") (.bool false) = M at h
  have g4 : (H7.set (H.length + 1) (HObj.mk M .nil))[H.length]? = some (HObj.mk [] .nil) := by
    rw [List.getElem?_set_ne (by omega), ← hH7, List.getElem?_set_ne (by omega),
      List.getElem?_append_left (by omega), ← hH5, List.getElem?_set_ne (by omega),
      List.getElem?_set_ne (by omega)]
    exact c0
  rw [lua_setmetatable_neg2_mk _ _ _ _ _ _ _ g4] at h
  simp only [lua_getfield_registry_mk, hl, lua_pushvalue,
    index2adr_neg2, List.getElem?_cons_succ, List.getElem?_cons_zero] at h
  -- the entry in `_LOADED`
  generalize hH9 : (H7.set (H.length + 1) (HObj.mk M .nil)).set H.length
    (HObj.mk (HObj.mk [] .nil).fields (.tbl (H.length + 1))) = H9 at h
  have g5 : ∃ ol9, H9[l]? = some ol9 := by
    refine ⟨ol, ?_⟩
    rw [← hH9, List.getElem?_set_ne (by omega), List.getElem?_set_ne (by omega), ← hH7,
      List.getElem?_set_ne (by omega), List.getElem?_append_left (by omega), ← hH5,
      List.getElem?_set_ne (by omega), List.getElem?_set_ne (by omega)]
    exact hol
  obtain ⟨ol9, hol9⟩ := g5
  rw [lua_setfield_neg2_mk _ _ _ _ _ _ _ _ hol9] at h
  have hpop : 1 ≤ S.length + 1 + 1 := by omega
  simp only [lua_pop, List.length_cons, List.drop_succ_cons, List.drop_zero, hpop, if_true,
    lua_setglobal_mk, Except.ok.injEq] at h
  subst h
  have k9n : H9[H.length]? = some (HObj.mk [] (.tbl (H.length + 1))) := by
    rw [← hH9, List.getElem?_set_self (by simp [len7])]
  have k9m : H9[H.length + 1]? = some (HObj.mk M .nil) := by
    rw [← hH9, List.getElem?_set_ne (by omega), List.getElem?_set_self (by simp [len7])]
  have k9t : H9[H.length + 2]? = some (HObj.mk F .nil) := by
    rw [← hH9, List.getElem?_set_ne (by omega), List.getElem?_set_ne (by omega), ← hH7,
      List.getElem?_set_ne (by omega), List.getElem?_append_left (by omega), ← hH5,
      List.getElem?_set_ne (by omega), List.getElem?_set_self (by simp [len3])]
  refine ⟨⟨?_, ?_, ⟨HObj.mk M .nil, ?_, ?_, ?_, ?_⟩, ⟨HObj.mk F .nil, ?_, rfl⟩⟩, ?_⟩
  · simp only [namespaceObject, LTable.rawget_rawset_self]
  · simp only [metatableOf, List.getElem?_set_ne (Nat.ne_of_lt hlt), k9n]
  · simp only [List.getElem?_set_ne (show l ≠ H.length + 1 by omega), k9m]
  · rw [← hM, LTable.rawget_rawset_of_ne _ _ _ _ (by decide),
      LTable.rawget_rawset_of_ne _ _ _ _ (by decide), LTable.rawget_rawset_self]
  · rw [← hM, LTable.rawget_rawset_self]
  · rw [← hM, LTable.rawget_rawset_of_ne _ _ _ _ (by decide),
      LTable.rawget_rawset_of_ne _ _ _ _ (by decide),
      LTable.rawget_rawset_of_ne _ _ _ _ (by decide)]
    rfl
  · simp only [List.getElem?_set_ne (show l ≠ H.length + 2 by omega), k9t]
  · simp only [List.getElem?_set_ne (show l ≠ H.length + 2 by omega), k9t]
theorem resolve_of_sealed {L : LuaState} {u m t : Nat} (hs : Sealed L u m t) (ot : HObj)
    (hot : L.heap[t]? = some ot) (name : String) :
    resolve L name = .ok (ot.fields.rawget (.str name)) := by
  obtain ⟨h1, h2, ⟨om, hom, hidx, -, -⟩, ⟨ot1, hot1, hmeta⟩⟩ := hs
  rw [hot] at hot1
  obtain rfl : ot = ot1 := by injection hot1
  have hmf : metafield L (.udata u) "__index" = .tbl t := by
    simp only [metafield, h2, hom, hidx]
  have hmt : metafield L (.tbl t) "__index" = .nil := by
    simp only [metafield, metatableOf, hot, hmeta]
  unfold resolve
  rw [h1]
  simp only [MAXTAGLOOP, luaV_gettable, hmf, hot, hmt]
  by_cases hv : ot.fields.rawget (.str name) = .nil
  · simp [hv]
  · simp [hv]

/-- Every attempt on a sealed namespace object is turned down and leaves the
state as it is: the assignment and `setmetatable` raise an error, and
`getmetatable` yields `false`. -/
theorem attempt_of_sealed {L : LuaState} {u m t : Nat} (hs : Sealed L u m t) (a : Attempt) :
    afterAttempt L (attempt L a) = L
    ∧ (a = .getmetatable → attempt L a = .ok (L, .bool false))
    ∧ (a ≠ .getmetatable → ∃ e, attempt L a = .error (.luaError e)) := by
  obtain ⟨h1, h2, ⟨om, hom, -, hprot, hnew⟩, -⟩ := hs
  have hmn : metafield L (.udata u) "__newindex" = .nil := by
    simp only [metafield, h2, hom, hnew]
  have hmp : metafield L (.udata u) "__metatable" = .bool false := by
    simp only [metafield, h2, hom, hprot]
  cases a with
  | assign k v =>
    have e : attempt L (.assign k v)
        = .error (.luaError "attempt to index a value that is not a table") := by
      simp only [attempt, h1, MAXTAGLOOP, luaV_gettable, luaV_settable, hmn, Except.map]
    exact ⟨by rw [e]; rfl, fun h => (by cases h), fun _ => ⟨_, e⟩⟩
  | getmetatable =>
    have e : attempt L .getmetatable = .ok (L, .bool false) := by
      simp only [attempt, h1, luaB_getmetatable, h2, hmp]
    exact ⟨by rw [e]; rfl, fun _ => e, fun h => absurd rfl h⟩
  | setmetatable x =>
    have e : attempt L (.setmetatable x)
        = .error (.luaError "bad argument #1 to setmetatable (table expected)") := by
      simp only [attempt, h1, luaB_setmetatable]
    exact ⟨by rw [e]; rfl, fun h => (by cases h), fun _ => ⟨_, e⟩⟩

theorem runAttempts_of_sealed {u m t : Nat} (as : List Attempt) :
    ∀ L : LuaState, Sealed L u m t → runAttempts as L = L := by
  induction as with
  | nil => intro L _; rfl
  | cons a as ih =>
    intro L hs
    rw [runAttempts, (attempt_of_sealed hs a).1]
    exact ih L hs

/-- C11 (as amended): after `setup_binds` has published `_C` (on a state whose
registry holds the table `_LOADED`), `_C.name` is what the last registration
of `name` stored, and this is unchanged by any later `reg_fun` call and by any
sequence of script-side assignments to a field of `_C` and of calls of
`getmetatable(_C)` and `setmetatable(_C, m)`: the assignment and
`setmetatable` raise an error, `getmetatable` yields `false`. -/
theorem namespace_object_sealed (server : Bool) (fs : cfuns) (L Lp : LuaState) (l : Nat)
    (hl : L.registry.rawget (.str "_LOADED") = .tbl l) (hlt : l < L.heap.length)
    (h : publish server (some fs) L = .ok Lp)
    (g : LuaStatics) (hg : g.L = some Lp) (name regname : String) (fn : Nat)
    (as : List Attempt) :
    resolve Lp name = .ok ((dispatchTable fs []).rawget (.str name))
    ∧ (g.reg_fun regname fn).L = some Lp
    ∧ resolve (runAttempts as Lp) name = resolve Lp name
    ∧ (∀ a, afterAttempt Lp (attempt Lp a) = Lp
        ∧ (a = .getmetatable → attempt Lp a = .ok (Lp, .bool false))
        ∧ (a ≠ .getmetatable → ∃ e, attempt Lp a = .error (.luaError e))) := by
  obtain ⟨hs, ht⟩ := publish_sealed server fs L Lp l hl hlt h
  refine ⟨?_, hg, ?_, fun a => attempt_of_sealed hs a⟩
  · exact resolve_of_sealed hs _ ht name
  · rw [runAttempts_of_sealed as Lp hs]

/-- C11, witness: the state published after `luaL_openlibs` with `"a"`
registered; an assignment, `getmetatable` and `setmetatable` follow. -/
theorem namespace_object_sealed_witness :
    ∃ Lp, publishedExample = .ok Lp
      ∧ resolve Lp "a" = .ok (.cfun 1)
      ∧ resolve (runAttempts [.assign (.str "a") (.cfun 9), .getmetatable, .setmetatable .nil]
          Lp) "a" = .ok (.cfun 1) := by
  obtain ⟨Lp, hp⟩ : ∃ Lp, publishedExample = .ok Lp := ⟨_, rfl⟩
  obtain ⟨h1, -, h3, -⟩ := namespace_object_sealed false [{ name := "a", fn := 1 }]
    openedState Lp 0 rfl (by decide) hp { LuaStatics.start with L := some Lp } rfl "a" "b" 2
    [.assign (.str "a") (.cfun 9), .getmetatable, .setmetatable .nil]
  exact ⟨Lp, hp, h1, h3.trans h1⟩

/-- C11 as stated fails for the debug library, which `luaL_openlibs` loads as
well.  In the published state `_C.a` is the registered function 1;
after `debug.getmetatable(_C).__index.a = f` for another function `f` it is
`f`, and after `debug.setmetatable(_C, nil)` the expression `_C.a` raises an
error. -/
theorem namespace_object_debug_library :
    publishedExample.toOption.map (fun Lp => valueOf (resolve Lp "a")) = some (some (.cfun 1))
    ∧ (publishedExample.bind (fun Lp => debugRebind Lp "a" (.cfun 9))).toOption.map
        (fun L1 => valueOf (resolve L1 "a")) = some (some (.cfun 9))
    ∧ publishedExample.toOption.map
        (fun Lp => valueOf (resolve (afterAttempt Lp
          (db_setmetatable Lp (namespaceObject Lp) .nil)) "a")) = some none := by
  decide

/-! ## Creation of the runtime -/

theorem init_of_created (server win32 : Bool) (homedir defaultPath : String) (ld : Loader)
    (g : LuaStatics) (dir : String) (h : g.L.isSome = true) :
    init server win32 homedir defaultPath ld g dir = .ok g := by
  unfold init
  cases hL : g.L with
  | none => rw [hL] at h; exact absurd h (by simp)
  | some L => rfl

theorem init_creates (server win32 : Bool) (homedir defaultPath : String) (ld : Loader)
    (g g1 : LuaStatics) (dir : String)
    (h : init server win32 homedir defaultPath ld g dir = .ok g1) : g1.L.isSome = true := by
  unfold init at h
  cases hL : g.L with
  | some L =>
    rw [hL] at h
    simp only [Except.ok.injEq] at h
    rw [← h, hL]; rfl
  | none =>
    rw [hL] at h
    simp only [bind, Except.bind, pure, Except.pure] at h
    repeat' split at h
    all_goals first
      | (injection h with h; rw [← h]; rfl)
      | cases h

theorem lapi_init_of_initialized (client win32 : Bool) (cfgVersion : Int) (base : cfuns)
    (homedir defaultPath : String) (ld : Loader) (externals : hashtable) (g : LapiStatics)
    (dir : String) (h : g.initialized = true) :
    lapi.init client win32 cfgVersion base homedir defaultPath ld externals g dir
      = .ok (externals, g) := by
  unfold lapi.init
  rw [if_pos h]

theorem lapi_init_sets_flag (client win32 : Bool) (cfgVersion : Int) (base : cfuns)
    (homedir defaultPath : String) (ld : Loader) (externals e1 : hashtable) (g g1 : LapiStatics)
    (dir : String)
    (h : lapi.init client win32 cfgVersion base homedir defaultPath ld externals g dir
      = .ok (e1, g1)) : g1.initialized = true := by
  unfold lapi.init at h
  by_cases hi : g.initialized = true
  · rw [if_pos hi] at h
    simp only [Except.ok.injEq, Prod.mk.injEq] at h
    rw [← h.2, hi]
  · rw [if_neg hi] at h
    simp only [bind, Except.bind, pure, Except.pure] at h
    generalize MODOPEN defaultPath "bit" _ = L0 at h
    repeat' split at h
    all_goals first
      | (injection h with h; injection h with h1 h2; rw [← h2])
      | cases h

/-- C12: `init` is idempotent, for `lua::init` and for `lapi::init`.  When the
runtime has been created (the state pointer of `lua` is set, the flag
`initialized` of `lapi` is true), as it is after a first call that returned,
another call, with any directory argument and in any surroundings, returns at
once and leaves all the statics, and so the Lua state with its search path
and registries, the module directory and the broker, as they were. -/
theorem init_idempotent (server win32 client : Bool) (homedir defaultPath : String)
    (cfgVersion : Int) (base : cfuns) (ld ld2 : Loader) (dir dir2 homedir2 defaultPath2 : String) :
    (∀ g g1 : LuaStatics,
      init server win32 homedir defaultPath ld g dir = .ok g1 →
      init server win32 homedir2 defaultPath2 ld2 g1 dir2 = .ok g1)
    ∧ (∀ (e e1 e2 : hashtable) (g g1 : LapiStatics),
      lapi.init client win32 cfgVersion base homedir defaultPath ld e g dir = .ok (e1, g1) →
      lapi.init client win32 cfgVersion base homedir2 defaultPath2 ld2 e2 g1 dir2
        = .ok (e2, g1)) := by
  constructor
  · intro g g1 h
    exact init_of_created _ _ _ _ _ _ _ (init_creates _ _ _ _ _ _ _ _ h)
  · intro e e1 e2 g g1 h
    exact lapi_init_of_initialized _ _ _ _ _ _ _ _ _ _
      (lapi_init_sets_flag _ _ _ _ _ _ _ _ _ _ _ _ h)

/-- C12, witness: a first `init` on the statics with which the process starts
and one registered function, then a second one with another directory. -/
theorem init_idempotent_witness :
    ∃ g1, init false false "/home/u/" "./?.lua" quietLoader
        { LuaStatics.start with funs := some [{ name := "a", fn := 1 }] } "media/lua" = .ok g1
      ∧ init false false "/home/u/" "./?.lua" quietLoader g1 "elsewhere" = .ok g1 := by
  obtain ⟨g1, h1⟩ : ∃ g1, init false false "/home/u/" "./?.lua" quietLoader
      { LuaStatics.start with funs := some [{ name := "a", fn := 1 }] } "media/lua" = .ok g1 :=
    ⟨_, rfl⟩
  exact ⟨g1, h1, (init_idempotent false false false "/home/u/" "./?.lua" 0 [] quietLoader
    quietLoader "media/lua" "elsewhere" "/home/u/" "./?.lua").1 _ g1 h1⟩

/-! ## Library search path -/

theorem occursIn_iff (needle : List Char) (s : List Char) :
    occursIn needle s = true ↔ needle <:+: s := by
  induction s with
  | nil =>
    simp only [occursIn, List.infix_nil, List.isEmpty_iff]
  | cons c cs ih =>
    simp only [occursIn, Bool.or_eq_true, List.isPrefixOf_iff_prefix, ih, List.infix_cons_iff]

/-- C13: for a library name that is null or contains the parent-directory
token `".."`, `load_library` returns false and leaves the Lua state, and with
it `package.path`, unchanged. -/
theorem load_library_rejects (win32 : Bool) (homedir : String) (find : StrFind) (L : LuaState)
    (name : Option String)
    (h : name = none ∨ ∃ n, name = some n ∧ "..".data <:+: n.data) :
    lapi.load_library win32 homedir find L name = .ok (L, false)
    ∧ ∀ L1 b, lapi.load_library win32 homedir find L name = .ok (L1, b) →
        b = false ∧ packagePath L1 = packagePath L := by
  have key : lapi.load_library win32 homedir find L name = .ok (L, false) := by
    rcases h with h | ⟨n, hn, hdots⟩
    · subst h; rfl
    · subst hn
      have : strstr n ".." = true := (occursIn_iff _ _).2 hdots
      simp only [lapi.load_library, this, if_true]
  refine ⟨key, fun L1 b h1 => ?_⟩
  rw [key] at h1
  injection h1 with h1
  injection h1 with h2 h3
  subst h2 h3
  exact ⟨rfl, rfl⟩

/-- C13, witness: the names null and `"a/../b"`. -/
theorem load_library_rejects_witness :
    lapi.load_library false "/home/u/" (fun _ _ => .ok none) openedState none
        = .ok (openedState, false)
    ∧ lapi.load_library false "/home/u/" (fun _ _ => .ok none) openedState (some "a/../b")
        = .ok (openedState, false) :=
  ⟨(load_library_rejects false "/home/u/" (fun _ _ => .ok none) openedState none
      (Or.inl rfl)).1,
   (load_library_rejects false "/home/u/" (fun _ _ => .ok none) openedState (some "a/../b")
      (Or.inr ⟨"a/../b", rfl, ⟨"a/".data, "/b".data, by decide⟩⟩)).1⟩

/-! ## Library templates -/

theorem concatStrings_three (p h r : String) :
    concatStrings [.str r, .str h, .str p] = some (p ++ h ++ r) := by
  simp only [concatStrings, Option.map_some']
  congr 1

theorem lua_getglobal_mk (R G : LTable) (H : List HObj) (S : List LVal) (k : String) :
    lua_getglobal (LuaState.mk R G H S) k
      = .ok (LuaState.mk R G H (G.rawget (.str k) :: S)) := rfl

theorem lua_getfield_neg1_mk (R G : LTable) (H : List HObj) (a : Nat) (rest : List LVal)
    (o : HObj) (k : String) (ho : H[a]? = some o) :
    lua_getfield (LuaState.mk R G H (.tbl a :: rest)) (-1) k
      = .ok (LuaState.mk R G H (o.fields.rawget (.str k) :: .tbl a :: rest)) := by
  simp [lua_getfield, tableAt, index2adr_neg1, LUA_REGISTRYINDEX, LUA_GLOBALSINDEX,
    heap_lt_of_getElem? ho, bind, Except.bind, pure, Except.pure, getFields, ho]

theorem lua_getfield_neg3_mk (R G : LTable) (H : List HObj) (a : Nat) (x y : LVal)
    (rest : List LVal) (o : HObj) (k : String) (ho : H[a]? = some o) :
    lua_getfield (LuaState.mk R G H (x :: y :: .tbl a :: rest)) (-3) k
      = .ok (LuaState.mk R G H (o.fields.rawget (.str k) :: x :: y :: .tbl a :: rest)) := by
  simp [lua_getfield, tableAt, index2adr_neg3, LUA_REGISTRYINDEX, LUA_GLOBALSINDEX,
    heap_lt_of_getElem? ho, bind, Except.bind, pure, Except.pure, getFields, ho]

/-- The append path of `load_library`: the state it returns when `string.find`
reports that the template of the library does not occur in `package.path`. -/
theorem load_library_appends_eq (win32 : Bool) (homedir : String) (find : StrFind)
    (L : LuaState) (name p : String) (a b : Nat) (oa ob : HObj)
    (hp : L.globals.rawget (.str "package") = .tbl a) (ha : L.heap[a]? = some oa)
    (hpath : oa.fields.rawget (.str "path") = .str p)
    (hs : L.globals.rawget (.str "string") = .tbl b) (hb : L.heap[b]? = some ob)
    (hfind : ob.fields.rawget (.str "find") = .cfun str_find)
    (hn : strstr name ".." = false)
    (hf : find p (";./data/library/" ++ name ++ "/?.lua") = .ok none) :
    lapi.load_library win32 homedir find L (some name)
      = .ok (LuaState.mk L.registry L.globals
          (L.heap.set a (HObj.mk (oa.fields.rawset (.str "path") (.str (p
            ++ (";" ++ homedir ++ "data" ++ PATHDIV win32 ++ "library" ++ PATHDIV win32 ++ name
                ++ PATHDIV win32 ++ "?.lua")
            ++ (";./data/library/" ++ name ++ "/?.lua")))) oa.meta))
          (.tbl a :: L.stack), true) := by
  obtain ⟨R, G, H, S⟩ := L
  simp only at hp ha hs hb
  simp only [lapi.load_library, hn, Bool.false_eq_true, if_false, bind, Except.bind,
    lua_getglobal_mk, hp, hs, lua_getfield_neg1_mk R G H b _ ob "find" hb, hfind,
    lua_getfield_neg3_mk R G H a _ _ _ oa "path" ha, hpath, lua_pushlstring, lua_pushstring,
    lua_call_2_1, if_true, hf, lua_isnil, index2adr_neg1, List.getElem?_cons_zero,
    decide_True, Bool.not_true, lua_pop, lua_getfield_neg1_mk R G H a _ oa "path" ha,
    lua_pushfstring]
  simp [lua_concat, concatStrings_three, lua_setfield_neg2_mk R G H _ a _ oa "path" ha, pure,
    Except.pure, lua_pop, lua_getfield_neg1_mk R G H a _ oa "path" ha, hpath]

/-! ## The module search path -/

theorem init_eq_init_path (server win32 : Bool) (homedir defaultPath : String) (ld : Loader)
    (g : LuaStatics) (dir : String) (h : g.L = none) :
    init server win32 homedir defaultPath ld g dir = (do
      let L ← init_path win32 homedir (luaL_openlibs defaultPath luaL_newstate)
      let L ← init_pinstrs L
      let (externals, funs, L) ← setup_binds server win32 ld (copystring dir) g.externals g.funs L
      pure { L := some L, mod_dir := copystring dir, externals := externals, funs := funs }) := by
  unfold init init_path
  rw [h]
  simp only [bind_assoc]

theorem templatesFrom_append (xs ys : List Char) :
    ∀ cur, templatesFrom cur (xs ++ LUA_PATHSEP :: ys)
      = templatesFrom cur xs ++ templatesFrom [] ys := by
  induction xs with
  | nil =>
    intro cur
    simp only [List.nil_append, templatesFrom, if_true]
    split <;> simp
  | cons c cs ih =>
    intro cur
    simp only [List.cons_append, templatesFrom]
    split
    · split <;> simp [ih]
    · exact ih _

theorem templatesFrom_of_not_mem (xs : List Char) (h : LUA_PATHSEP ∉ xs) :
    ∀ cur, templatesFrom cur xs
      = if cur.reverse ++ xs = [] then [] else [String.mk (cur.reverse ++ xs)] := by
  induction xs with
  | nil => intro cur; simp [templatesFrom]
  | cons c cs ih =>
    intro cur
    have hc : c ≠ LUA_PATHSEP := fun e => h (by simp [e])
    have hcs : LUA_PATHSEP ∉ cs := fun e => h (by simp [e])
    simp only [templatesFrom, hc, if_false, ih hcs]
    simp

theorem pathTemplates_append (p q : String) :
    pathTemplates (p ++ (";" ++ q)) = pathTemplates p ++ pathTemplates q := by
  unfold pathTemplates
  have : (p ++ (";" ++ q)).data = p.data ++ LUA_PATHSEP :: q.data := by
    simp [String.data_append, LUA_PATHSEP]
  rw [this, templatesFrom_append]

theorem init_path_opened (win32 : Bool) (homedir defaultPath : String) :
    ∃ L1, init_path win32 homedir (luaL_openlibs defaultPath luaL_newstate) = .ok L1
      ∧ packagePath L1 = some (homePart win32 homedir ++ rootPart) := by
  cases win32
  · refine ⟨_, rfl, ?_⟩
    show some _ = some _
    congr 1
    apply String.ext
    simp [homePart, rootPart, String.data_append]
  · refine ⟨_, rfl, ?_⟩
    show some _ = some _
    congr 1
    apply String.ext
    simp [homePart, rootPart, String.data_append]

theorem MODOPEN_base (defaultPath : String) : MODOPEN defaultPath "base" luaL_newstate
    = LuaState.mk [(.str "_LOADED", .tbl 0)] [] [HObj.mk [] .nil] [] := by
  simp [ MODOPEN, luaL_newstate, LTable.rawget, LTable.rawset]

theorem MODOPEN_step (defaultPath name : String) (G : LTable) (o : HObj) (H : List HObj)
    (S : List LVal) (hn : name ≠ "base") :
    MODOPEN defaultPath name (LuaState.mk [(.str "_LOADED", .tbl 0)] G (o :: H) S)
      = LuaState.mk [(.str "_LOADED", .tbl 0)] (G.rawset (.str name) (.tbl (H.length + 1)))
          (HObj.mk (o.fields.rawset (.str name) (.tbl (H.length + 1))) o.meta
            :: (H ++ [HObj.mk (libFields defaultPath (.tbl 0) name) .nil])) S := by
  simp [ MODOPEN, hn, setFields, getFields, LTable.rawget]

theorem lapi_opened_eq (defaultPath : String) :
    ∃ G o, lapi.opened defaultPath
      = LuaState.mk [(.str "_LOADED", .tbl 0)] G
          [o, HObj.mk [] .nil, HObj.mk [(.str "find", .cfun str_find)] .nil, HObj.mk [] .nil,
            HObj.mk [(.str "path", .str defaultPath), (.str "loaded", .tbl 0)] .nil,
            HObj.mk [] .nil, HObj.mk [] .nil, HObj.mk [] .nil, HObj.mk [] .nil, HObj.mk [] .nil]
          []
      ∧ G.rawget (.str "package") = .tbl 4 ∧ G.rawget (.str "string") = .tbl 2 := by
  unfold lapi.opened
  rw [ MODOPEN_base, MODOPEN_step _ "table" _ _ _ _ (by decide),
    MODOPEN_step _ "string" _ _ _ _ (by decide), MODOPEN_step _ "math" _ _ _ _ (by decide),
    MODOPEN_step _ "package" _ _ _ _ (by decide), MODOPEN_step _ "debug" _ _ _ _ (by decide),
    MODOPEN_step _ "os" _ _ _ _ (by decide), MODOPEN_step _ "io" _ _ _ _ (by decide),
    MODOPEN_step _ "ffi" _ _ _ _ (by decide), MODOPEN_step _ "bit" _ _ _ _ (by decide)]
  refine ⟨_, _, rfl, ?_, ?_⟩
  · simp [LTable.rawget_rawset]
  · simp [LTable.rawget_rawset]

theorem concatStrings_eight (a b c d e f g h : String) :
    concatStrings [.str h, .str g, .str f, .str e, .str d, .str c, .str b, .str a]
      = some (a ++ b ++ c ++ d ++ e ++ f ++ g ++ h) := by
  simp only [concatStrings, Option.map_some']
  congr 1

theorem lapi_init_path_eq (win32 : Bool) (homedir : String) (L : LuaState) (a : Nat) (oa : HObj)
    (hp : L.globals.rawget (.str "package") = .tbl a) (ha : L.heap[a]? = some oa) :
    lapi.init_path win32 homedir L
      = .ok (LuaState.mk L.registry L.globals
          (L.heap.set a (HObj.mk (oa.fields.rawset (.str "path")
            (.str (lapi.homePart win32 homedir ++ lapi.rootPart))) oa.meta)) L.stack) := by
  obtain ⟨R, G, H, S⟩ := L
  simp only at hp ha
  simp only [lapi.init_path, bind, Except.bind, lua_getglobal_mk, hp, lua_pushfstring,
    lua_pushliteral, lua_pushstring, lua_concat, List.length_cons, List.take_succ_cons,
    List.take_zero, concatStrings_eight, List.drop_succ_cons, List.drop_zero,
    lua_setfield_neg2_mk R G H _ a _ oa "path" ha, lua_pop]
  simp only [lapi.homePart, lapi.rootPart]
  simp [String.append_assoc, lua_setfield_neg2_mk R G H _ a _ oa "path" ha]

theorem packagePath_set (R G : LTable) (H : List HObj) (S : List LVal) (a : Nat) (f : LTable)
    (m : LVal) (p : String) (hp : G.rawget (.str "package") = .tbl a) (ha : a < H.length)
    (hf : f.rawget (.str "path") = .str p) :
    packagePath (LuaState.mk R G (H.set a (HObj.mk f m)) S) = some p := by
  simp [packagePath, hp, List.getElem?_set_self ha, hf]

theorem lapi_init_path_opened (win32 : Bool) (homedir defaultPath : String) :
    ∃ L1, lapi.init_path win32 homedir (lapi.opened defaultPath) = .ok L1
      ∧ packagePath L1 = some (lapi.homePart win32 homedir ++ lapi.rootPart) := by
  obtain ⟨G, o, he, hp, _⟩ := lapi_opened_eq defaultPath
  refine ⟨_, lapi_init_path_eq win32 homedir _ 4 _ (by rw [he]; exact hp) (by rw [he]; rfl), ?_⟩
  rw [he]
  exact packagePath_set _ _ _ _ _ _ _ _ hp (by simp) (LTable.rawget_rawset_self _ _ _)

theorem init_path_eq (win32 : Bool) (homedir : String) (L : LuaState) (a : Nat) (oa : HObj)
    (hp : L.globals.rawget (.str "package") = .tbl a) (ha : L.heap[a]? = some oa) :
    init_path win32 homedir L
      = .ok (LuaState.mk L.registry L.globals
          (L.heap.set a (HObj.mk (oa.fields.rawset (.str "path")
            (.str (homePart win32 homedir ++ rootPart))) oa.meta)) L.stack) := by
  obtain ⟨R, G, H, S⟩ := L
  simp only at hp ha
  cases win32 <;>
  · simp only [init_path, bind, Except.bind, lua_getglobal_mk, hp, lua_pushfstring,
      lua_pushliteral, lua_pushstring, lua_concat, List.length_cons, List.take_succ_cons,
      List.take_zero, concatStrings_eight, List.drop_succ_cons, List.drop_zero, lua_pop,
      if_true, if_false, Bool.false_eq_true]
    simp only [homePart, rootPart]
    simp [String.append_assoc, lua_setfield_neg2_mk R G H _ a _ oa "path" ha]

theorem rootPart_templates (p : String) :
    pathTemplates (p ++ rootPart)
      = pathTemplates p
        ++ ["./media/?/init.lua", "./media/?.lua", "./media/lua/?/init.lua", "./media/lua/?.lua"] := by
  have h : rootPart = ";" ++ "./media/?/init.lua;./media/?.lua;./media/lua/?/init.lua;./media/lua/?.lua" := by
    decide
  rw [h, pathTemplates_append]
  congr 1

theorem lapi_rootPart_templates (p : String) :
    pathTemplates (p ++ lapi.rootPart)
      = pathTemplates p
        ++ ["./data/library/core/?.lua", "./data/library/core/?/init.lua", "./data/?/init.lua",
            "./data/?.lua", "./data/library/?/init.lua"] := by
  have h : lapi.rootPart = ";" ++ "./data/library/core/?.lua;./data/library/core/?/init.lua;./data/?/init.lua;./data/?.lua;./data/library/?/init.lua" := by
    decide
  rw [h, pathTemplates_append]
  congr 1

theorem findfile_append (win32 : Bool) (readable : String → Bool) (p q name f : String)
    (h : findfile win32 readable p name = some f) :
    findfile win32 readable (p ++ (";" ++ q)) name = some f := by
  simp only [findfile] at h ⊢
  rw [pathTemplates_append, List.map_append, List.find?_append, h]
  rfl

theorem load_library_present_eq (win32 : Bool) (homedir : String) (find : StrFind)
    (L : LuaState) (name p : String) (a b : Nat) (oa ob : HObj) (i : Int)
    (hp : L.globals.rawget (.str "package") = .tbl a) (ha : L.heap[a]? = some oa)
    (hpath : oa.fields.rawget (.str "path") = .str p)
    (hs : L.globals.rawget (.str "string") = .tbl b) (hb : L.heap[b]? = some ob)
    (hfind : ob.fields.rawget (.str "find") = .cfun str_find)
    (hn : strstr name ".." = false)
    (hf : find p (";./data/library/" ++ name ++ "/?.lua") = .ok (some i)) :
    lapi.load_library win32 homedir find L (some name) = .ok (L, true) := by
  obtain ⟨R, G, H, S⟩ := L
  simp only at hp ha hs hb
  simp only [lapi.load_library, hn, Bool.false_eq_true, if_false, bind, Except.bind,
    lua_getglobal_mk, hp, hs, lua_getfield_neg1_mk R G H b _ ob "find" hb, hfind,
    lua_getfield_neg3_mk R G H a _ _ _ oa "path" ha, hpath, lua_pushlstring, lua_pushstring,
    lua_call_2_1, if_true, hf, lua_isnil, index2adr_neg1, List.getElem?_cons_zero]
  simp [lua_pop, pure, Except.pure]

/-- For a library name that is not null and has no `".."`, when the presence
check of `load_library` (`string.find` of the library template in
`package.path`) finds nothing, `load_library` returns true and the new
`package.path` is the old path followed by the template of the home directory
and then the template `";./data/library/<name>/?.lua"`; the templates of the
old path keep their content and order and come first. -/
theorem load_library_appends (win32 : Bool) (homedir : String) (find : StrFind)
    (L : LuaState) (name p : String) (a b : Nat) (oa ob : HObj)
    (hp : L.globals.rawget (.str "package") = .tbl a) (ha : L.heap[a]? = some oa)
    (hpath : oa.fields.rawget (.str "path") = .str p)
    (hs : L.globals.rawget (.str "string") = .tbl b) (hb : L.heap[b]? = some ob)
    (hfind : ob.fields.rawget (.str "find") = .cfun str_find)
    (hn : ¬ "..".data <:+: name.data)
    (hf : find p (";./data/library/" ++ name ++ "/?.lua") = .ok none) :
    ∃ L1, lapi.load_library win32 homedir find L (some name) = .ok (L1, true)
      ∧ packagePath L = some p
      ∧ packagePath L1 = some (p
          ++ (";" ++ homedir ++ "data" ++ PATHDIV win32 ++ "library" ++ PATHDIV win32 ++ name
              ++ PATHDIV win32 ++ "?.lua")
          ++ (";./data/library/" ++ name ++ "/?.lua"))
      ∧ pathTemplates (p
          ++ (";" ++ homedir ++ "data" ++ PATHDIV win32 ++ "library" ++ PATHDIV win32 ++ name
              ++ PATHDIV win32 ++ "?.lua")
          ++ (";./data/library/" ++ name ++ "/?.lua"))
        = pathTemplates p
          ++ pathTemplates (homedir ++ "data" ++ PATHDIV win32 ++ "library" ++ PATHDIV win32
              ++ name ++ PATHDIV win32 ++ "?.lua")
          ++ pathTemplates ("./data/library/" ++ name ++ "/?.lua") := by
  have hn1 : strstr name ".." = false := by
    cases h : strstr name ".." with
    | false => rfl
    | true => exact absurd ((occursIn_iff _ _).1 h) hn
  refine ⟨_, load_library_appends_eq win32 homedir find L name p a b oa ob hp ha hpath hs hb
    hfind hn1 hf, ?_, ?_, ?_⟩
  · simp [packagePath, hp, ha, hpath]
  · exact packagePath_set _ _ _ _ _ _ _ _ hp (heap_lt_of_getElem? ha)
      (LTable.rawget_rawset_self _ _ _)
  · have e1 : ";" ++ homedir ++ "data" ++ PATHDIV win32 ++ "library" ++ PATHDIV win32 ++ name
          ++ PATHDIV win32 ++ "?.lua"
        = ";" ++ (homedir ++ "data" ++ PATHDIV win32 ++ "library" ++ PATHDIV win32 ++ name
          ++ PATHDIV win32 ++ "?.lua") := by
      simp only [String.append_assoc]
    have e2 : ";./data/library/" ++ name ++ "/?.lua"
        = ";" ++ ("./data/library/" ++ name ++ "/?.lua") := by
      apply String.ext
      simp [String.data_append]
    rw [e1, e2, pathTemplates_append, pathTemplates_append]

/-- C20: on the state that `lapi::init` has prepared (libraries open, search
path built, empty stack), `load_library("foo")` takes the append path, as the
template of `foo` does not occur in the path, and returns with the table
`package` left on the stack: the height is 1, not 0. -/
theorem load_library_leaves_package_on_stack :
    ∃ L0 L1, lapi.init_path false "/home/u/" (lapi.opened "./?.lua") = .ok L0
      ∧ lapi.load_library false "/home/u/" (fun _ _ => .ok none) L0 (some "foo") = .ok (L1, true)
      ∧ L0.stack = []
      ∧ L1.stack = [.tbl 4] := by
  obtain ⟨G, o, he, hp, hs⟩ := lapi_opened_eq "./?.lua"
  rw [he]
  have h0 := lapi_init_path_eq false "/home/u/" (LuaState.mk [(.str "_LOADED", .tbl 0)] G
    [o, HObj.mk [] .nil, HObj.mk [(.str "find", .cfun str_find)] .nil, HObj.mk [] .nil,
      HObj.mk [(.str "path", .str "./?.lua"), (.str "loaded", .tbl 0)] .nil,
      HObj.mk [] .nil, HObj.mk [] .nil, HObj.mk [] .nil, HObj.mk [] .nil, HObj.mk [] .nil]
    []) 4 _ hp rfl
  refine ⟨_, ?w, h0, ?h, rfl, ?s⟩
  case h =>
    refine load_library_appends_eq false "/home/u/" (fun _ _ => .ok none) _ "foo"
      (lapi.homePart false "/home/u/" ++ lapi.rootPart) 4 2
      (HObj.mk (LTable.rawset [(.str "path", .str "./?.lua"), (.str "loaded", .tbl 0)]
        (.str "path") (.str (lapi.homePart false "/home/u/" ++ lapi.rootPart))) .nil)
      (HObj.mk [(.str "find", .cfun str_find)] .nil) ?_ ?_ ?_ ?_ ?_ ?_ ?_ ?_
    · exact hp
    · rfl
    · simp only [LTable.rawget_rawset_self]
    · exact hs
    · rfl
    · rfl
    · decide
    · rfl
  case s => rfl

/-! ## Failing loads -/

/-- C15: in the server, where `fatal` is the function of server_system.cpp,
a bootstrap module that fails with the error text `e` ends `load_module`
(of `lua` and of `lapi`) in `fatal`, but the message that is logged is
`FATAL: %s` for every `e`: the error text is not part of it.  For the text
`init.lua:1: boom` the logged message does not contain it, also when the
module is loaded by `init`. -/
theorem load_module_fatal_drops_error_text (e : String) (win32 : Bool) (mod_dir : String)
    (externals : hashtable) (L : LuaState) :
    load_module win32 (failingLoader e) mod_dir externals L "init"
        = .error (.fatal "FATAL: %s\r\n")
    ∧ lapi.load_module win32 (failingLoader e) mod_dir externals L "init"
        = .error (.fatal "FATAL: %s\r\n")
    ∧ (fatalMessage (init true false "/home/u/" "./?.lua" (failingLoader "init.lua:1: boom")
          { LuaStatics.start with funs := some [] } "media/lua")).map
        (fun m => strstr m "init.lua:1: boom") = some false := by
  refine ⟨rfl, rfl, ?_⟩
  decide

/-- C16, as amended: a load through `tools::execfile` never ends in `fatal`.
When the file cannot be read, `execfile` returns false to its caller and, when
`msg` is set, has logged `could not read "<file>"` (and nothing otherwise);
when the file fails to compile or to run (the error text is then on top of the
stack), `execfile` returns false, has popped the error text and, when `msg` is
set, has logged that text (and nothing otherwise).  The function `load_module`
ends in `fatal` when the load fails, for every module name. -/
theorem execfile_failure_returns_false (loadfile : FileReader) (run : ChunkRunner)
    (L : LuaState) (cfgfile : String) (msg : Bool) :
    fatalMessage (tools.execfile loadfile run L cfgfile msg) = none
    ∧ (loadfile (copystring cfgfile) = none →
        tools.execfile loadfile run L cfgfile msg
          = .ok (L, if msg then ["could not read \"" ++ cfgfile ++ "\""] else [], false))
    ∧ (∀ buf L1 e rest, loadfile (copystring cfgfile) = some buf →
        run buf (copystring ("@" ++ cfgfile)) L = (L1, some e) → L1.stack = .str e :: rest →
        tools.execfile loadfile run L cfgfile msg
          = .ok (LuaState.mk L1.registry L1.globals L1.heap rest, if msg then [e] else [],
              false))
    ∧ (∀ win32 ld mod_dir externals name E1 L1 e,
        ld (copystring (mod_dir ++ PATHDIV win32 ++ name ++ ".lua")) externals L
          = (E1, L1, some e) →
        load_module win32 ld mod_dir externals L name = .error (fatal "%s" [e])) := by
  refine ⟨?_, ?_, ?_, ?_⟩
  · simp only [tools.execfile]
    cases h1 : loadfile (copystring cfgfile) with
    | none => rfl
    | some buf =>
      rcases h2 : run buf (copystring ("@" ++ cfgfile)) L with ⟨L1, _ | e⟩
      · simp only [h2]
        rfl
      · simp only [h2, bind, Except.bind, lua_pop]
        by_cases h3 : 1 ≤ L1.stack.length
        · simp only [h3, if_true]
          rfl
        · simp only [h3, if_false]
          rfl
  · intro h1
    simp only [tools.execfile, h1]
  · intro buf L1 e rest h1 h2 h3
    simp only [tools.execfile, h1, h2, bind, Except.bind, lua_pop, h3, List.length_cons]
    simp [pure, Except.pure]
  · intro win32 ld mod_dir externals name E1 L1 e h
    unfold load_module
    simp only [h]

/-- C16, witness: with `msg` set, a file that cannot be read, and a file whose
chunk fails with the text `boom`; the line that is logged is the one named. -/
theorem execfile_failure_returns_false_witness :
    tools.execfile (fun _ => none) (fun _ _ L => (L, none)) openedState "a.lua" true
        = .ok (openedState, ["could not read \"a.lua\""], false)
    ∧ tools.execfile (fun _ => some "error('boom')")
          (fun _ _ L => (lua_pushstring L "boom", some "boom")) openedState "a.lua" true
        = .ok (LuaState.mk openedState.registry openedState.globals openedState.heap
            openedState.stack, ["boom"], false) :=
  ⟨(execfile_failure_returns_false (fun _ => none) (fun _ _ L => (L, none)) openedState
      "a.lua" true).2.1 rfl,
   (execfile_failure_returns_false (fun _ => some "error('boom')")
      (fun _ _ L => (lua_pushstring L "boom", some "boom")) openedState "a.lua" true).2.2.1
      "error('boom')" (lua_pushstring openedState "boom") "boom" openedState.stack rfl rfl rfl⟩

/-- C16 as stated fails for `load_module`: a module with a name other than
`"init"` whose load fails ends in `fatal`, in `lua` and in `lapi`. -/
theorem load_module_other_name_fatal :
    fatalMessage (load_module false (failingLoader "boom") "media/lua" (fun _ => none)
        openedState "other") = some "FATAL: %s\r\n"
    ∧ fatalMessage (lapi.load_module false (failingLoader "boom") "data" (fun _ => none)
        openedState "other") = some "FATAL: %s\r\n" :=
  ⟨rfl, rfl⟩

/-! ## The reference of a key -/

theorem regBeforeRef_str (externals : hashtable) (L : LuaState) (k s : String) (h : s ≠ k) :
    (regBeforeRef externals L k).rawget (.str s) = L.registry.rawget (.str s) := by
  have hne : LVal.str s ≠ LVal.str k := fun e => h (by injection e)
  unfold regBeforeRef
  cases externals.access k with
  | none => exact LTable.rawget_rawset_of_ne _ _ _ _ hne
  | some r =>
    simp only
    rw [LTable.rawget_rawset_of_ne _ _ _ _ hne]
    split
    · rw [LTable.rawget_rawset_of_ne _ _ _ _ (by simp),
        LTable.rawget_rawset_of_ne _ _ _ _ (by simp)]
    · rfl

/-- For a key other than `"__pinstrs"`, `external_set` leaves the pin table
and all its records as they are. -/
theorem external_set_keeps_pin_table (keep : Bool) (E E1 : hashtable) (L L1 : LuaState)
    (k : String) (v : LVal) (n : Nat) (hk : k ≠ "__pinstrs")
    (h : external_set keep E (L.frame [.str k, v]) = .ok (E1, L1, n)) (s : String) :
    pinRecord L1 s = pinRecord L s := by
  rw [external_set_eq] at h
  obtain ⟨R, r, hr, _, _, hstr⟩ := luaL_ref_registry
    (LuaState.mk (regBeforeRef E L k) L.globals L.heap [v, slotValue E L k, v, .str k]) v
    [slotValue E L k, v, .str k] rfl
  rw [hr] at h
  simp only [Except.map, Except.ok.injEq, Prod.mk.injEq] at h
  rw [← h.2.1]
  unfold pinRecord
  simp only [hstr, regBeforeRef_str E L k "__pinstrs" (fun e => hk e.symm)]

/-- For a key other than `"__pinstrs"`, `external_unset` leaves the pin table
and all its records as they are. -/
theorem external_unset_keeps_pin_table (E E1 : hashtable) (L L1 : LuaState)
    (k : String) (n : Nat) (hk : k ≠ "__pinstrs")
    (h : external_unset E (L.frame [.str k]) = .ok (E1, L1, n)) (s : String) :
    pinRecord L1 s = pinRecord L s := by
  have hne : LVal.str "__pinstrs" ≠ LVal.str k := fun e => hk (by injection e with e; exact e.symm)
  unfold external_unset at h
  rw [luaL_checkstring_frame1] at h
  cases hE : E.access k with
  | none =>
    simp only [hE, bind, Except.bind, pure, Except.pure, Except.ok.injEq, Prod.mk.injEq] at h
    rw [← h.2.1]
    rfl
  | some r =>
    have hE1 : E k = some r := hE
    by_cases hr : r ≥ 0
    · simp only [hE, bind, Except.bind, pure, Except.pure, lua_pushnil, LuaState.frame,
        List.reverse_cons, List.reverse_nil, List.nil_append, lua_setfield_registry,
        luaL_unref_registry, hashtable.remove, hE1, hr, if_true, lua_pushboolean,
        Except.ok.injEq, Prod.mk.injEq] at h
      rw [← h.2.1]
      unfold pinRecord
      simp only [LTable.rawget_rawset_of_ne _ _ _ _ hne,
        LTable.rawget_rawset_of_ne _ (LVal.num _) _ (LVal.str "__pinstrs") (by simp)]
    · simp only [hE, bind, Except.bind, pure, Except.pure, lua_pushnil, LuaState.frame,
        List.reverse_cons, List.reverse_nil, List.nil_append, lua_setfield_registry,
        luaL_unref_registry, hashtable.remove, hE1, hr, if_false, lua_pushboolean,
        Except.ok.injEq, Prod.mk.injEq] at h
      rw [← h.2.1]
      unfold pinRecord
      simp only [LTable.rawget_rawset_of_ne _ _ _ _ hne]

/-- C19: the broker pins the name of a key in the registry under the name
itself, where the pin table is kept under `"__pinstrs"`.  On a pin table in
which `"x"` has the count 1, `external_set("__pinstrs", 5)` replaces the
registry entry of the pin table by the string `"__pinstrs"`: the record of
`"x"` is lost and a following `pin_string("x")` or `unpin_string("x")` reads
a field of a string, which the Lua API leaves undefined.  After
`external_unset("__pinstrs")` the registry entry is nil. -/
theorem external_set_pinstrs_breaks_pin_table :
    ∃ E1 L1 E2 L2,
      pinCount (pinnedCount 1) "x" = some 1
      ∧ after (external_set true (fun _ => none)
          ((pinnedCount 1).frame [.str "__pinstrs", .num 5])) = some (E1, L1)
      ∧ L1.registry.rawget (.str "__pinstrs") = .str "__pinstrs"
      ∧ pinRecord L1 "x" = none
      ∧ pin_string L1 "x" = .error .undefined
      ∧ unpin_string true L1 "x" = .error .undefined
      ∧ after (external_unset E1 (L1.frame [.str "__pinstrs"])) = some (E2, L2)
      ∧ L2.registry.rawget (.str "__pinstrs") = .nil
      ∧ pin_string L2 "x" = .error .undefined :=
  ⟨_, _, _, _, rfl, rfl, rfl, rfl, rfl, rfl, rfl, rfl, rfl⟩

/-! ## The templates of the home directory -/

theorem pathTemplates_single (s : String) (h1 : LUA_PATHSEP ∉ s.data) (h2 : s.data ≠ []) :
    pathTemplates s = [s] := by
  unfold pathTemplates
  rw [templatesFrom_of_not_mem _ h1]
  simp [h2]

theorem pathTemplates_sep_cons (q : String) : pathTemplates (";" ++ q) = pathTemplates q := by
  have h := pathTemplates_append "" q
  have e : ("" : String) ++ (";" ++ q) = ";" ++ q := by
    apply String.ext
    simp [String.data_append]
  rw [e] at h
  rw [h]
  rfl

theorem pathTemplates_home_piece (homedir tail q : String) (hh : LUA_PATHSEP ∉ homedir.data)
    (ht : LUA_PATHSEP ∉ tail.data) (hne : tail.data ≠ []) :
    pathTemplates (homedir ++ tail ++ (";" ++ q)) = (homedir ++ tail) :: pathTemplates q := by
  rw [pathTemplates_append, pathTemplates_single]
  · rfl
  · simp [String.data_append, hh, ht]
  · simp [String.data_append, hne]

/-- When the home directory has no `;` in it, the home part of the path of
`lua::init` holds exactly its four templates, in the order of the source. -/
theorem homePart_templates (win32 : Bool) (homedir : String) (hh : LUA_PATHSEP ∉ homedir.data) :
    pathTemplates (homePart win32 homedir)
      = if win32 then
          [homedir ++ "media\\?\\init.lua", homedir ++ "media\\?.lua",
            homedir ++ "media\\lua\\?\\init.lua", homedir ++ "media\\lua\\?.lua"]
        else
          [homedir ++ "media/?/init.lua", homedir ++ "media/?.lua",
            homedir ++ "media/lua/?/init.lua", homedir ++ "media/lua/?.lua"] := by
  cases win32
  · have e : homePart false homedir
        = ";" ++ (homedir ++ "media/?/init.lua" ++ (";" ++ (homedir ++ "media/?.lua"
          ++ (";" ++ (homedir ++ "media/lua/?/init.lua" ++ (";" ++ (homedir ++ "media/lua/?.lua")))))))
        := by
      simp [homePart, String.append_assoc]
    rw [e, pathTemplates_sep_cons, pathTemplates_home_piece _ _ _ hh (by decide) (by decide),
      pathTemplates_home_piece _ _ _ hh (by decide) (by decide),
      pathTemplates_home_piece _ _ _ hh (by decide) (by decide), pathTemplates_single]
    · rfl
    · simp only [String.data_append, List.mem_append, not_or]
      exact ⟨hh, by decide⟩
    · simp [String.data_append]
  · have e : homePart true homedir
        = ";" ++ (homedir ++ "media\\?\\init.lua" ++ (";" ++ (homedir ++ "media\\?.lua"
          ++ (";" ++ (homedir ++ "media\\lua\\?\\init.lua"
            ++ (";" ++ (homedir ++ "media\\lua\\?.lua"))))))) := by
      simp [homePart, String.append_assoc]
    rw [e, pathTemplates_sep_cons, pathTemplates_home_piece _ _ _ hh (by decide) (by decide),
      pathTemplates_home_piece _ _ _ hh (by decide) (by decide),
      pathTemplates_home_piece _ _ _ hh (by decide) (by decide), pathTemplates_single]
    · rfl
    · simp only [String.data_append, List.mem_append, not_or]
      exact ⟨hh, by decide⟩
    · simp [String.data_append]

/-! ## Relative paths -/

theorem modifyHead_same {α : Type} (l : List α) : l.modifyHead (fun t => t) = l := by
  cases l <;> rfl

theorem strtokFrom_eq_split (delim : List Char) (xs : List Char) :
    ∀ cur, strtokFrom delim cur xs
      = (((xs.splitOnP (fun c => decide (c ∈ delim))).modifyHead (fun t => cur.reverse ++ t)).filter
          (fun t => t ≠ [])).map String.mk := by
  induction xs with
  | nil =>
    intro cur
    by_cases h : cur = []
    · simp [strtokFrom, h, List.splitOnP_nil]
    · simp [strtokFrom, h, List.splitOnP_nil]
  | cons c cs ih =>
    intro cur
    rw [List.splitOnP_cons]
    by_cases hc : c ∈ delim
    · simp only [strtokFrom, hc, if_true, decide_True]
      by_cases h : cur = []
      · simp [h, ih, modifyHead_same]
      · simp [h, ih, modifyHead_same]
    · simp only [strtokFrom, hc, if_false, decide_False, Bool.false_eq_true, ih]
      cases hs : List.splitOnP (fun c => decide (c ∈ delim)) cs with
      | nil => exact absurd hs (List.splitOnP_ne_nil _ _)
      | cons a as => simp [List.modifyHead]

theorem strtok_eq_pathTokens (path : String) : strtok path "/\\" = pathTokens path := by
  unfold strtok pathTokens
  rw [strtokFrom_eq_split]
  have : (fun c => decide (c ∈ "/\\".data)) = (fun c => c = '/' || c = Char.ofNat 92) := by
    funext c
    have : "/\\".data = ['/', Char.ofNat 92] := by decide
    rw [this]
    simp
  rw [this]
  cases List.splitOnP (fun c => c = '/' || c = Char.ofNat 92) path.data with
  | nil => rfl
  | cons a as => simp [List.modifyHead]

theorem depthAfter_cons (t : String) (ts : List String) :
    depthAfter (t :: ts) = depthChange t + depthAfter ts := by
  simp [depthAfter]

theorem strtokFrom_not_empty (delim : List Char) (xs : List Char) :
    ∀ cur, "" ∉ strtokFrom delim cur xs := by
  have hne : ∀ cur : List Char, cur ≠ [] → String.mk cur.reverse ≠ "" := by
    intro cur h e
    have := congrArg String.data e
    simp at this
    exact h this
  induction xs with
  | nil =>
    intro cur
    by_cases h : cur = []
    · simp [strtokFrom, h]
    · simp only [strtokFrom, h, if_false, List.mem_singleton]
      exact fun e => hne cur h e.symm
  | cons c cs ih =>
    intro cur
    by_cases hc : c ∈ delim
    · by_cases h : cur = []
      · simp only [strtokFrom, hc, h, if_true]
        exact ih []
      · simp only [strtokFrom, hc, h, if_true, if_false, List.mem_cons, not_or]
        exact ⟨fun e => hne cur h e.symm, ih []⟩
    · simp only [strtokFrom, hc, if_false]
      exact ih _

theorem depthAfter_le_length (ts : List String) : depthAfter ts ≤ ts.length := by
  induction ts with
  | nil => simp [depthAfter]
  | cons t ts ih =>
    rw [depthAfter_cons]
    have : depthChange t ≤ 1 := by
      unfold depthChange
      split
      · omega
      · split <;> omega
    simp only [List.length_cons, Nat.cast_add, Nat.cast_one]
    omega

/-- The loop of `valrpath`, while `level` cannot leave the range of `int`: it
runs to the end exactly when the level after every token is at least 0, and
then yields the level it started from plus the depth of the tokens. -/
theorem valrpath_loop_eq (ts : List String) :
    ∀ level : Int, "" ∉ ts → -1 ≤ level → level + ts.length ≤ 2147483647 →
      valrpath_loop ts level
        = if ∀ n, n < ts.length → 0 ≤ level + depthAfter (ts.take (n + 1))
          then some (level + depthAfter ts) else none := by
  induction ts with
  | nil =>
    intro level _ _ _
    simp [valrpath_loop, depthAfter]
  | cons t ts ih =>
    intro level hne hlo hhi
    have ht : t ≠ "" := fun e => hne (by simp [e])
    have hts : "" ∉ ts := fun e => hne (by simp [e])
    simp only [List.length_cons, Nat.cast_add, Nat.cast_one] at hhi
    have hstep : (if t = ".." then toInt32 (level - 1)
        else if t ≠ "." ∧ t ≠ "" then toInt32 (level + 1) else level)
        = level + depthChange t := by
      unfold depthChange
      by_cases h1 : t = ".."
      · simp only [h1, if_true]
        rw [toInt32_of_range _ (by omega) (by omega)]
        omega
      · by_cases h2 : t = "."
        · simp [h1, h2]
        · simp only [h1, h2, ht, if_false, ne_eq, not_false_eq_true, and_self, if_true]
          rw [toInt32_of_range _ (by omega) (by omega)]
    simp only [valrpath_loop, hstep]
    have hd : -1 ≤ depthChange t ∧ depthChange t ≤ 1 := by
      unfold depthChange
      split
      · omega
      · split <;> omega
    by_cases hneg : level + depthChange t < 0
    · rw [if_pos hneg, if_neg]
      intro hall
      have := hall 0 (by simp)
      simp [depthAfter] at this
      omega
    · rw [if_neg hneg, ih (level + depthChange t) hts (by omega) (by omega)]
      have hiff : (∀ n, n < ts.length → 0 ≤ level + depthChange t + depthAfter (ts.take (n + 1)))
          ↔ (∀ n, n < (t :: ts).length → 0 ≤ level + depthAfter ((t :: ts).take (n + 1))) := by
        constructor
        · intro h n hn
          cases n with
          | zero =>
            simp [depthAfter]
            omega
          | succ m =>
            have := h m (by simpa using hn)
            rw [List.take_succ_cons, depthAfter_cons]
            omega
        · intro h n hn
          have := h (n + 1) (by simpa using hn)
          rw [List.take_succ_cons, depthAfter_cons] at this
          omega
      by_cases hall : ∀ n, n < ts.length →
          0 ≤ level + depthChange t + depthAfter (ts.take (n + 1))
      · rw [if_pos hall, if_pos (hiff.1 hall), depthAfter_cons]
        congr 1
        omega
      · rw [if_neg hall, if_neg (fun h => hall (hiff.2 h))]

/-- C22, as amended: for every path with at most 2^31 tokens, `valrpath(path)`
is true if and only if the path stays below its starting directory: split on
`/` and `\` into tokens that are not empty, with the depth counted +1 for a
token other than `.` and `..`, -1 for `..` and 0 for `.`, there is at least
one token, the depth after every prefix of the tokens that is not empty is at
least 1, and the final depth is at least 2.  The tokens `strtok` yields are
those of this splitting. -/
theorem valrpath_iff_stays_below (path : String)
    (h : (strtok path "/\\").length ≤ 2147483648) :
    strtok path "/\\" = pathTokens path
    ∧ (tools.valrpath path = true ↔ staysBelow path) := by
  refine ⟨strtok_eq_pathTokens path, ?_⟩
  have hne : "" ∉ strtok path "/\\" := strtokFrom_not_empty _ _ _
  unfold tools.valrpath staysBelow
  rw [← strtok_eq_pathTokens]
  generalize strtok path "/\\" = ts at h hne ⊢
  rw [valrpath_loop_eq _ (-1) hne (by omega) (by omega)]
  by_cases hall : ∀ n, n < ts.length → 0 ≤ -1 + depthAfter (ts.take (n + 1))
  · rw [if_pos hall]
    have hfin : -1 ≤ -1 + depthAfter ts := by
      cases ts with
      | nil => simp [depthAfter]
      | cons t ts =>
        have := hall ts.length (by simp)
        rw [List.take_of_length_le (by simp)] at this
        omega
    have hlen : depthAfter ts ≤ ts.length := depthAfter_le_length ts
    simp only [decide_eq_true_eq]
    rw [toInt32_of_range _ (by omega) (by omega)]
    constructor
    · intro h2
      refine ⟨?_, fun n hn => ?_, by omega⟩
      · intro e
        rw [e] at h2
        simp [depthAfter] at h2
      · have := hall n hn
        omega
    · intro h2
      omega
  · rw [if_neg hall]
    simp only [Bool.false_eq_true, false_iff, not_and]
    intro _ h2
    exact absurd (fun n hn => by have := h2 n hn; omega) hall

/-- C22, witness: `data/textures/a.png` is accepted, and so is every path the
claim describes as staying below its directory. -/
theorem valrpath_iff_stays_below_witness :
    (tools.valrpath "data/textures/a.png" = true ↔ staysBelow "data/textures/a.png")
    ∧ staysBelow "data/textures/a.png"
    ∧ tools.valrpath "a/../b" = false ∧ tools.valrpath "a" = false
    ∧ tools.valrpath "./a/b" = false :=
  ⟨(valrpath_iff_stays_below "data/textures/a.png" (by decide)).2, by decide, by decide,
    by decide, by decide⟩

theorem strtok_deepPath (n : Nat) : strtok (deepPath n) "/\\" = List.replicate n "a" := by
  unfold strtok deepPath
  induction n with
  | zero => rfl
  | succ n ih =>
    have hd : "/\\".data = ['/', Char.ofNat 92] := by decide
    have ha : "a/".data = ['a', '/'] := by decide
    rw [List.replicate_succ, List.flatten_cons, List.replicate_succ, ← ih]
    simp only [ha, hd, List.cons_append, List.nil_append, strtokFrom]
    simp

theorem depthAfter_replicate (n : Nat) : depthAfter (List.replicate n "a") = n := by
  induction n with
  | zero => rfl
  | succ n ih =>
    rw [List.replicate_succ, depthAfter_cons, ih]
    have : depthChange "a" = 1 := by decide
    rw [this]
    push_cast
    omega

theorem valrpath_loop_overflow (n : Nat) :
    ∀ level : Int, -1 ≤ level → level + (n + 1) = 2147483648 →
      valrpath_loop (List.replicate (n + 1) "a") level = none := by
  have h1 : ("a" = "..") = False := by decide
  have h2 : ("a" ≠ "." ∧ "a" ≠ "") = True := by decide
  induction n with
  | zero =>
    intro level _ h
    have : level = 2147483647 := by omega
    subst this
    decide
  | succ n ih =>
    intro level hlo h
    rw [List.replicate_succ]
    simp only [valrpath_loop, h1, h2, if_true, if_false]
    rw [toInt32_of_range _ (by omega) (by omega), if_neg (by omega)]
    exact ih (level + 1) (by omega) (by omega)

theorem staysBelow_deepPath (n : Nat) (h : 2 ≤ n) : staysBelow (deepPath n) := by
  unfold staysBelow
  rw [← strtok_eq_pathTokens, strtok_deepPath]
  refine ⟨?_, ?_, ?_⟩
  · intro e
    have := congrArg List.length e
    rw [List.length_replicate] at this
    simp at this
    omega
  · intro m hm
    rw [List.length_replicate] at hm
    rw [List.take_replicate, depthAfter_replicate]
    have : min (m + 1) n = m + 1 := by omega
    rw [this]
    push_cast
    omega
  · rw [depthAfter_replicate]
    exact_mod_cast h

theorem valrpath_deepPath_overflow (n : Nat) (h : (n : Int) = 2147483648) :
    tools.valrpath (deepPath (n + 1)) = false := by
  unfold tools.valrpath
  rw [strtok_deepPath, valrpath_loop_overflow n (-1) (by omega) (by omega)]

/-- C22 as stated fails where `level` leaves the range of `int`: the path
`a/a/.../a/` of 2^31 + 1 directories stays below its starting directory in the
sense of the claim (every depth is at least 1, the final one is 2^31 + 1), and
`valrpath` returns false for it: after 2^31 tokens `level` is 2147483647 and
the next `level++` makes it negative. -/
theorem valrpath_rejects_deep_path :
    staysBelow (deepPath (2147483648 + 1))
    ∧ tools.valrpath (deepPath (2147483648 + 1)) = false :=
  ⟨staysBelow_deepPath _ (by omega), valrpath_deepPath_overflow 2147483648 (by norm_num)⟩

/-! ## The presence check of load_library -/

/-- The matcher on some texts: plain search, repetition, classes, captures,
the two malformed patterns, and the library template, which is found in a path
that holds `foo.lua` and is not found in its own text. -/
theorem str_find_examples :
    str_find_aux "hello world" "wor" = .ok (some 7)
    ∧ str_find_aux "hello world" "l+" = .ok (some 3)
    ∧ str_find_aux "a.b" "%." = .ok (some 2)
    ∧ str_find_aux "key = value" "(%w+)%s*=%s*(%w+)" = .ok (some 1)
    ∧ str_find_aux "abc" "[" = .error "malformed pattern (missing ']')"
    ∧ str_find_aux "abc" "a(" = .error "unfinished capture"
    ∧ str_find_aux "x;./data/library/foo.lua" ";./data/library/foo/?.lua" = .ok (some 2)
    ∧ str_find_aux ";./data/library/foo/?.lua" ";./data/library/foo/?.lua" = .ok none :=
  ⟨rfl, rfl, rfl, rfl, rfl, rfl, rfl, rfl⟩

/-- A presence check that raises an error ends `load_library` in the panic
handler. -/
theorem load_library_find_error_eq (win32 : Bool) (homedir : String) (find : StrFind)
    (L : LuaState) (name p e : String) (a b : Nat) (oa ob : HObj)
    (hp : L.globals.rawget (.str "package") = .tbl a) (ha : L.heap[a]? = some oa)
    (hpath : oa.fields.rawget (.str "path") = .str p)
    (hs : L.globals.rawget (.str "string") = .tbl b) (hb : L.heap[b]? = some ob)
    (hfind : ob.fields.rawget (.str "find") = .cfun str_find)
    (hn : strstr name ".." = false)
    (hf : find p (";./data/library/" ++ name ++ "/?.lua") = .error e) :
    lapi.load_library win32 homedir find L (some name) = .error (lapi.panic e) := by
  obtain ⟨R, G, H, S⟩ := L
  simp only at hp ha hs hb
  simp only [lapi.load_library, hn, Bool.false_eq_true, if_false, bind, Except.bind,
    lua_getglobal_mk, hp, hs, lua_getfield_neg1_mk R G H b _ ob "find" hb, hfind,
    lua_getfield_neg3_mk R G H a _ _ _ oa "path" ha, hpath, lua_pushlstring, lua_pushstring,
    lua_call_2_1, if_true, hf]

/-- Two calls of `load_library` for the same name, when the presence check
finds the template neither in the path nor in the path after the first call:
both return true, the second one appends the two templates once more, and
each leaves the table `package` on the stack. -/
theorem load_library_twice_eq (win32 : Bool) (homedir : String) (find : StrFind)
    (L : LuaState) (name p : String) (a b : Nat) (oa ob : HObj)
    (hp : L.globals.rawget (.str "package") = .tbl a) (ha : L.heap[a]? = some oa)
    (hpath : oa.fields.rawget (.str "path") = .str p)
    (hs : L.globals.rawget (.str "string") = .tbl b) (hb : L.heap[b]? = some ob)
    (hfind : ob.fields.rawget (.str "find") = .cfun str_find)
    (hn : strstr name ".." = false) (hab : a ≠ b)
    (hf1 : find p (";./data/library/" ++ name ++ "/?.lua") = .ok none)
    (hf2 : find (p
        ++ (";" ++ homedir ++ "data" ++ PATHDIV win32 ++ "library" ++ PATHDIV win32 ++ name
            ++ PATHDIV win32 ++ "?.lua")
        ++ (";./data/library/" ++ name ++ "/?.lua"))
      (";./data/library/" ++ name ++ "/?.lua") = .ok none) :
    ∃ L1 L2, lapi.load_library win32 homedir find L (some name) = .ok (L1, true)
      ∧ lapi.load_library win32 homedir find L1 (some name) = .ok (L2, true)
      ∧ packagePath L1 = some (p
          ++ (";" ++ homedir ++ "data" ++ PATHDIV win32 ++ "library" ++ PATHDIV win32 ++ name
              ++ PATHDIV win32 ++ "?.lua")
          ++ (";./data/library/" ++ name ++ "/?.lua"))
      ∧ packagePath L2 = some (p
          ++ (";" ++ homedir ++ "data" ++ PATHDIV win32 ++ "library" ++ PATHDIV win32 ++ name
              ++ PATHDIV win32 ++ "?.lua")
          ++ (";./data/library/" ++ name ++ "/?.lua")
          ++ (";" ++ homedir ++ "data" ++ PATHDIV win32 ++ "library" ++ PATHDIV win32 ++ name
              ++ PATHDIV win32 ++ "?.lua")
          ++ (";./data/library/" ++ name ++ "/?.lua"))
      ∧ L2.stack = .tbl a :: .tbl a :: L.stack := by
  obtain ⟨R, G, H, S⟩ := L
  simp only at hp ha hs hb
  have hla : a < H.length := heap_lt_of_getElem? ha
  have h1 := load_library_appends_eq win32 homedir find (LuaState.mk R G H S) name p a b oa ob
    hp ha hpath hs hb hfind hn hf1
  simp only at h1
  generalize p ++ (";" ++ homedir ++ "data" ++ PATHDIV win32 ++ "library" ++ PATHDIV win32
    ++ name ++ PATHDIV win32 ++ "?.lua") ++ (";./data/library/" ++ name ++ "/?.lua") = p1
    at h1 hf2 ⊢
  have h2 := load_library_appends_eq win32 homedir find
    (LuaState.mk R G (H.set a (HObj.mk (oa.fields.rawset (.str "path") (.str p1)) oa.meta))
      (.tbl a :: S))
    name p1 a b (HObj.mk (oa.fields.rawset (.str "path") (.str p1)) oa.meta) ob
    hp (List.getElem?_set_self hla) (by simp only [LTable.rawget_rawset_self])
    hs (by rw [List.getElem?_set_ne hab]; exact hb) hfind hn hf2
  refine ⟨_, _, h1, h2, ?_, ?_, rfl⟩
  · exact packagePath_set _ _ _ _ _ _ _ _ hp hla (LTable.rawget_rawset_self _ _ _)
  · exact packagePath_set _ _ _ _ _ _ _ _ hp (by simpa using hla)
      (LTable.rawget_rawset_self _ _ _)

set_option maxRecDepth 1000000 in
/-- The presence check for `foo` on the path that `lapi::init` builds: the
template is not found. -/
theorem template_not_in_init_path :
    str_find_aux (lapi.homePart false "/home/u/" ++ lapi.rootPart)
      (";./data/library/" ++ "foo" ++ "/?.lua") = .ok none := by
  rfl

set_option maxRecDepth 1000000 in
/-- The presence check for `foo` on the path to which the templates of `foo`
have been appended: the template is still not found. -/
theorem template_not_in_appended_path :
    str_find_aux (lapi.homePart false "/home/u/" ++ lapi.rootPart
        ++ (";" ++ "/home/u/" ++ "data" ++ PATHDIV false ++ "library" ++ PATHDIV false ++ "foo"
          ++ PATHDIV false ++ "?.lua") ++ (";./data/library/" ++ "foo" ++ "/?.lua"))
      (";./data/library/" ++ "foo" ++ "/?.lua") = .ok none := by
  rfl

set_option maxRecDepth 1000000 in
/-- The presence check for the name `[` on the path that `lapi::init` builds:
the pattern is malformed. -/
theorem template_malformed_in_init_path :
    str_find_aux (lapi.homePart false "/home/u/" ++ lapi.rootPart)
      (";./data/library/" ++ "[" ++ "/?.lua") = .error "malformed pattern (missing ']')" := by
  rfl

theorem append_ne_self (p t : String) (h : t ≠ "") : p ++ t ≠ p := by
  intro e
  have h1 := congrArg String.data e
  rw [String.data_append, List.append_right_eq_self] at h1
  exact h (String.ext h1)

set_option maxRecDepth 1000000 in
theorem appended_path_text :
    lapi.homePart false "/home/u/" ++ lapi.rootPart
      ++ (";" ++ "/home/u/" ++ "data" ++ PATHDIV false ++ "library" ++ PATHDIV false ++ "foo"
        ++ PATHDIV false ++ "?.lua") ++ (";./data/library/" ++ "foo" ++ "/?.lua")
      = lapi.homePart false "/home/u/" ++ lapi.rootPart
        ++ ";/home/u/data/library/foo/?.lua;./data/library/foo/?.lua" := by
  decide

set_option maxRecDepth 1000000 in
theorem appended_twice_path_text :
    lapi.homePart false "/home/u/" ++ lapi.rootPart
      ++ (";" ++ "/home/u/" ++ "data" ++ PATHDIV false ++ "library" ++ PATHDIV false ++ "foo"
        ++ PATHDIV false ++ "?.lua") ++ (";./data/library/" ++ "foo" ++ "/?.lua")
      ++ (";" ++ "/home/u/" ++ "data" ++ PATHDIV false ++ "library" ++ PATHDIV false ++ "foo"
        ++ PATHDIV false ++ "?.lua") ++ (";./data/library/" ++ "foo" ++ "/?.lua")
      = lapi.homePart false "/home/u/" ++ lapi.rootPart
        ++ ";/home/u/data/library/foo/?.lua;./data/library/foo/?.lua"
        ++ ";/home/u/data/library/foo/?.lua;./data/library/foo/?.lua" := by
  decide

/-- C21: after `lapi::init` with the home directory `/home/u/`, two calls of
`load_library("foo")`, with `string.find` as the presence check: both return
true, but the second call does not leave `package.path` as the first one left
it, it appends the two templates of `foo` once more.  The pattern
`;./data/library/foo/?.lua` does not match its own text (`/?` is an optional
slash and `.` any character, after which `lua` must follow), so the check
never finds what the first call appended.  For the name `[` the pattern is
malformed, `string.find` raises an error and the first call already ends in
`fatal`. -/
theorem load_library_twice_appends_twice :
    ∃ L0 L1 L2 p1,
      lapi.init_path false "/home/u/" (lapi.opened "./?.lua") = .ok L0
      ∧ lapi.load_library false "/home/u/" str_find_aux L0 (some "foo") = .ok (L1, true)
      ∧ lapi.load_library false "/home/u/" str_find_aux L1 (some "foo") = .ok (L2, true)
      ∧ p1 = lapi.homePart false "/home/u/" ++ lapi.rootPart
          ++ ";/home/u/data/library/foo/?.lua;./data/library/foo/?.lua"
      ∧ packagePath L1 = some p1
      ∧ packagePath L2 = some (p1 ++ ";/home/u/data/library/foo/?.lua;./data/library/foo/?.lua")
      ∧ packagePath L2 ≠ packagePath L1
      ∧ fatalMessage (lapi.load_library false "/home/u/" str_find_aux L0 (some "["))
          = some "FATAL: error in call to the Lua API (%s)\r\n" := by
  obtain ⟨G, o, he, hp, hs⟩ := lapi_opened_eq "./?.lua"
  have hp1 : (lapi.opened "./?.lua").globals.rawget (.str "package") = .tbl 4 := by
    rw [he]; exact hp
  have ha1 : (lapi.opened "./?.lua").heap[4]?
      = some (HObj.mk [(.str "path", .str "./?.lua"), (.str "loaded", .tbl 0)] .nil) := by
    rw [he]; rfl
  have hs1 : (lapi.opened "./?.lua").globals.rawget (.str "string") = .tbl 2 := by
    rw [he]; exact hs
  have hb1 : (lapi.opened "./?.lua").heap[2]?
      = some (HObj.mk [(.str "find", .cfun str_find)] .nil) := by
    rw [he]; rfl
  have hlen : 4 < (lapi.opened "./?.lua").heap.length := heap_lt_of_getElem? ha1
  have h0 := lapi_init_path_eq false "/home/u/" (lapi.opened "./?.lua") 4 _ hp1 ha1
  have hb2 : ((lapi.opened "./?.lua").heap.set 4
      (HObj.mk (LTable.rawset [(.str "path", .str "./?.lua"), (.str "loaded", .tbl 0)]
        (.str "path") (.str (lapi.homePart false "/home/u/" ++ lapi.rootPart))) .nil))[2]?
      = some (HObj.mk [(.str "find", .cfun str_find)] .nil) := by
    rw [List.getElem?_set_ne (by decide)]; exact hb1
  obtain ⟨L1, L2, h1, h2, hq1, hq2, _⟩ := load_library_twice_eq false "/home/u/" str_find_aux
    (LuaState.mk (lapi.opened "./?.lua").registry (lapi.opened "./?.lua").globals
      ((lapi.opened "./?.lua").heap.set 4
        (HObj.mk (LTable.rawset [(.str "path", .str "./?.lua"), (.str "loaded", .tbl 0)]
          (.str "path") (.str (lapi.homePart false "/home/u/" ++ lapi.rootPart))) .nil))
      (lapi.opened "./?.lua").stack)
    "foo" (lapi.homePart false "/home/u/" ++ lapi.rootPart) 4 2 _
    (HObj.mk [(.str "find", .cfun str_find)] .nil)
    hp1 (List.getElem?_set_self hlen) (by simp only [LTable.rawget_rawset_self]) hs1 hb2 rfl
    (by decide) (by decide) template_not_in_init_path template_not_in_appended_path
  rw [appended_path_text] at hq1
  rw [appended_twice_path_text] at hq2
  refine ⟨_, L1, L2, _, h0, h1, h2, rfl, hq1, hq2, ?_, ?_⟩
  · rw [hq1, hq2]
    intro e
    exact append_ne_self _ _ (by decide) (Option.some.inj e)
  · rw [load_library_find_error_eq false "/home/u/" str_find_aux
      (LuaState.mk (lapi.opened "./?.lua").registry (lapi.opened "./?.lua").globals
        ((lapi.opened "./?.lua").heap.set 4
          (HObj.mk (LTable.rawset [(.str "path", .str "./?.lua"), (.str "loaded", .tbl 0)]
            (.str "path") (.str (lapi.homePart false "/home/u/" ++ lapi.rootPart))) .nil))
        (lapi.opened "./?.lua").stack) "["
      (lapi.homePart false "/home/u/" ++ lapi.rootPart)
      "malformed pattern (missing ']')" 4 2 _ (HObj.mk [(.str "find", .cfun str_find)] .nil)
      hp1 (List.getElem?_set_self hlen) (by simp only [LTable.rawget_rawset_self]) hs1 hb2 rfl
      (by decide) template_malformed_in_init_path]
    rfl

/-! ## The path that init builds -/

/-- What `publish` (the part of `setup_binds` before the bootstrap module is
loaded) leaves alone, when the registry holds the table `_LOADED` of the heap:
it returns, the registry and the stack are as before, of the globals only
`SERVER` and `_C` are written, and of the heap cells that existed only the
table `_LOADED` is written. -/
theorem publish_frame (server : Bool) (fs : cfuns) (R G : LTable) (H : List HObj)
    (S : List LVal) (l : Nat)
    (hl : R.rawget (.str "_LOADED") = .tbl l) (hlt : l < H.length) :
    ∃ H1, publish server (some fs) (LuaState.mk R G H S)
        = .ok (LuaState.mk R ((G.rawset (.str "SERVER") (.bool server)).rawset (.str "_C")
            (.udata H.length)) H1 S)
      ∧ ∀ a, a < H.length → a ≠ l → H1[a]? = H[a]? := by
  unfold publish
  simp only [bind, Except.bind, lua_pushboolean, lua_setglobal_mk]
  have e3 : lua_createtable (lua_createtable (lua_newuserdata
      (LuaState.mk R (G.rawset (.str "SERVER") (.bool server)) H S) 0) 0 2) fs.length 0
      = LuaState.mk R (G.rawset (.str "SERVER") (.bool server))
          (H ++ [HObj.mk [] .nil, HObj.mk [] .nil, HObj.mk [] .nil])
          (.tbl (H.length + 2) :: .tbl (H.length + 1) :: .udata H.length :: S) := by
    simp [lua_createtable, lua_newuserdata]
  rw [e3]
  obtain ⟨c0, c1, c2⟩ := heap_append3 H (HObj.mk [] .nil) (HObj.mk [] .nil) (HObj.mk [] .nil)
  have f3 : ∀ a, a < H.length →
      (H ++ [HObj.mk [] .nil, HObj.mk [] .nil, HObj.mk [] .nil])[a]? = H[a]? :=
    fun a ha => List.getElem?_append_left ha
  generalize hH3 : H ++ [HObj.mk [] .nil, HObj.mk [] .nil, HObj.mk [] .nil] = H3 at c0 c1 c2 f3 ⊢
  have len3 : H3.length = H.length + 3 := by rw [← hH3]; simp
  have hF := setup_binds_loop_eq fs
    (LuaState.mk R (G.rawset (.str "SERVER") (.bool server)) H3
      (.tbl (H.length + 2) :: .tbl (H.length + 1) :: .udata H.length :: S))
    (H.length + 2) (HObj.mk [] .nil) _ rfl c2
  rw [hF]
  generalize dispatchTable fs (HObj.mk [] .nil).fields = F
  simp only [setHeapCell]
  have g1 : (H3.set (H.length + 2) (HObj.mk F .nil))[H.length + 1]? = some (HObj.mk [] .nil) := by
    rw [List.getElem?_set_ne (by omega)]; exact c1
  rw [lua_setfield_neg2_mk _ _ _ _ _ _ _ _ g1]
  simp only [lua_pushinteger, lua_pushcclosure1]
  have f5 : ∀ a, a < H.length → ((H3.set (H.length + 2) (HObj.mk F .nil)).set (H.length + 1)
      (HObj.mk ((HObj.mk [] .nil).fields.rawset (.str "__index") (.tbl (H.length + 2)))
        (HObj.mk [] .nil).meta))[a]? = H[a]? := by
    intro a ha
    rw [List.getElem?_set_ne (by omega), List.getElem?_set_ne (by omega)]
    exact f3 a ha
  have c05 : ((H3.set (H.length + 2) (HObj.mk F .nil)).set (H.length + 1)
      (HObj.mk ((HObj.mk [] .nil).fields.rawset (.str "__index") (.tbl (H.length + 2)))
        (HObj.mk [] .nil).meta))[H.length]? = some (HObj.mk [] .nil) := by
    rw [List.getElem?_set_ne (by omega), List.getElem?_set_ne (by omega)]
    exact c0
  generalize hH5 : (H3.set (H.length + 2) (HObj.mk F .nil)).set (H.length + 1)
    (HObj.mk ((HObj.mk [] .nil).fields.rawset (.str "__index") (.tbl (H.length + 2)))
      (HObj.mk [] .nil).meta) = H5 at f5 c05 ⊢
  have len5 : H5.length = H.length + 3 := by rw [← hH5]; simp [len3]
  have g2 : (H5 ++ [HObj.mk [(.num 1, .num fs.length)] .nil])[H.length + 1]?
      = some (HObj.mk (LTable.rawset [] (.str "__index") (.tbl (H.length + 2))) .nil) := by
    rw [List.getElem?_append_left (by omega), ← hH5, List.getElem?_set_self (by simp [len3])]
  rw [lua_setfield_neg2_mk _ _ _ _ _ _ _ _ g2]
  simp only
  have f7 : ∀ a, a < H.length → ((H5 ++ [HObj.mk [(.num 1, .num fs.length)] .nil]).set
      (H.length + 1)
      (HObj.mk ((LTable.rawset [] (.str "__index") (.tbl (H.length + 2))).rawset
        (.str "__tostring") (.cclosure capi_tostring H5.length)) .nil))[a]? = H[a]? := by
    intro a ha
    rw [List.getElem?_set_ne (by omega), List.getElem?_append_left (by omega)]
    exact f5 a ha
  have c07 : ((H5 ++ [HObj.mk [(.num 1, .num fs.length)] .nil]).set (H.length + 1)
      (HObj.mk ((LTable.rawset [] (.str "__index") (.tbl (H.length + 2))).rawset
        (.str "__tostring") (.cclosure capi_tostring H5.length)) .nil))[H.length]?
      = some (HObj.mk [] .nil) := by
    rw [List.getElem?_set_ne (by omega), List.getElem?_append_left (by omega)]
    exact c05
  have g3 : ((H5 ++ [HObj.mk [(.num 1, .num fs.length)] .nil]).set (H.length + 1)
      (HObj.mk ((LTable.rawset [] (.str "__index") (.tbl (H.length + 2))).rawset
        (.str "__tostring") (.cclosure capi_tostring H5.length)) .nil))[H.length + 1]?
      = some (HObj.mk ((LTable.rawset [] (.str "__index") (.tbl (H.length + 2))).rawset
          (.str "__tostring") (.cclosure capi_tostring H5.length)) .nil) := by
    rw [List.getElem?_set_self (by simp [len5])]
  generalize hH7 : (H5 ++ [HObj.mk [(.num 1, .num fs.length)] .nil]).set (H.length + 1)
    (HObj.mk ((LTable.rawset [] (.str "__index") (.tbl (H.length + 2))).rawset
      (.str "__tostring") (.cclosure capi_tostring H5.length)) .nil) = H7 at f7 c07 g3 ⊢
  have len7 : H7.length = H.length + 4 := by rw [← hH7]; simp [len5]
  rw [lua_setfield_neg2_mk _ _ _ _ _ _ _ _ g3]
  simp only
  generalize ((LTable.rawset [] (.str "__index") (.tbl (H.length + 2))).rawset
      (.str "__tostring") (.cclosure capi_tostring H5.length)).rawset
      (.str "__metatable") (.bool false) = M
  have g4 : (H7.set (H.length + 1) (HObj.mk M .nil))[H.length]? = some (HObj.mk [] .nil) := by
    rw [List.getElem?_set_ne (by omega)]
    exact c07
  rw [lua_setmetatable_neg2_mk _ _ _ _ _ _ _ g4]
  simp only [lua_getfield_registry_mk, hl, lua_pushvalue,
    index2adr_neg2, List.getElem?_cons_succ, List.getElem?_cons_zero]
  have f9 : ∀ a, a < H.length → ((H7.set (H.length + 1) (HObj.mk M .nil)).set H.length
      (HObj.mk (HObj.mk [] .nil).fields (.tbl (H.length + 1))))[a]? = H[a]? := by
    intro a ha
    rw [List.getElem?_set_ne (by omega), List.getElem?_set_ne (by omega)]
    exact f7 a ha
  generalize (H7.set (H.length + 1) (HObj.mk M .nil)).set H.length
    (HObj.mk (HObj.mk [] .nil).fields (.tbl (H.length + 1))) = H9 at f9 ⊢
  have hol9 : H9[l]? = some H[l] := by
    rw [f9 l hlt]
    exact List.getElem?_eq_getElem hlt
  rw [lua_setfield_neg2_mk _ _ _ _ _ _ _ _ hol9]
  have hpop : 1 ≤ S.length + 1 + 1 := by omega
  simp only [lua_pop, List.length_cons, List.drop_succ_cons, List.drop_zero, hpop, if_true,
    lua_setglobal_mk]
  refine ⟨_, rfl, fun a ha hal => ?_⟩
  rw [List.getElem?_set_ne (fun e => hal e.symm)]
  exact f9 a ha

theorem init_pinstrs_mk (R G : LTable) (H : List HObj) (S : List LVal) :
    init_pinstrs (LuaState.mk R G H S)
      = .ok (LuaState.mk (R.rawset (.str "__pinstrs") (.tbl H.length)) G
          (H ++ [HObj.mk [] .nil]) S) := rfl

theorem packagePath_of (L : LuaState) (a : Nat) (f : LTable) (m : LVal) (p : String)
    (hp : L.globals.rawget (.str "package") = .tbl a) (ha : L.heap[a]? = some (HObj.mk f m))
    (hf : f.rawget (.str "path") = .str p) : packagePath L = some p := by
  simp [packagePath, hp, ha, hf]

theorem publish_keeps (server : Bool) (fs : cfuns) (L : LuaState) (l : Nat)
    (hl : L.registry.rawget (.str "_LOADED") = .tbl l) (hlt : l < L.heap.length) :
    ∃ Lp, publish server (some fs) L = .ok Lp
      ∧ Lp.globals.rawget (.str "package") = L.globals.rawget (.str "package")
      ∧ ∀ a, a < L.heap.length → a ≠ l → Lp.heap[a]? = L.heap[a]? := by
  obtain ⟨R, G, H, S⟩ := L
  obtain ⟨H1, h1, h2⟩ := publish_frame server fs R G H S l hl hlt
  refine ⟨_, h1, ?_, h2⟩
  simp only
  rw [LTable.rawget_rawset_of_ne _ _ _ _ (by decide),
    LTable.rawget_rawset_of_ne _ _ _ _ (by decide)]

/-- The function `init`, from statics without a state and with the registered
functions `fs`, builds the search path, publishes the namespace object and
then loads the bootstrap module on a state `Lp` whose `package.path` is the
text of the home pieces followed by the text of the root pieces. -/
theorem init_loads_bootstrap_on_path (server win32 : Bool) (homedir defaultPath dir : String)
    (fs : cfuns) :
    ∃ Lp, packagePath Lp = some (homePart win32 homedir ++ rootPart)
      ∧ ∀ (ld : Loader) (g : LuaStatics), g.L = none → g.funs = some fs →
          init server win32 homedir defaultPath ld g dir
            = (load_module win32 ld (copystring dir) g.externals Lp "init").map
                (fun p => LuaStatics.mk (some p.2) (copystring dir) p.1 none) := by
  have hopen : luaL_openlibs defaultPath luaL_newstate
      = LuaState.mk [(.str "_LOADED", .tbl 0)]
          [(.str "string", .tbl 2), (.str "package", .tbl 1)]
          [HObj.mk [(.str "package", .tbl 1), (.str "string", .tbl 2)] .nil,
            HObj.mk [(.str "path", .str defaultPath), (.str "loaded", .tbl 0)] .nil,
            HObj.mk [] .nil] [] := by
    simp [luaL_openlibs, luaL_newstate, LTable.rawset]
  have hpath := init_path_eq win32 homedir (luaL_openlibs defaultPath luaL_newstate) 1
    (HObj.mk [(.str "path", .str defaultPath), (.str "loaded", .tbl 0)] .nil)
    (by rw [hopen]; rfl) (by rw [hopen]; rfl)
  obtain ⟨L1, h1, f1, f2, f3, f4⟩ : ∃ L1,
      init_path win32 homedir (luaL_openlibs defaultPath luaL_newstate) = .ok L1
      ∧ L1.registry.rawget (.str "_LOADED") = .tbl 0
      ∧ 1 < L1.heap.length
      ∧ L1.globals.rawget (.str "package") = .tbl 1
      ∧ L1.heap[1]? = some (HObj.mk (LTable.rawset
          [(.str "path", .str defaultPath), (.str "loaded", .tbl 0)] (.str "path")
          (.str (homePart win32 homedir ++ rootPart))) .nil) := by
    refine ⟨_, hpath, ?_, ?_, ?_, ?_⟩
    · rw [hopen]; rfl
    · rw [hopen]; simp
    · rw [hopen]; rfl
    · rw [hopen]; rfl
  obtain ⟨Lp, hpub, hg, hh⟩ := publish_keeps server fs
    (LuaState.mk (L1.registry.rawset (.str "__pinstrs") (.tbl L1.heap.length)) L1.globals
      (L1.heap ++ [HObj.mk [] .nil]) L1.stack) 0
    (by simp only; rw [LTable.rawget_rawset_of_ne _ _ _ _ (by decide)]; exact f1)
    (by simp)
  refine ⟨Lp, ?_, fun ld g hL hfuns => ?_⟩
  · refine packagePath_of Lp 1 (LTable.rawset
        [(.str "path", .str defaultPath), (.str "loaded", .tbl 0)] (.str "path")
        (.str (homePart win32 homedir ++ rootPart))) .nil _ (by rw [hg]; exact f3) ?_
      (LTable.rawget_rawset_self _ _ _)
    rw [hh 1 (by simp; omega) (by decide)]
    simp only
    rw [List.getElem?_append_left f2]
    exact f4
  · rw [init_eq_init_path _ _ _ _ _ _ _ hL, h1]
    simp only [bind, Except.bind]
    have hpin : init_pinstrs L1 = .ok (LuaState.mk (L1.registry.rawset (.str "__pinstrs")
        (.tbl L1.heap.length)) L1.globals (L1.heap ++ [HObj.mk [] .nil]) L1.stack) := rfl
    rw [hpin]
    simp only
    rw [setup_binds_eq_publish, hfuns, hpub]
    simp only [Except.bind]
    cases load_module win32 ld (copystring dir) g.externals Lp "init" with
    | error e => rfl
    | ok p => rfl

/-- What `lapi::setup_binds` does before it loads the bootstrap module: it
loads the module on a state in which, of the globals, only `CLIENT`, `SERVER`,
`OF_CFG_VERSION` and `CAPI` are written, and of the heap cells that existed
only the table `_LOADED`. -/
theorem lapi_setup_binds_keeps (client : Bool) (cfgVersion : Int) (base : cfuns)
    (L : LuaState) (l : Nat)
    (hl : L.registry.rawget (.str "_LOADED") = .tbl l) (hlt : l < L.heap.length) :
    ∃ Lp, (∀ win32 ld mod_dir externals,
        lapi.setup_binds client win32 cfgVersion base ld mod_dir externals L
          = lapi.load_module win32 ld mod_dir externals Lp "init")
      ∧ Lp.globals.rawget (.str "package") = L.globals.rawget (.str "package")
      ∧ Lp.globals.rawget (.str "string") = L.globals.rawget (.str "string")
      ∧ ∀ a, a < L.heap.length → a ≠ l → Lp.heap[a]? = L.heap[a]? := by
  obtain ⟨R, G, H, S⟩ := L
  simp only at hl hlt
  have hn : (H ++ [HObj.mk [] .nil])[H.length]? = some (HObj.mk [] .nil) := by
    rw [List.getElem?_append_right (le_refl _)]; simp
  have hF := setup_binds_loop_eq base
    (LuaState.mk R (((G.rawset (.str "CLIENT") (.bool client)).rawset (.str "SERVER")
        (.bool (!client))).rawset (.str "OF_CFG_VERSION") (.num cfgVersion))
      (H ++ [HObj.mk [] .nil]) (.tbl H.length :: S))
    H.length (HObj.mk [] .nil) S rfl hn
  have hset : ((H ++ [HObj.mk [] .nil]).set H.length
      (HObj.mk (dispatchTable base (HObj.mk [] .nil).fields) (HObj.mk [] .nil).meta))[l]?
      = some H[l] := by
    rw [List.getElem?_set_ne (by omega), List.getElem?_append_left hlt]
    exact List.getElem?_eq_getElem hlt
  refine ⟨LuaState.mk R (((((G.rawset (.str "CLIENT") (.bool client)).rawset (.str "SERVER")
        (.bool (!client))).rawset (.str "OF_CFG_VERSION") (.num cfgVersion))).rawset
        (.str "CAPI") (.tbl H.length))
      (((H ++ [HObj.mk [] .nil]).set H.length
        (HObj.mk (dispatchTable base (HObj.mk [] .nil).fields) (HObj.mk [] .nil).meta)).set l
        (HObj.mk (H[l].fields.rawset (.str "CAPI") (.tbl H.length)) H[l].meta)) S,
    fun win32 ld mod_dir externals => ?_, ?_, ?_, fun a ha hal => ?_⟩
  · unfold lapi.setup_binds
    simp only [bind, Except.bind, lua_pushboolean, lua_pushinteger, lua_setglobal_mk]
    have e1 : lua_createtable (LuaState.mk R (((G.rawset (.str "CLIENT") (.bool client)).rawset
        (.str "SERVER") (.bool (!client))).rawset (.str "OF_CFG_VERSION") (.num cfgVersion))
        H S) 0 0
        = LuaState.mk R (((G.rawset (.str "CLIENT") (.bool client)).rawset (.str "SERVER")
            (.bool (!client))).rawset (.str "OF_CFG_VERSION") (.num cfgVersion))
          (H ++ [HObj.mk [] .nil]) (.tbl H.length :: S) := rfl
    rw [e1, hF]
    simp only [setHeapCell, lua_getfield_registry_mk, hl, lua_pushvalue, index2adr_neg2,
      List.getElem?_cons_succ, List.getElem?_cons_zero]
    rw [lua_setfield_neg2_mk _ _ _ _ _ _ _ _ hset]
    have hpop : 1 ≤ S.length + 1 + 1 := by omega
    simp only [lua_pop, List.length_cons, List.drop_succ_cons, List.drop_zero, hpop, if_true,
      lua_setglobal_mk]
  · simp only
    rw [LTable.rawget_rawset_of_ne _ _ _ _ (by decide),
      LTable.rawget_rawset_of_ne _ _ _ _ (by decide),
      LTable.rawget_rawset_of_ne _ _ _ _ (by decide),
      LTable.rawget_rawset_of_ne _ _ _ _ (by decide)]
  · simp only
    rw [LTable.rawget_rawset_of_ne _ _ _ _ (by decide),
      LTable.rawget_rawset_of_ne _ _ _ _ (by decide),
      LTable.rawget_rawset_of_ne _ _ _ _ (by decide),
      LTable.rawget_rawset_of_ne _ _ _ _ (by decide)]
  · simp only at ha ⊢
    rw [List.getElem?_set_ne (fun e => hal e.symm), List.getElem?_set_ne (by omega),
      List.getElem?_append_left ha]

theorem lapi_init_eq (client win32 : Bool) (cfgVersion : Int) (base : cfuns)
    (homedir defaultPath : String) (ld : Loader) (externals : hashtable) (g : LapiStatics)
    (dir : String) (h : g.initialized = false) :
    lapi.init client win32 cfgVersion base homedir defaultPath ld externals g dir = (do
      let L ← lapi.init_path win32 homedir (lapi.opened defaultPath)
      let L := lua_pushcfunction L create_table
      let L ← lua_setglobal L "createtable"
      let (externals, L) ← lapi.setup_binds client win32 cfgVersion base ld dir externals L
      pure (externals, { L := some L, mod_dir := dir, initialized := true })) := by
  unfold lapi.init lapi.opened
  rw [if_neg (by rw [h]; decide)]

/-- The function `lapi::init`, from statics that are not initialized, builds
the search path and then loads the bootstrap module on a state `Lp` in which
the global `package` is the library table whose `path` is the text of the home
pieces followed by the text of the root pieces, and the global `string` is the
library table that holds `find`. -/
theorem lapi_init_state (client win32 : Bool) (cfgVersion : Int)
    (base : cfuns) (homedir defaultPath dir : String) :
    ∃ Lp, Lp.globals.rawget (.str "package") = .tbl 4
      ∧ Lp.heap[4]? = some (HObj.mk (LTable.rawset
          [(.str "path", .str defaultPath), (.str "loaded", .tbl 0)] (.str "path")
          (.str (lapi.homePart win32 homedir ++ lapi.rootPart))) .nil)
      ∧ Lp.globals.rawget (.str "string") = .tbl 2
      ∧ Lp.heap[2]? = some (HObj.mk [(.str "find", .cfun str_find)] .nil)
      ∧ ∀ (ld : Loader) (externals : hashtable) (g : LapiStatics), g.initialized = false →
          lapi.init client win32 cfgVersion base homedir defaultPath ld externals g dir
            = (lapi.load_module win32 ld dir externals Lp "init").map
                (fun p => (p.1, LapiStatics.mk (some p.2) dir true)) := by
  obtain ⟨G, o, he, hp, hs⟩ := lapi_opened_eq defaultPath
  have hpath := lapi_init_path_eq win32 homedir (lapi.opened defaultPath) 4
    (HObj.mk [(.str "path", .str defaultPath), (.str "loaded", .tbl 0)] .nil)
    (by rw [he]; exact hp) (by rw [he]; rfl)
  obtain ⟨L1, h1, f1, f2, f3, f4, f5, f6⟩ : ∃ L1,
      lapi.init_path win32 homedir (lapi.opened defaultPath) = .ok L1
      ∧ L1.registry.rawget (.str "_LOADED") = .tbl 0
      ∧ 4 < L1.heap.length
      ∧ L1.globals.rawget (.str "package") = .tbl 4
      ∧ L1.heap[4]? = some (HObj.mk (LTable.rawset
          [(.str "path", .str defaultPath), (.str "loaded", .tbl 0)] (.str "path")
          (.str (lapi.homePart win32 homedir ++ lapi.rootPart))) .nil)
      ∧ L1.globals.rawget (.str "string") = .tbl 2
      ∧ L1.heap[2]? = some (HObj.mk [(.str "find", .cfun str_find)] .nil) := by
    refine ⟨_, hpath, ?_, ?_, ?_, ?_, ?_, ?_⟩
    · rw [he]; rfl
    · rw [he]; simp
    · rw [he]; exact hp
    · rw [he]; rfl
    · rw [he]; exact hs
    · rw [he]; rfl
  obtain ⟨Lp, hsb, hg, hgs, hh⟩ := lapi_setup_binds_keeps client cfgVersion base
    (LuaState.mk L1.registry (L1.globals.rawset (.str "createtable") (.cfun create_table))
      L1.heap L1.stack) 0 f1 (by simp only; omega)
  refine ⟨Lp, ?_, ?_, ?_, ?_, fun ld externals g hi => ?_⟩
  · rw [hg]
    simp only
    rw [LTable.rawget_rawset_of_ne _ _ _ _ (by decide)]
    exact f3
  · rw [hh 4 f2 (by decide)]
    exact f4
  · rw [hgs]
    simp only
    rw [LTable.rawget_rawset_of_ne _ _ _ _ (by decide)]
    exact f5
  · rw [hh 2 (by simp only; omega) (by decide)]
    exact f6
  · rw [lapi_init_eq _ _ _ _ _ _ _ _ _ _ hi, h1]
    simp only [bind, Except.bind]
    have hsg : lua_setglobal (lua_pushcfunction L1 create_table) "createtable"
        = .ok (LuaState.mk L1.registry (L1.globals.rawset (.str "createtable")
            (.cfun create_table)) L1.heap L1.stack) := rfl
    rw [hsg]
    simp only
    rw [hsb]
    cases lapi.load_module win32 ld dir externals Lp "init" with
    | error e => rfl
    | ok p => rfl

/-- The function `lapi::init`, from statics that are not initialized, builds
the search path and then loads the bootstrap module on a state `Lp` whose
`package.path` is the text of the home pieces followed by the text of the root
pieces. -/
theorem lapi_init_loads_bootstrap_on_path (client win32 : Bool) (cfgVersion : Int)
    (base : cfuns) (homedir defaultPath dir : String) :
    ∃ Lp, packagePath Lp = some (lapi.homePart win32 homedir ++ lapi.rootPart)
      ∧ ∀ (ld : Loader) (externals : hashtable) (g : LapiStatics), g.initialized = false →
          lapi.init client win32 cfgVersion base homedir defaultPath ld externals g dir
            = (lapi.load_module win32 ld dir externals Lp "init").map
                (fun p => (p.1, LapiStatics.mk (some p.2) dir true)) := by
  obtain ⟨Lp, hp, ha, -, -, h⟩ := lapi_init_state client win32 cfgVersion base homedir
    defaultPath dir
  exact ⟨Lp, packagePath_of Lp 4 _ .nil _ hp ha (LTable.rawget_rawset_self _ _ _), h⟩

/-- C14: in the search path that `init` builds (`lua::init` and `lapi::init`),
the templates of the home directory come before the templates relative to the
installation.  A call of `init` on statics without a state runs the bootstrap
module on a state whose `package.path` is the text of the home pieces followed
by the text of the root pieces, and returns what that load returns; the
templates of this path are those of the home part followed by the root
templates; and a module that the search finds under the home part is what the
search over the whole path returns, whatever files exist under the root
templates.  The same holds for `lapi::init` and its pieces. -/
theorem search_path_home_first (server client win32 : Bool) (cfgVersion : Int)
    (fs base : cfuns) (homedir defaultPath dir : String) (readable : String → Bool)
    (name : String) :
    (∃ Lp, packagePath Lp = some (homePart win32 homedir ++ rootPart)
      ∧ ∀ (ld : Loader) (g : LuaStatics), g.L = none → g.funs = some fs →
          init server win32 homedir defaultPath ld g dir
            = (load_module win32 ld (copystring dir) g.externals Lp "init").map
                (fun p => LuaStatics.mk (some p.2) (copystring dir) p.1 none))
    ∧ pathTemplates (homePart win32 homedir ++ rootPart)
        = pathTemplates (homePart win32 homedir)
          ++ ["./media/?/init.lua", "./media/?.lua", "./media/lua/?/init.lua",
              "./media/lua/?.lua"]
    ∧ (∀ f, findfile win32 readable (homePart win32 homedir) name = some f →
        findfile win32 readable (homePart win32 homedir ++ rootPart) name = some f)
    ∧ (∃ Lp, packagePath Lp = some (lapi.homePart win32 homedir ++ lapi.rootPart)
      ∧ ∀ (ld : Loader) (externals : hashtable) (g : LapiStatics), g.initialized = false →
          lapi.init client win32 cfgVersion base homedir defaultPath ld externals g dir
            = (lapi.load_module win32 ld dir externals Lp "init").map
                (fun p => (p.1, LapiStatics.mk (some p.2) dir true)))
    ∧ pathTemplates (lapi.homePart win32 homedir ++ lapi.rootPart)
        = pathTemplates (lapi.homePart win32 homedir)
          ++ ["./data/library/core/?.lua", "./data/library/core/?/init.lua",
              "./data/?/init.lua", "./data/?.lua", "./data/library/?/init.lua"]
    ∧ (∀ f, findfile win32 readable (lapi.homePart win32 homedir) name = some f →
        findfile win32 readable (lapi.homePart win32 homedir ++ lapi.rootPart) name = some f) := by
  refine ⟨init_loads_bootstrap_on_path server win32 homedir defaultPath dir fs,
    rootPart_templates _, ?_,
    lapi_init_loads_bootstrap_on_path client win32 cfgVersion base homedir defaultPath dir,
    lapi_rootPart_templates _, ?_⟩
  · intro f h
    have hr : rootPart
        = ";" ++ "./media/?/init.lua;./media/?.lua;./media/lua/?/init.lua;./media/lua/?.lua" := by
      decide
    rw [hr]
    exact findfile_append win32 readable _ _ name f h
  · intro f h
    have hr : lapi.rootPart = ";" ++ "./data/library/core/?.lua;./data/library/core/?/init.lua;./data/?/init.lua;./data/?.lua;./data/library/?/init.lua" := by
      decide
    rw [hr]
    exact findfile_append win32 readable _ _ name f h

/-- C14, witness: with the home directory `/home/u/`, a bootstrap module that
loads and one registered function, `lua::init` and `lapi::init` return
statics whose state has the home templates before the root templates in
`package.path`; when the module `m` exists both as `/home/u/media/m.lua` and
as `./media/m.lua` the search over the path of `lua::init` returns the file of
the home directory. -/
theorem search_path_home_first_witness :
    (∃ g1 L1, init false false "/home/u/" "./?.lua" quietLoader
          (LuaStatics.mk none "" (fun _ => none) (some [{ name := "a", fn := 1 }])) "media/lua"
          = .ok g1
        ∧ g1.L = some L1
        ∧ packagePath L1 = some (homePart false "/home/u/" ++ rootPart))
    ∧ (∃ e1 g1 L1, lapi.init true false 1 [] "/home/u/" "./?.lua" quietLoader (fun _ => none)
          LapiStatics.start "media/lua" = .ok (e1, g1)
        ∧ g1.L = some L1
        ∧ packagePath L1 = some (lapi.homePart false "/home/u/" ++ lapi.rootPart))
    ∧ findfile false (fun f => f = "/home/u/media/m.lua" || f = "./media/m.lua")
        (homePart false "/home/u/" ++ rootPart) "m" = some "/home/u/media/m.lua" := by
  obtain ⟨⟨Lp, hp, hinit⟩, -, hfind, ⟨Lq, hq, hlapi⟩, -, -⟩ :=
    search_path_home_first false true false 1 [{ name := "a", fn := 1 }] [] "/home/u/" "./?.lua"
      "media/lua" (fun f => f = "/home/u/media/m.lua" || f = "./media/m.lua") "m"
  refine ⟨⟨LuaStatics.mk (some Lp) (copystring "media/lua") (fun _ => none) none, Lp, ?_, rfl,
      hp⟩, ⟨fun _ => none, LapiStatics.mk (some Lq) "media/lua" true, Lq, ?_, rfl, hq⟩,
    hfind _ (by decide)⟩
  · rw [hinit quietLoader _ rfl rfl]
    rfl
  · rw [hlapi quietLoader (fun _ => none) LapiStatics.start rfl]
    rfl

/-! ## The presence check as a pattern -/

set_option maxRecDepth 1000000 in
/-- The presence check for the name `core/.` on the path that `lapi::init`
builds: the pattern matches the entry `;./data/library/core/?.lua`. -/
theorem template_pattern_found_in_init_path :
    str_find_aux (lapi.homePart false "/home/u/" ++ lapi.rootPart)
      (";./data/library/" ++ "core/." ++ "/?.lua") = .ok (some 76) := by
  rfl

set_option maxRecDepth 1000000 in
/-- The template of the name `core/.` does not occur in the path that
`lapi::init` builds. -/
theorem template_text_not_in_init_path :
    strstr (lapi.homePart false "/home/u/" ++ lapi.rootPart)
      (";./data/library/" ++ "core/." ++ "/?.lua") = false := by
  decide

/-- C18 (defect): after `lapi::init` with the home directory `/home/u/` and a
bootstrap module that loads, the template `;./data/library/core/./?.lua` of
the library name `core/.` (not null, without `".."`) does not occur in
`package.path`, but `load_library("core/.")` returns true without appending
anything, where the two templates of the library were to be appended: the
presence check is `string.find` in pattern mode, and as a pattern the template
matches the entry `;./data/library/core/?.lua` of the path (at position 76),
so the library is taken as present and the Lua state is left as it was. -/
theorem load_library_pattern_match_appends_nothing :
    ∃ e1 g1 L0,
      lapi.init true false 1 [] "/home/u/" "./?.lua" quietLoader (fun _ => none)
          LapiStatics.start "media/lua" = .ok (e1, g1)
      ∧ g1.L = some L0
      ∧ packagePath L0 = some (lapi.homePart false "/home/u/" ++ lapi.rootPart)
      ∧ strstr "core/." ".." = false
      ∧ strstr (lapi.homePart false "/home/u/" ++ lapi.rootPart)
          (";./data/library/" ++ "core/." ++ "/?.lua") = false
      ∧ lapi.load_library false "/home/u/" str_find_aux L0 (some "core/.") = .ok (L0, true) := by
  obtain ⟨Lp, hp, ha, hs, hb, hinit⟩ := lapi_init_state true false 1 [] "/home/u/" "./?.lua"
    "media/lua"
  refine ⟨fun _ => none, LapiStatics.mk (some Lp) "media/lua" true, Lp, ?_, rfl,
    packagePath_of Lp 4 _ .nil _ hp ha (LTable.rawget_rawset_self _ _ _), by decide,
    template_text_not_in_init_path, ?_⟩
  · rw [hinit quietLoader (fun _ => none) LapiStatics.start rfl]
    rfl
  · exact load_library_present_eq false "/home/u/" str_find_aux Lp "core/."
      (lapi.homePart false "/home/u/" ++ lapi.rootPart) 4 2 _ _ 76 hp ha
      (by simp only [LTable.rawget_rawset_self]) hs hb rfl (by decide)
      template_pattern_found_in_init_path

/-- After `lapi::init` with the home directory `/home/u/` and a bootstrap
module that loads, the presence check of `string.find` for the library `foo`
finds nothing, and `load_library("foo")` appends the two templates of `foo` to
the path. -/
theorem load_library_appends_after_init :
    ∃ e1 g1 L0 L1,
      lapi.init true false 1 [] "/home/u/" "./?.lua" quietLoader (fun _ => none)
          LapiStatics.start "media/lua" = .ok (e1, g1)
      ∧ g1.L = some L0
      ∧ packagePath L0 = some (lapi.homePart false "/home/u/" ++ lapi.rootPart)
      ∧ lapi.load_library false "/home/u/" str_find_aux L0 (some "foo") = .ok (L1, true)
      ∧ packagePath L1 = some (lapi.homePart false "/home/u/" ++ lapi.rootPart
          ++ ";/home/u/data/library/foo/?.lua;./data/library/foo/?.lua") := by
  obtain ⟨Lp, hp, ha, hs, hb, hinit⟩ := lapi_init_state true false 1 [] "/home/u/" "./?.lua"
    "media/lua"
  obtain ⟨L1, h1, hq0, hq1, -⟩ := load_library_appends false "/home/u/" str_find_aux Lp
    "foo" (lapi.homePart false "/home/u/" ++ lapi.rootPart) 4 2 _ _ hp ha
    (by simp only [LTable.rawget_rawset_self]) hs hb rfl (by decide) template_not_in_init_path
  rw [appended_path_text] at hq1
  refine ⟨fun _ => none, LapiStatics.mk (some Lp) "media/lua" true, Lp, L1, ?_, rfl, hq0, h1,
    hq1⟩
  rw [hinit quietLoader (fun _ => none) LapiStatics.start rfl]
  rfl

/-! ## Runtime instances -/

end OF
